import Mathlib

/-!
Verification of the job-orchestration core of the Larynx text-to-speech
backend (`backend/server.py`).  Text is modelled as `List Char`; audio blobs
as `List Nat` (byte lists); the document store as an association list.
External collaborators (the synthesis API, ffmpeg, the studio API) enter as
oracle parameters, and each orchestrator is embedded as a function producing
the trace of events (record updates, file writes, outbound requests) that the
Python coroutine performs.
-/

namespace Larynx

/-! ## The chunker (`split_text_into_chunks`, server.py lines 184-230) -/

/-- Whitespace as classified by Python's `str.strip()` / `str.split()` / the
regex class `\s`, restricted to the ASCII range exercised here:
space, tab, newline, carriage return, vertical tab, form feed. -/
def pyIsSpace (c : Char) : Bool :=
  c = ' ' || c = '\t' || c = '\n' || c = '\r' || c = '\x0b' || c = '\x0c'

/-- The sentence terminators of the chunker's regex `(?<=[.!?])\s+`. -/
def isTerm (c : Char) : Bool :=
  c = '.' || c = '!' || c = '?'

/-- Python `str.strip()`: remove leading and trailing whitespace. -/
def pyStrip (s : List Char) : List Char :=
  ((s.dropWhile pyIsSpace).reverse.dropWhile pyIsSpace).reverse

/-- Is the first character whitespace?  (`false` on the empty list.) -/
def firstIsSpace : List Char → Bool
  | [] => false
  | c :: _ => pyIsSpace c

/-- Length bound used for termination of the scanning recursions below. -/
def dropWhileLenLe (p : Char → Bool) (l : List Char) :
    (l.dropWhile p).length ≤ l.length := by
  conv_rhs => rw [← List.takeWhile_append_dropWhile p l]
  rw [List.length_append]
  omega

/-- `re.split(r'(?<=[.!?])\s+', text)`: cut after each terminator that is
followed by whitespace, consuming the maximal whitespace run.  `acc` is the
sentence currently being accumulated; like `re.split`, the final (possibly
empty) piece is always emitted. -/
def splitSentencesAux (acc : List Char) (l : List Char) : List (List Char) :=
  match l with
  | [] => [acc]
  | c :: rest =>
    if isTerm c && firstIsSpace rest then
      (acc ++ [c]) :: splitSentencesAux [] (rest.dropWhile pyIsSpace)
    else
      splitSentencesAux (acc ++ [c]) rest
termination_by l.length
decreasing_by
  · simp only [List.length_cons]
    exact Nat.lt_succ_of_le (dropWhileLenLe _ _)
  · simp

/-- The sentence list the chunker starts from. -/
def splitSentences (text : List Char) : List (List Char) :=
  splitSentencesAux [] text

/-- Python `str.split()` (no separator): maximal runs of non-whitespace. -/
def pySplitWords (l : List Char) : List (List Char) :=
  match l with
  | [] => []
  | c :: rest =>
    if pyIsSpace c then
      pySplitWords rest
    else
      (c :: rest.takeWhile (fun d => !pyIsSpace d)) ::
        pySplitWords (rest.dropWhile (fun d => !pyIsSpace d))
termination_by l.length
decreasing_by
  · simp
  · simp only [List.length_cons]
    exact Nat.lt_succ_of_le (dropWhileLenLe _ _)

/-- The inner word-packing loop of `split_text_into_chunks` (the fallback for
a single sentence longer than `max_chars`).  State is `current_chunk`; the
result is the list of chunks the loop appends, in order, together with the
final `current_chunk`. -/
def packWords (maxChars : Nat) (cc : List Char) (ws : List (List Char)) :
    List (List Char) × List Char :=
  match ws with
  | [] => ([], cc)
  | w :: rest =>
    if cc.length + w.length + 1 > maxChars then
      let r := packWords maxChars w rest
      ((if cc.isEmpty then [] else [pyStrip cc]) ++ r.1, r.2)
    else
      packWords maxChars (pyStrip (cc ++ ' ' :: w)) rest

/-- The outer sentence-packing loop of `split_text_into_chunks`.  Mirrors the
Python loop body: strip the sentence, skip it if empty, flush on overflow,
fall back to word packing when the sentence alone exceeds the bound, and
otherwise append the sentence to `current_chunk` with a single space. -/
def packSentences (maxChars : Nat) (cc : List Char) (ss : List (List Char)) :
    List (List Char) × List Char :=
  match ss with
  | [] => ([], cc)
  | s :: rest =>
    if (pyStrip s).isEmpty then
      packSentences maxChars cc rest
    else if cc.length + (pyStrip s).length + 1 > maxChars then
      if (pyStrip s).length > maxChars then
        ((if cc.isEmpty then [] else [pyStrip cc]) ++
            (packWords maxChars [] (pySplitWords (pyStrip s))).1 ++
            (packSentences maxChars
              (packWords maxChars [] (pySplitWords (pyStrip s))).2 rest).1,
          (packSentences maxChars
            (packWords maxChars [] (pySplitWords (pyStrip s))).2 rest).2)
      else
        ((if cc.isEmpty then [] else [pyStrip cc]) ++
            (packSentences maxChars (pyStrip s) rest).1,
          (packSentences maxChars (pyStrip s) rest).2)
    else
      packSentences maxChars
        (if cc.isEmpty then pyStrip s else cc ++ ' ' :: pyStrip s) rest

/-- `split_text_into_chunks(text, max_chars)` from `backend/server.py`:
sentence-boundary splitting followed by greedy packing, with the trailing
`current_chunk` flushed at the end. -/
def split_text_into_chunks (text : List Char) (maxChars : Nat) :
    List (List Char) :=
  (packSentences maxChars [] (splitSentences text)).1 ++
    (if (packSentences maxChars [] (splitSentences text)).2.isEmpty then []
     else [pyStrip (packSentences maxChars [] (splitSentences text)).2])

/-! ### Predicates used to state and prove the chunker's properties -/

/-- The non-whitespace characters of a string, in order. -/
def nsp (s : List Char) : List Char :=
  s.filter (fun c => !pyIsSpace c)

/-- The string contains no whitespace at all. -/
def NoWs (s : List Char) : Prop :=
  ∀ c ∈ s, pyIsSpace c = false

/-- No leading and no trailing whitespace (`s.strip() == s`). -/
def Stripped (s : List Char) : Prop :=
  firstIsSpace s = false ∧ firstIsSpace s.reverse = false

/-- No terminator immediately followed by whitespace.  Every sentence unit
the splitter produces satisfies this: such a pair would have been a split
boundary. -/
def noTermWs : List Char → Bool
  | [] => true
  | [_] => true
  | c :: d :: rest => !(isTerm c && pyIsSpace d) && noTermWs (d :: rest)

/-- Every whitespace character that follows a terminator is a single `' '`
followed by a non-space character.  Output chunks have this shape (they are
stripped units joined by single spaces), which makes re-splitting a chunk
recover exactly the units it was joined from. -/
def chunkShape : List Char → Bool
  | [] => true
  | [_] => true
  | c :: d :: rest =>
    if isTerm c && pyIsSpace d then
      (d = ' ') && (match rest with | [] => false | e :: _ => !pyIsSpace e)
        && chunkShape rest
    else
      chunkShape (d :: rest)

/-- Join a list of units with single spaces — how the packing loops assemble
a chunk from stripped pieces. -/
def joinSp : List (List Char) → List Char
  | [] => []
  | [u] => u
  | u :: us => u ++ ' ' :: joinSp us

/-- Well-formedness of a returned chunk: non-empty, stripped, of the
single-space-joined shape, and within the bound unless whitespace-free. -/
def IsChunk (maxChars : Nat) (s : List Char) : Prop :=
  s ≠ [] ∧ Stripped s ∧ chunkShape s = true ∧
    (s.length ≤ maxChars ∨ NoWs s)

/-- Invariant of the running `current_chunk` inside the packing loops. -/
def CCInv (maxChars : Nat) (cc : List Char) : Prop :=
  cc = [] ∨
    (Stripped cc ∧ chunkShape cc = true ∧ (cc.length ≤ maxChars ∨ NoWs cc))

/-! ## Data model: settings, jobs, the document store, the filesystem

Audio blobs are byte lists, object ids are naturals, wall-clock timestamps
are not modelled (no claim mentions them).  The numeric voice parameters are
rationals. -/

/-- Audio bytes. -/
abbrev Audio := List Nat

/-- `MAX_CHUNK_SIZE` (server.py line 47). -/
def MAX_CHUNK_SIZE : Nat := 4500

/-- Job-level status strings of `server.py`. -/
inductive JStatus
  | queued | chunking | transcribing | merging | processing | completed
  | failed
  deriving DecidableEq

/-- Per-chunk request status strings. -/
inductive CStatus
  | pending | completed | failed
  deriving DecidableEq

/-- Artifact locations in the storage directory.  The code derives them
injectively from the job id (`{id}.mp3`) or from the job id and chunk index
(`{id}_chunk_{i}.mp3`); the embedding keeps them structured. -/
inductive ArtifactPath
  | chunk (jobId i : Nat)
  | main (jobId : Nat)
  deriving DecidableEq

/-- `VoiceSettings` (server.py lines 102-108). -/
structure VoiceSettings where
  stability : ℚ
  similarity_boost : ℚ
  speed : ℚ
  style : ℚ
  use_speaker_boost : Bool
  deriving DecidableEq

/-- The pydantic field defaults of `VoiceSettings`. -/
def defaultVoiceSettings : VoiceSettings :=
  ⟨1/2, 1, 6/5, 0, false⟩

/-- `StudioSettings` (server.py lines 110-113). -/
structure StudioSettings where
  quality_preset : String
  volume_normalization : Bool
  apply_text_normalization : String
  deriving DecidableEq

/-- The pydantic field defaults of `StudioSettings`. -/
def defaultStudioSettings : StudioSettings :=
  ⟨"standard", false, "auto"⟩

/-- `TTSSettings` (server.py lines 116-122). -/
structure TTSSettings where
  mode : String
  voice_id : String
  model_id : String
  output_format : String
  voice_settings : VoiceSettings
  studio_settings : StudioSettings
  deriving DecidableEq

/-- `DEFAULT_TTS_SETTINGS` (server.py lines 135-152), with the default
environment values of voice and model id. -/
def DEFAULT_TTS_SETTINGS : TTSSettings :=
  ⟨"chunking", "LNHBM9NjjOl44Efsdmtl", "eleven_multilingual_v2",
    "mp3_44100_128", ⟨1/2, 1, 6/5, 0, false⟩, defaultStudioSettings⟩

/-- A `voice_settings` object of a PATCH body before pydantic parsing: each
sub-field may be absent from the JSON. -/
structure VoiceSettingsInput where
  stability : Option ℚ
  similarity_boost : Option ℚ
  speed : Option ℚ
  style : Option ℚ
  use_speaker_boost : Option Bool
  deriving DecidableEq

/-- Pydantic parsing of a `voice_settings` request object: absent sub-fields
become the model defaults of server.py lines 102-108. -/
def parseVoiceSettings (i : VoiceSettingsInput) : VoiceSettings :=
  ⟨i.stability.getD (1/2), i.similarity_boost.getD 1, i.speed.getD (6/5),
    i.style.getD 0, i.use_speaker_boost.getD false⟩

/-- A `studio_settings` object of a PATCH body before pydantic parsing. -/
structure StudioSettingsInput where
  quality_preset : Option String
  volume_normalization : Option Bool
  apply_text_normalization : Option String
  deriving DecidableEq

/-- Pydantic parsing of a `studio_settings` request object: absent sub-fields
become the model defaults of server.py lines 110-113. -/
def parseStudioSettings (i : StudioSettingsInput) : StudioSettings :=
  ⟨i.quality_preset.getD "standard", i.volume_normalization.getD false,
    i.apply_text_normalization.getD "auto"⟩

/-- `TTSSettingsUpdate` (server.py lines 125-131): every top-level field
optional. -/
structure TTSSettingsUpdate where
  mode : Option String
  voice_id : Option String
  model_id : Option String
  output_format : Option String
  voice_settings : Option VoiceSettings
  studio_settings : Option StudioSettings
  deriving DecidableEq

/-- The merge performed by `patch_settings` (server.py lines 887-925): each
provided top-level field replaces the stored one; a provided
`voice_settings`/`studio_settings` object overwrites every one of its
sub-fields with the request object's values. -/
def applySettingsUpdate (current : TTSSettings) (u : TTSSettingsUpdate) :
    TTSSettings where
  mode := u.mode.getD current.mode
  voice_id := u.voice_id.getD current.voice_id
  model_id := u.model_id.getD current.model_id
  output_format := u.output_format.getD current.output_format
  voice_settings :=
    match u.voice_settings with
    | none => current.voice_settings
    | some vs => ⟨vs.stability, vs.similarity_boost, vs.speed, vs.style,
        vs.use_speaker_boost⟩
  studio_settings :=
    match u.studio_settings with
    | none => current.studio_settings
    | some ss => ⟨ss.quality_preset, ss.volume_normalization,
        ss.apply_text_normalization⟩

/-- The request parameters snapshot stored in each `chunk_requests` entry by
`create_job` (server.py lines 956-988); the two modes store different
shapes. -/
inductive ChunkReqParams
  | chunking (voice_id model_id output_format : String)
      (voice_settings : VoiceSettings) (text : List Char) (text_length : Nat)
  | studio (voice_id model_id quality_preset : String)
      (voice_settings : VoiceSettings) (studio_settings : StudioSettings)
      (text_length : Nat)
  deriving DecidableEq

/-- One `chunk_requests` entry of a job document. -/
structure ChunkRequest where
  chunk_index : Nat
  request : ChunkReqParams
  status : CStatus
  error : Option String
  audio_path : Option ArtifactPath
  audio_url : Option String
  deriving DecidableEq

/-- The `tts_config` snapshot stored in a job document at creation
(server.py lines 1000-1008). -/
structure TTSConfig where
  api : String
  mode : String
  voice_id : String
  model_id : String
  output_format : String
  voice_settings : VoiceSettings
  studio_settings : StudioSettings
  deriving DecidableEq

/-- A job document (server.py lines 992-1018 plus the fields the
orchestrators add). -/
structure JobDoc where
  name : String
  text_length : Nat
  original_text : List Char
  chunk_count : Nat
  processed_chunks : Nat
  chunks : List (List Char)
  chunk_requests : List ChunkRequest
  tts_config : TTSConfig
  status : JStatus
  stage : String
  progress : Nat
  error : Option String
  audio_path : Option ArtifactPath
  audio_url : Option String
  duration_seconds : Option ℚ
  studio_project_id : Option String
  studio_snapshot_id : Option String
  deriving DecidableEq

/-- The document store: the settings singleton and the jobs collection. -/
structure DB where
  settings : Option TTSSettings
  jobs : List (Nat × JobDoc)
  deriving DecidableEq

/-- The storage directory: an association list path → bytes, newest first. -/
abbrev FS := List (ArtifactPath × Audio)

/-- Document store plus filesystem. -/
structure World where
  db : DB
  fs : FS
  deriving DecidableEq

/-- `get_tts_settings` (server.py lines 174-181). -/
def get_tts_settings (db : DB) : TTSSettings :=
  match db.settings with
  | some s => s
  | none => DEFAULT_TTS_SETTINGS

/-- PUT `/api/settings` (server.py lines 855-884): full replacement. -/
def update_settings (db : DB) (s : TTSSettings) : DB :=
  { db with settings := some s }

/-- PATCH `/api/settings` (server.py lines 887-925). -/
def patch_settings (db : DB) (u : TTSSettingsUpdate) : DB :=
  { db with settings := some (applySettingsUpdate (get_tts_settings db) u) }

/-- POST `/api/settings/reset` (server.py lines 928-932). -/
def reset_settings (db : DB) : DB :=
  { db with settings := none }

/-- HTTP request-level failures surfaced by the API layer. -/
inductive HTTPError
  | badRequest (detail : String)
  | notFound (detail : String)
  | unprocessable
  deriving DecidableEq

/-- The status code of each failure: explicit `HTTPException(400/404)` from
the handlers, and 422 for a body failing pydantic validation (FastAPI's
documented behavior for request-validation errors). -/
def HTTPError.code : HTTPError → Nat
  | .badRequest _ => 400
  | .notFound _ => 404
  | .unprocessable => 422

/-- The `JobCreate` pydantic model (server.py lines 81-83): `name` between 1
and 200 characters, `text` at least 100 characters. -/
def validateJobCreate (name : String) (text : List Char) : Bool :=
  (1 ≤ name.length && name.length ≤ 200) && 100 ≤ text.length

/-- Artifact path of a chunk (server.py line 712). -/
def chunkAudioPath (jobId i : Nat) : ArtifactPath :=
  .chunk jobId i

/-- Per-chunk audio URL (server.py line 729). -/
def chunkAudioUrl (jobId i : Nat) : String :=
  "/api/jobs/" ++ toString jobId ++ "/chunks/" ++ toString i ++ "/audio"

/-- Job artifact path (server.py lines 612 and 765). -/
def jobAudioPath (jobId : Nat) : ArtifactPath :=
  .main jobId

/-- Job download URL (server.py lines 630 and 770). -/
def jobAudioUrl (jobId : Nat) : String :=
  "/api/jobs/" ++ toString jobId ++ "/download"

/-- The `chunk_requests` array built by `create_job`
(server.py lines 956-988). -/
def mkChunkRequests (tts : TTSSettings) (chunks : List (List Char)) :
    List ChunkRequest :=
  (List.range chunks.length).zip chunks |>.map fun p =>
    if tts.mode = "chunking" then
      ⟨p.1, .chunking tts.voice_id tts.model_id tts.output_format
        tts.voice_settings p.2 p.2.length, .pending, none, none, none⟩
    else
      ⟨p.1, .studio tts.voice_id tts.model_id
        tts.studio_settings.quality_preset tts.voice_settings
        tts.studio_settings p.2.length, .pending, none, none, none⟩

/-- POST `/api/jobs` after validation (server.py lines 935-1048): read the
current settings, chunk the text (chunking mode) or keep it whole (studio
mode), reject a text that chunks to nothing, store the job document with a
`tts_config` snapshot, status `queued` and progress 0. -/
def create_job (db : DB) (newId : Nat) (name : String) (text : List Char) :
    Except HTTPError (DB × JobDoc) :=
  let tts := get_tts_settings db
  let chunks := if tts.mode = "chunking"
    then split_text_into_chunks text MAX_CHUNK_SIZE
    else [text]
  if tts.mode = "chunking" ∧ chunks.length = 0 then
    .error (.badRequest "Text is too short to process")
  else
    let doc : JobDoc :=
      { name := name,
        text_length := text.length,
        original_text := text,
        chunk_count := chunks.length,
        processed_chunks := 0,
        chunks := chunks,
        chunk_requests := mkChunkRequests tts chunks,
        tts_config := ⟨"ElevenLabs", tts.mode, tts.voice_id, tts.model_id,
          tts.output_format, tts.voice_settings, tts.studio_settings⟩,
        status := .queued,
        stage := "Waiting in queue...",
        progress := 0,
        error := none,
        audio_path := none,
        audio_url := none,
        duration_seconds := none,
        studio_project_id := none,
        studio_snapshot_id := none }
    .ok ({ db with jobs := db.jobs ++ [(newId, doc)] }, doc)

/-- The full request path of POST `/api/jobs`: FastAPI validates the body
against `JobCreate` before the handler runs; a failing body is answered with
422 and the handler (and hence any store write) is never reached. -/
def handle_create_job (db : DB) (newId : Nat) (name : String)
    (text : List Char) : Except HTTPError (DB × JobDoc) :=
  if validateJobCreate name text then
    create_job db newId name text
  else
    .error .unprocessable

/-! ## The orchestrators as trace-producing functions -/

/-- One synthesis request, as assembled by `tts_chunk_to_audio_sync`
(server.py lines 815-837) from a job's own `tts_config`. -/
structure SynthRequest where
  text : List Char
  voice_id : String
  model_id : String
  output_format : String
  stability : ℚ
  similarity_boost : ℚ
  speed : ℚ
  style : ℚ
  use_speaker_boost : Bool
  deriving DecidableEq

/-- Build the synthesis request for one chunk from the stored config. -/
def mkSynthRequest (cfg : TTSConfig) (text : List Char) : SynthRequest :=
  ⟨text, cfg.voice_id, cfg.model_id, cfg.output_format,
    cfg.voice_settings.stability, cfg.voice_settings.similarity_boost,
    cfg.voice_settings.speed, cfg.voice_settings.style,
    cfg.voice_settings.use_speaker_boost⟩

/-- The studio project-creation request assembled by `process_studio_job`
(server.py lines 446-469) from a job's own `tts_config`. -/
structure StudioRequest where
  default_paragraph_voice_id : String
  default_model_id : String
  quality_preset : String
  volume_normalization : Bool
  apply_text_normalization : String
  stability : ℚ
  similarity_boost : ℚ
  style : ℚ
  speed : ℚ
  use_speaker_boost : Bool
  deriving DecidableEq

/-- Build the studio creation request from the stored config. -/
def mkStudioRequest (cfg : TTSConfig) : StudioRequest :=
  ⟨cfg.voice_id, cfg.model_id, cfg.studio_settings.quality_preset,
    cfg.studio_settings.volume_normalization,
    cfg.studio_settings.apply_text_normalization,
    cfg.voice_settings.stability, cfg.voice_settings.similarity_boost,
    cfg.voice_settings.style, cfg.voice_settings.speed,
    cfg.voice_settings.use_speaker_boost⟩

/-- Observable events of an orchestrator run, in order. -/
inductive Ev
  | dbUpdate (jobId : Nat) (j : JobDoc)
  | fileWrite (path : ArtifactPath) (data : Audio)
  | synthCall (i : Nat) (req : SynthRequest)
  | studioCreate (req : StudioRequest)
  | sleep (units : Nat)
  | poll (attempt : Nat)
  | webhook (jobId : Nat)
  deriving DecidableEq

/-- Look a job up by id. -/
def lookupJob (db : DB) (jobId : Nat) : Option JobDoc :=
  (db.jobs.find? (fun p => decide (p.1 = jobId))).map Prod.snd

/-- Replace a job document. -/
def setJob (db : DB) (jobId : Nat) (j : JobDoc) : DB :=
  { db with jobs := db.jobs.map fun p =>
      if p.1 = jobId then (jobId, j) else p }

/-- Look a file up; the newest write of a path wins. -/
def fsLookup (fs : FS) (path : ArtifactPath) : Option Audio :=
  (fs.find? (fun e => decide (e.1 = path))).map Prod.snd

/-- Delete a file (no-op when absent, like the guarded `os.remove`). -/
def removeFile (fs : FS) (path : ArtifactPath) : FS :=
  fs.filter (fun e => !decide (e.1 = path))

/-- Effect of one event on the world. -/
def applyEv (w : World) : Ev → World
  | .dbUpdate jobId j => { w with db := setJob w.db jobId j }
  | .fileWrite path data => { w with fs := (path, data) :: w.fs }
  | _ => w

/-- Replay a trace. -/
def runTrace (w : World) (evs : List Ev) : World :=
  evs.foldl applyEv w

/-- The successive job-record snapshots an external reader can observe:
the initial record followed by the state after each record update. -/
def jobStates (init : JobDoc) (evs : List Ev) : List JobDoc :=
  init :: evs.filterMap fun e =>
    match e with
    | .dbUpdate _ j => some j
    | _ => none

/-- Update entry `i` of a `chunk_requests` array (Mongo's dotted
`chunk_requests.i.…` update). -/
def modifyChunkRequest (f : ChunkRequest → ChunkRequest) :
    Nat → List ChunkRequest → List ChunkRequest
  | _, [] => []
  | 0, c :: t => f c :: t
  | n + 1, c :: t => c :: modifyChunkRequest f n t

/-- `merge_audio_chunks` (server.py lines 263-369).  The ffmpeg invocations
are oracles: `probe` is the duration parsed from `ffmpeg -i` stderr (the code
falls back to `0.0` when no `Duration:` line is present, so the probe is a
total function), `concat` the stream-copy concat run, failing on a non-zero
exit with the run's stderr. -/
def merge_audio_chunks (probe : Audio → ℚ)
    (concat : List Audio → Except String Audio) :
    List Audio → Except String (Audio × ℚ)
  | [] => .error "No audio chunks to merge"
  | [a] => .ok (a, probe a)
  | chunks =>
    match concat chunks with
    | .error e => .error ("ffmpeg merge failed: " ++ e)
    | .ok merged => .ok (merged, probe merged)

/-- External collaborators of the sequential orchestrator: per-chunk
synthesis outcome and the two ffmpeg oracles. -/
structure TtsOracle where
  synth : Nat → Except String Audio
  probe : Audio → ℚ
  concat : List Audio → Except String Audio

/-- The per-chunk request update applied on success (server.py lines
726-729). -/
def crCompleted (jobId i : Nat) (cr : ChunkRequest) : ChunkRequest :=
  { cr with
    status := .completed,
    audio_path := some (chunkAudioPath jobId i),
    audio_url := some (chunkAudioUrl jobId i) }

/-- The per-chunk request update applied on failure (server.py lines
738-741). -/
def crFailed (e : String) (cr : ChunkRequest) : ChunkRequest :=
  { cr with status := .failed, error := some e }

/-- The record after the success of chunk `i` (server.py lines 716-732). -/
def jAfterChunk (jobId cc i : Nat) (j : JobDoc) : JobDoc :=
  { j with
    processed_chunks := i + 1,
    progress := (i + 1) * 85 / cc,
    stage := "Converting to speech (" ++ toString (i + 1) ++ "/" ++
      toString cc ++ ")...",
    chunk_requests := modifyChunkRequest (crCompleted jobId i) i
      j.chunk_requests }

/-- The record after the failure of chunk `i` (server.py lines 733-744). -/
def jChunkFailed (e : String) (i : Nat) (j : JobDoc) : JobDoc :=
  { j with
    chunk_requests := modifyChunkRequest (crFailed e) i j.chunk_requests }

/-- The `failed` transition (server.py lines 801-812 and the studio error
paths): status `failed` with the error text. -/
def jFailed (e : String) (j : JobDoc) : JobDoc :=
  { j with status := JStatus.failed, error := some e }

/-- Entering the `chunking` stage (server.py lines 682-685). -/
def jChunking (j : JobDoc) : JobDoc :=
  { j with status := JStatus.chunking, stage := "Analyzing text..." }

/-- Entering the `transcribing` stage (server.py lines 696-699). -/
def jTranscribing (cc : Nat) (j : JobDoc) : JobDoc :=
  { j with
    status := JStatus.transcribing,
    stage := "Converting to speech (0/" ++ toString cc ++ ")..." }

/-- Entering the `merging` stage (server.py lines 750-753). -/
def jMerging (j : JobDoc) : JobDoc :=
  { j with
    status := JStatus.merging,
    stage := "Merging audio chunks...",
    progress := 90 }

/-- The artifact-saving update (server.py lines 760-763). -/
def jSaving (j : JobDoc) : JobDoc :=
  { j with stage := "Saving audio file...", progress := 95 }

/-- The completion update of the sequential orchestrator (server.py lines
769-784). -/
def jDone (jobId : Nat) (dur : ℚ) (j : JobDoc) : JobDoc :=
  { j with
    status := JStatus.completed,
    progress := 100,
    stage := "Complete",
    audio_path := some (jobAudioPath jobId),
    audio_url := some (jobAudioUrl jobId),
    duration_seconds := some dur }

/-- The per-chunk loop of `process_tts_job` (server.py lines 702-746):
synthesize chunk `i`, persist its artifact, mark its request completed and
advance progress to `⌊(i+1)·85 / chunkCount⌋`; on failure mark the request
failed and abort, reporting the error.  Returns the events, the final record
and either the collected audio blobs or the raised error. -/
def ttsChunkLoop (jobId : Nat) (cfg : TTSConfig) (o : TtsOracle)
    (chunkCount : Nat) :
    Nat → List (List Char) → JobDoc → List Audio →
    List Ev × JobDoc × Except String (List Audio)
  | _, [], j, acc => ([], j, .ok acc)
  | i, ct :: rest, j, acc =>
    match o.synth i with
    | .ok audio =>
      (Ev.synthCall i (mkSynthRequest cfg ct) ::
        Ev.fileWrite (chunkAudioPath jobId i) audio ::
        Ev.dbUpdate jobId (jAfterChunk jobId chunkCount i j) ::
        (ttsChunkLoop jobId cfg o chunkCount (i + 1) rest
          (jAfterChunk jobId chunkCount i j) (acc ++ [audio])).1,
        (ttsChunkLoop jobId cfg o chunkCount (i + 1) rest
          (jAfterChunk jobId chunkCount i j) (acc ++ [audio])).2)
    | .error e =>
      ([Ev.synthCall i (mkSynthRequest cfg ct),
        Ev.dbUpdate jobId (jChunkFailed e i j)], jChunkFailed e i j,
        .error e)

/-- The tail of `process_tts_job` after the chunk loop: either the
`failed` resolution of a raised error, or merging → saving → completed
(server.py lines 748-812). -/
def ttsTail (jobId : Nat) (o : TtsOracle)
    (r : JobDoc × Except String (List Audio)) : List Ev :=
  match r.2 with
  | .error e => [Ev.dbUpdate jobId (jFailed e r.1)]
  | .ok audios =>
    match merge_audio_chunks o.probe o.concat audios with
    | .error e =>
      [Ev.dbUpdate jobId (jMerging r.1),
        Ev.dbUpdate jobId (jFailed e (jMerging r.1))]
    | .ok md =>
      [Ev.dbUpdate jobId (jMerging r.1),
        Ev.dbUpdate jobId (jSaving (jMerging r.1)),
        Ev.fileWrite (jobAudioPath jobId) md.1,
        Ev.dbUpdate jobId (jDone jobId md.2 (jSaving (jMerging r.1))),
        Ev.webhook jobId]

/-- `process_tts_job` (server.py lines 669-812): chunking →
transcribing (per-chunk loop) → merging → artifact write → completed, any
raised error resolving the record to `failed` with the error text. -/
def process_tts_job (w : World) (jobId : Nat) (o : TtsOracle) : List Ev :=
  match lookupJob w.db jobId with
  | none => []
  | some j =>
    Ev.dbUpdate jobId (jChunking j) ::
    Ev.dbUpdate jobId (jTranscribing j.chunks.length (jChunking j)) ::
    (ttsChunkLoop jobId j.tts_config o j.chunks.length 0 j.chunks
      (jTranscribing j.chunks.length (jChunking j)) []).1 ++
    ttsTail jobId o
      (ttsChunkLoop jobId j.tts_config o j.chunks.length 0 j.chunks
        (jTranscribing j.chunks.length (jChunking j)) []).2

/-! ### The studio (batch) orchestrator -/

/-- The snapshots listing for a ready project: non-200, or a list of
snapshot ids (`none` models a snapshot object without the id field). -/
inductive SnapResult
  | non200
  | snaps (l : List (Option String))
  deriving DecidableEq

/-- One status-poll outcome: a transient non-200, or a project state with
the remote error text and, when consulted, the snapshots listing. -/
inductive PollResult
  | non200
  | state (s : String) (remoteError : Option String) (snapshots : SnapResult)
  deriving DecidableEq

/-- External collaborators of the batch orchestrator. -/
structure StudioOracle where
  createStatus : Nat
  createErrText : String
  createProjectId : Option String
  pollResult : Nat → PollResult
  downloadStatus : Nat
  downloadAudio : Audio
  probeDuration : Option ℚ

/-- How the poll loop ends. -/
inductive PollOutcome
  | snapshot (id : Option String)
  | remoteFailed
  | exhausted
  deriving DecidableEq

/-- A poll-progress update (server.py lines 540-549). -/
def jPollProg (st : String) (attempt : Nat) (j : JobDoc) : JobDoc :=
  { j with
    stage := "Converting audio... (" ++ st ++ ")",
    progress := min (30 + attempt * 50 / 120) 80 }

/-- Entering the `processing` state (server.py lines 412-416). -/
def jStudioStart (j : JobDoc) : JobDoc :=
  { j with
    status := JStatus.processing,
    stage := "Creating Studio project...",
    progress := 10 }

/-- Recording the created project id (server.py lines 509-517). -/
def jWithProject (pid : String) (j : JobDoc) : JobDoc :=
  { j with
    studio_project_id := some pid,
    stage := "Converting audio...",
    progress := 30 }

/-- Recording the output snapshot id (server.py lines 586-594). -/
def jWithSnapshot (sid : String) (j : JobDoc) : JobDoc :=
  { j with
    studio_snapshot_id := some sid,
    stage := "Downloading audio...",
    progress := 85 }

/-- The completion update of the batch orchestrator (server.py lines
629-643). -/
def jStudioDone (jobId : Nat) (dur : Option ℚ) (j : JobDoc) : JobDoc :=
  { j with
    status := JStatus.completed,
    stage := "Complete",
    progress := 100,
    processed_chunks := 1,
    audio_path := some (jobAudioPath jobId),
    audio_url := some (jobAudioUrl jobId),
    duration_seconds := dur }

/-- The polling loop of `process_studio_job` (server.py lines 519-581):
sleep 5 units, poll; tolerate a non-200 poll; otherwise record
stage/progress (`min(30 + attempt·50/120, 80)`); on `ready` fetch snapshots
and break when one is present; on `failed` resolve the job to failed; all
other states keep polling until the attempt budget is spent. -/
def studioPollLoop (jobId : Nat) (o : StudioOracle) :
    Nat → Nat → JobDoc → List Ev × JobDoc × PollOutcome
  | _, 0, j => ([], j, .exhausted)
  | attempt, fuel + 1, j =>
    match o.pollResult attempt with
    | .non200 =>
      (Ev.sleep 5 :: Ev.poll attempt ::
        (studioPollLoop jobId o (attempt + 1) fuel j).1,
        (studioPollLoop jobId o (attempt + 1) fuel j).2)
    | .state st err snaps =>
      if st = "ready" then
        match snaps with
        | .non200 =>
          (Ev.sleep 5 :: Ev.poll attempt ::
            Ev.dbUpdate jobId (jPollProg st attempt j) ::
            (studioPollLoop jobId o (attempt + 1) fuel
              (jPollProg st attempt j)).1,
            (studioPollLoop jobId o (attempt + 1) fuel
              (jPollProg st attempt j)).2)
        | .snaps [] =>
          (Ev.sleep 5 :: Ev.poll attempt ::
            Ev.dbUpdate jobId (jPollProg st attempt j) ::
            (studioPollLoop jobId o (attempt + 1) fuel
              (jPollProg st attempt j)).1,
            (studioPollLoop jobId o (attempt + 1) fuel
              (jPollProg st attempt j)).2)
        | .snaps (sid :: _) =>
          ([Ev.sleep 5, Ev.poll attempt,
            Ev.dbUpdate jobId (jPollProg st attempt j)],
            jPollProg st attempt j, .snapshot sid)
      else if st = "failed" then
        ([Ev.sleep 5, Ev.poll attempt,
          Ev.dbUpdate jobId (jPollProg st attempt j),
          Ev.dbUpdate jobId (jFailed ("Studio conversion failed: " ++
            err.getD "Unknown error") (jPollProg st attempt j))],
          jFailed ("Studio conversion failed: " ++ err.getD "Unknown error")
            (jPollProg st attempt j), .remoteFailed)
      else
        (Ev.sleep 5 :: Ev.poll attempt ::
          Ev.dbUpdate jobId (jPollProg st attempt j) ::
          (studioPollLoop jobId o (attempt + 1) fuel
            (jPollProg st attempt j)).1,
          (studioPollLoop jobId o (attempt + 1) fuel
            (jPollProg st attempt j)).2)

/-- The tail of `process_studio_job` after the poll loop: remote failure
already resolved, timeout resolution, or snapshot download → artifact →
completed (server.py lines 574-656). -/
def studioTail (jobId : Nat) (o : StudioOracle)
    (r : JobDoc × PollOutcome) : List Ev :=
  match r.2 with
  | .remoteFailed => []
  | .exhausted =>
    [Ev.dbUpdate jobId (jFailed "Timeout waiting for Studio conversion" r.1)]
  | .snapshot none =>
    [Ev.dbUpdate jobId (jFailed "Timeout waiting for Studio conversion" r.1)]
  | .snapshot (some sid) =>
    Ev.dbUpdate jobId (jWithSnapshot sid r.1) ::
      if o.downloadStatus ≠ 200 then
        [Ev.dbUpdate jobId (jFailed ("Failed to download audio: " ++
          toString o.downloadStatus) (jWithSnapshot sid r.1))]
      else
        [Ev.fileWrite (jobAudioPath jobId) o.downloadAudio,
          Ev.dbUpdate jobId (jStudioDone jobId o.probeDuration
            (jWithSnapshot sid r.1)),
          Ev.webhook jobId]

/-- `process_studio_job` (server.py lines 398-666): create the studio
project, poll it to readiness within 120 attempts, download the snapshot,
persist the artifact and complete; every failure resolves the record to
`failed`. -/
def process_studio_job (w : World) (jobId : Nat) (o : StudioOracle) :
    List Ev :=
  match lookupJob w.db jobId with
  | none => []
  | some j =>
    Ev.dbUpdate jobId (jStudioStart j) ::
    Ev.studioCreate (mkStudioRequest j.tts_config) ::
    (if o.createStatus ≠ 200 then
      [Ev.dbUpdate jobId (jFailed ("Studio API error: " ++
        toString o.createStatus ++ " - " ++ o.createErrText)
        (jStudioStart j))]
    else
      match o.createProjectId with
      | none =>
        [Ev.dbUpdate jobId
          (jFailed "Failed to get project_id from Studio API response"
            (jStudioStart j))]
      | some pid =>
        Ev.dbUpdate jobId (jWithProject pid (jStudioStart j)) ::
        (studioPollLoop jobId o 1 120 (jWithProject pid (jStudioStart j))).1
          ++
        studioTail jobId o
          (studioPollLoop jobId o 1 120
            (jWithProject pid (jStudioStart j))).2)

/-! ### Retrieval and deletion -/

/-- GET `/api/jobs/{id}/chunks/{i}/audio` (server.py lines 1180-1209). -/
def get_chunk_audio (w : World) (jobId : Nat) (chunk_index : Int) :
    Except HTTPError Audio :=
  match lookupJob w.db jobId with
  | none => .error (.notFound "Job not found")
  | some job =>
    if chunk_index < 0 ∨ (job.chunk_requests.length : Int) ≤ chunk_index then
      .error (.notFound "Chunk not found")
    else
      match job.chunk_requests.get? chunk_index.toNat with
      | none => .error (.notFound "Chunk not found")
      | some cr =>
        match cr.audio_path with
        | none => .error (.notFound "Chunk audio file not found")
        | some p =>
          match fsLookup w.fs p with
          | none => .error (.notFound "Chunk audio file not found")
          | some data => .ok data

/-- DELETE `/api/jobs/{id}` (server.py lines 1212-1241): remove the main
artifact, every chunk artifact, then the document. -/
def delete_job (w : World) (jobId : Nat) : Except HTTPError World :=
  match lookupJob w.db jobId with
  | none => .error (.notFound "Job not found")
  | some job =>
    let fs1 := match job.audio_path with
      | some p => removeFile w.fs p
      | none => w.fs
    let fs2 := job.chunk_requests.foldl (fun fs cr =>
      match cr.audio_path with
      | some p => removeFile fs p
      | none => fs) fs1
    .ok { db := ⟨w.db.settings,
      w.db.jobs.filter (fun p => !decide (p.1 = jobId))⟩, fs := fs2 }

/-- The poll/sleep schedule of a trace: just its sleep and poll events. -/
def pollSchedule (evs : List Ev) : List Ev :=
  evs.filter fun e =>
    match e with
    | .sleep _ => true
    | .poll _ => true
    | _ => false

/-- Number of poll attempts in a trace. -/
def pollCount (evs : List Ev) : Nat :=
  (evs.filter fun e =>
    match e with
    | .poll _ => true
    | _ => false).length

/-! ## Concrete fixtures used by the closed witness instantiations -/

/-- A concrete three-chunk job document, freshly queued. -/
def sampleJob : JobDoc where
  name := "n"
  text_length := 3
  original_text := ['a', 'b', 'c']
  chunk_count := 3
  processed_chunks := 0
  chunks := [['a'], ['b'], ['c']]
  chunk_requests :=
    [⟨0, .chunking "v" "m" "f" defaultVoiceSettings ['a'] 1, .pending,
      none, none, none⟩,
     ⟨1, .chunking "v" "m" "f" defaultVoiceSettings ['b'] 1, .pending,
      none, none, none⟩,
     ⟨2, .chunking "v" "m" "f" defaultVoiceSettings ['c'] 1, .pending,
      none, none, none⟩]
  tts_config := ⟨"ElevenLabs", "chunking", "v", "m", "f",
    defaultVoiceSettings, defaultStudioSettings⟩
  status := .queued
  stage := "Waiting in queue..."
  progress := 0
  error := none
  audio_path := none
  audio_url := none
  duration_seconds := none
  studio_project_id := none
  studio_snapshot_id := none

/-- A world holding `sampleJob` under id 1, with an empty storage dir. -/
def sampleWorld : World := ⟨⟨none, [(1, sampleJob)]⟩, []⟩

/-- A synthesis oracle for which chunk 0 succeeds and chunk 1 raises. -/
def sampleOracle : TtsOracle :=
  ⟨fun k => if k = 0 then .ok [7] else .error "boom",
   fun _ => 0, fun _ => .ok []⟩

/-- A studio oracle whose project creation succeeds but whose status polls
always return a non-200. -/
def sampleStudioOracle : StudioOracle :=
  ⟨200, "", some "p", fun _ => .non200, 200, [1], some 1⟩

/-- The job-record updates carried by a trace, in order. -/
def dbRecs (evs : List Ev) : List JobDoc :=
  evs.filterMap fun e =>
    match e with
    | .dbUpdate _ j => some j
    | _ => none

/-! ## Helper lemmas: whitespace, strip, non-space projection -/

theorem isTerm_not_space {c : Char} (h : isTerm c = true) :
    pyIsSpace c = false := by
  simp only [isTerm, Bool.or_eq_true, decide_eq_true_eq] at h
  rcases h with (h | h) | h <;> subst h <;> decide

theorem firstIsSpace_append {l : List Char} (l' : List Char) (h : l ≠ []) :
    firstIsSpace (l ++ l') = firstIsSpace l := by
  cases l with
  | nil => exact absurd rfl h
  | cons c t => rfl

theorem firstIsSpace_dropWhile (l : List Char) :
    firstIsSpace (l.dropWhile pyIsSpace) = false := by
  induction l with
  | nil => rfl
  | cons c t ih =>
    rw [List.dropWhile_cons]
    split
    · exact ih
    · next h =>
      simp only [Bool.not_eq_true] at h
      simpa [firstIsSpace] using h

theorem dropWhile_eq_self_of_first {l : List Char}
    (h : firstIsSpace l = false) : l.dropWhile pyIsSpace = l := by
  cases l with
  | nil => rfl
  | cons c t =>
    simp only [firstIsSpace] at h
    rw [List.dropWhile_cons]
    simp [h]

theorem pyStrip_eq_self {s : List Char} (h : Stripped s) : pyStrip s = s := by
  obtain ⟨h1, h2⟩ := h
  unfold pyStrip
  rw [dropWhile_eq_self_of_first h1, dropWhile_eq_self_of_first h2,
    List.reverse_reverse]

theorem stripped_pyStrip (s : List Char) : Stripped (pyStrip s) := by
  have hu : firstIsSpace (s.dropWhile pyIsSpace) = false :=
    firstIsSpace_dropWhile s
  constructor
  · show firstIsSpace
      (((s.dropWhile pyIsSpace).reverse.dropWhile pyIsSpace).reverse) = false
    by_cases hv :
        ((s.dropWhile pyIsSpace).reverse.dropWhile pyIsSpace).reverse = []
    · rw [hv]; rfl
    · have hu2 : s.dropWhile pyIsSpace =
          ((s.dropWhile pyIsSpace).reverse.dropWhile pyIsSpace).reverse ++
            ((s.dropWhile pyIsSpace).reverse.takeWhile pyIsSpace).reverse := by
        conv_lhs =>
          rw [← List.reverse_reverse (s.dropWhile pyIsSpace),
            ← List.takeWhile_append_dropWhile pyIsSpace
              (s.dropWhile pyIsSpace).reverse]
        rw [List.reverse_append]
      rw [hu2, firstIsSpace_append _ hv] at hu
      exact hu
  · show firstIsSpace
      (((s.dropWhile pyIsSpace).reverse.dropWhile pyIsSpace).reverse.reverse)
        = false
    rw [List.reverse_reverse]
    exact firstIsSpace_dropWhile _

theorem nsp_append (a b : List Char) : nsp (a ++ b) = nsp a ++ nsp b :=
  List.filter_append _ _

theorem nsp_cons (c : Char) (l : List Char) :
    nsp (c :: l) = if pyIsSpace c then nsp l else c :: nsp l := by
  simp only [nsp, List.filter_cons]
  cases h : pyIsSpace c <;> simp [h]

theorem nsp_dropWhile (l : List Char) :
    nsp (l.dropWhile pyIsSpace) = nsp l := by
  conv_rhs => rw [← List.takeWhile_append_dropWhile pyIsSpace l]
  rw [nsp_append]
  have hnil : nsp (l.takeWhile pyIsSpace) = [] := by
    rw [nsp, List.filter_eq_nil_iff]
    intro a ha
    have := List.mem_takeWhile_imp ha
    simp [this]
  rw [hnil, List.nil_append]

theorem nsp_reverse (l : List Char) : nsp l.reverse = (nsp l).reverse :=
  List.filter_reverse _ _

theorem nsp_pyStrip (s : List Char) : nsp (pyStrip s) = nsp s := by
  unfold pyStrip
  rw [nsp_reverse, nsp_dropWhile, nsp_reverse, List.reverse_reverse,
    nsp_dropWhile]

theorem stripped_of_noWs {s : List Char} (h : NoWs s) : Stripped s := by
  constructor
  · cases s with
    | nil => rfl
    | cons c t => exact h c (by simp)
  · cases hs : s.reverse with
    | nil => rfl
    | cons c t =>
      have hc : c ∈ s := by
        rw [← List.mem_reverse, hs]
        simp
      exact h c hc

theorem stripped_nil : Stripped ([] : List Char) := ⟨rfl, rfl⟩

theorem stripped_append {s t : List Char} (hs : s ≠ []) (ht : t ≠ [])
    (h1 : Stripped s) (h2 : Stripped t) : Stripped (s ++ ' ' :: t) := by
  constructor
  · rw [firstIsSpace_append _ hs]
    exact h1.1
  · rw [List.reverse_append]
    have : (' ' :: t).reverse = t.reverse ++ [' '] := by simp
    rw [this, List.append_assoc,
      firstIsSpace_append _ (by simpa using ht)]
    exact h2.2

/-! ## `noTermWs` and `chunkShape` -/

theorem noTermWs_cons_cons (c d : Char) (rest : List Char) :
    noTermWs (c :: d :: rest)
      = (!(isTerm c && pyIsSpace d) && noTermWs (d :: rest)) := rfl

theorem chunkShape_cons_cons (c d : Char) (rest : List Char) :
    chunkShape (c :: d :: rest) =
      if isTerm c && pyIsSpace d then
        ((d = ' ') &&
          (match rest with | [] => false | e :: _ => !pyIsSpace e) &&
          chunkShape rest)
      else chunkShape (d :: rest) := rfl

theorem noTermWs_of_cons {x : Char} {l : List Char}
    (h : noTermWs (x :: l) = true) : noTermWs l = true := by
  cases l with
  | nil => rfl
  | cons y t =>
    rw [noTermWs_cons_cons, Bool.and_eq_true] at h
    exact h.2

theorem noTermWs_append_left :
    ∀ (a b : List Char), noTermWs (a ++ b) = true → noTermWs a = true := by
  intro a b
  induction a with
  | nil => intro _; rfl
  | cons x t ih =>
    intro h
    cases t with
    | nil => rfl
    | cons y t' =>
      rw [List.cons_append, List.cons_append, noTermWs_cons_cons,
        Bool.and_eq_true] at h
      rw [noTermWs_cons_cons, Bool.and_eq_true]
      refine ⟨h.1, ih ?_⟩
      rw [List.cons_append]
      exact h.2

theorem noTermWs_append_right :
    ∀ (a b : List Char), noTermWs (a ++ b) = true → noTermWs b = true := by
  intro a b
  induction a with
  | nil => intro h; simpa using h
  | cons x t ih =>
    intro h
    rw [List.cons_append] at h
    exact ih (noTermWs_of_cons h)

theorem noTermWs_dropWhile {l : List Char} (h : noTermWs l = true) :
    noTermWs (l.dropWhile pyIsSpace) = true := by
  refine noTermWs_append_right (l.takeWhile pyIsSpace) _ ?_
  rw [List.takeWhile_append_dropWhile]
  exact h

theorem noTermWs_pyStrip {l : List Char} (h : noTermWs l = true) :
    noTermWs (pyStrip l) = true := by
  have h1 : noTermWs (l.dropWhile pyIsSpace) = true := noTermWs_dropWhile h
  have hsplit : l.dropWhile pyIsSpace =
      ((l.dropWhile pyIsSpace).reverse.dropWhile pyIsSpace).reverse ++
        ((l.dropWhile pyIsSpace).reverse.takeWhile pyIsSpace).reverse := by
    conv_lhs =>
      rw [← List.reverse_reverse (l.dropWhile pyIsSpace),
        ← List.takeWhile_append_dropWhile pyIsSpace
          (l.dropWhile pyIsSpace).reverse]
    rw [List.reverse_append]
  rw [hsplit] at h1
  exact noTermWs_append_left _ _ h1

theorem chunkShape_of_noTermWs :
    ∀ (l : List Char), noTermWs l = true → chunkShape l = true := by
  intro l
  induction l using noTermWs.induct with
  | case1 => intro _; rfl
  | case2 c => intro _; rfl
  | case3 c d rest ih =>
    intro h
    rw [noTermWs_cons_cons, Bool.and_eq_true] at h
    have hfalse : (isTerm c && pyIsSpace d) = false := by
      cases hh : (isTerm c && pyIsSpace d) with
      | false => rfl
      | true => have h1 := h.1; rw [hh] at h1; simp at h1
    rw [chunkShape_cons_cons, if_neg (by simp [hfalse])]
    exact ih h.2

theorem noWs_noTermWs {s : List Char} (h : NoWs s) : noTermWs s = true := by
  induction s with
  | nil => rfl
  | cons x t ih =>
    cases t with
    | nil => rfl
    | cons y t' =>
      rw [noTermWs_cons_cons, Bool.and_eq_true]
      constructor
      · have : pyIsSpace y = false := h y (by simp)
        simp [this]
      · exact ih fun c hc => h c (List.mem_cons_of_mem x hc)

theorem chunkShape_space_cons {b : List Char} (hb : chunkShape b = true) :
    chunkShape (' ' :: b) = true := by
  cases b with
  | nil => rfl
  | cons e b' =>
    rw [chunkShape_cons_cons, if_neg]
    · exact hb
    · simp [isTerm]

theorem chunkShape_append :
    ∀ (a b : List Char), chunkShape a = true → chunkShape b = true →
      b ≠ [] → firstIsSpace b = false → chunkShape (a ++ ' ' :: b) = true := by
  intro a
  induction a using chunkShape.induct with
  | case1 =>
    intro b _ hb _ _
    simpa using chunkShape_space_cons hb
  | case2 c =>
    intro b _ hb hbne hbf
    obtain ⟨e, b', rfl⟩ : ∃ e b', b = e :: b' := by
      cases b with
      | nil => exact absurd rfl hbne
      | cons e b' => exact ⟨e, b', rfl⟩
    simp only [firstIsSpace] at hbf
    by_cases hc : isTerm c = true
    · rw [List.singleton_append, chunkShape_cons_cons,
        if_pos (by rw [hc, Bool.true_and]; decide)]
      simp [hbf, hb]
    · rw [List.singleton_append, chunkShape_cons_cons,
        if_neg (by simp only [Bool.and_eq_true, not_and]; intro hcc; exact absurd hcc hc)]
      exact chunkShape_space_cons hb
  | case3 c d rest hcond ih =>
    intro b ha hb hbne hbf
    rw [chunkShape_cons_cons, if_pos hcond, Bool.and_eq_true,
      Bool.and_eq_true] at ha
    obtain ⟨⟨hd, hrest⟩, hsh⟩ := ha
    obtain ⟨e, rest', rfl⟩ : ∃ e rest', rest = e :: rest' := by
      cases rest with
      | nil => simp at hrest
      | cons e rest' => exact ⟨e, rest', rfl⟩
    show chunkShape (c :: d :: ((e :: rest') ++ ' ' :: b)) = true
    rw [chunkShape_cons_cons, if_pos hcond, Bool.and_eq_true,
      Bool.and_eq_true]
    refine ⟨⟨hd, ?_⟩, ?_⟩
    · simpa using hrest
    · exact ih b hsh hb hbne hbf
  | case4 c d rest hcond ih =>
    intro b ha hb hbne hbf
    rw [chunkShape_cons_cons, if_neg hcond] at ha
    show chunkShape (c :: d :: (rest ++ ' ' :: b)) = true
    rw [chunkShape_cons_cons, if_neg hcond]
    exact ih b ha hb hbne hbf

/-! ## The sentence splitter -/

theorem noTermWs_append_last (s : List Char) (c : Char)
    (h1 : noTermWs s = true)
    (h2 : ∀ a, s.getLast? = some a → (isTerm a && pyIsSpace c) = false) :
    noTermWs (s ++ [c]) = true := by
  induction s with
  | nil => rfl
  | cons x t ih =>
    cases t with
    | nil =>
      have hx := h2 x (by simp)
      show noTermWs (x :: c :: []) = true
      rw [noTermWs_cons_cons, Bool.and_eq_true]
      exact ⟨by simp [hx], rfl⟩
    | cons y t' =>
      rw [noTermWs_cons_cons, Bool.and_eq_true] at h1
      show noTermWs (x :: ((y :: t') ++ [c])) = true
      rw [List.cons_append, noTermWs_cons_cons, Bool.and_eq_true]
      refine ⟨h1.1, ?_⟩
      rw [← List.cons_append]
      exact ih h1.2 (fun a ha => h2 a (by rw [List.getLast?_cons_cons]; exact ha))

theorem splitSentencesAux_ne_nil (acc l : List Char) :
    splitSentencesAux acc l ≠ [] := by
  induction acc, l using splitSentencesAux.induct with
  | case1 acc => simp [splitSentencesAux]
  | case2 acc c tail h ih =>
    rw [splitSentencesAux]
    simp [h]
  | case3 acc c tail h ih =>
    rw [splitSentencesAux]
    simp only [h, Bool.false_eq_true, if_false, if_neg h]
    exact ih

theorem nsp_flatten_splitSentencesAux (acc l : List Char) :
    nsp (splitSentencesAux acc l).flatten = nsp acc ++ nsp l := by
  induction acc, l using splitSentencesAux.induct with
  | case1 acc => simp [splitSentencesAux, nsp]
  | case2 acc c tail h ih =>
    have hc : pyIsSpace c = false :=
      isTerm_not_space ((Bool.and_eq_true _ _).mp h).1
    rw [splitSentencesAux, if_pos h, List.flatten_cons, nsp_append, ih,
      nsp_dropWhile, nsp_append, nsp_cons, if_neg (by simp [hc]),
      nsp_cons, if_neg (by simp [hc])]
    simp [nsp]
  | case3 acc c tail h ih =>
    rw [splitSentencesAux, if_neg h, ih, nsp_append, nsp_cons]
    cases hc : pyIsSpace c with
    | false => simp [nsp_cons, hc, nsp]
    | true => simp [nsp_cons, hc, nsp]

theorem splitSentencesAux_noTermWs (acc l : List Char)
    (h1 : noTermWs acc = true)
    (h2 : ∀ a c, acc.getLast? = some a → l.head? = some c →
      (isTerm a && pyIsSpace c) = false) :
    ∀ u ∈ splitSentencesAux acc l, noTermWs u = true := by
  induction acc, l using splitSentencesAux.induct with
  | case1 acc =>
    intro u hu
    rw [splitSentencesAux] at hu
    simp at hu
    rwa [hu]
  | case2 acc c tail h ih =>
    intro u hu
    rw [splitSentencesAux, if_pos h] at hu
    rcases List.mem_cons.mp hu with rfl | hu
    · exact noTermWs_append_last acc c h1
        (fun a ha => h2 a c ha rfl)
    · exact ih rfl (by intro a c ha hc; simp at ha) u hu
  | case3 acc c tail h ih =>
    intro u hu
    rw [splitSentencesAux, if_neg h] at hu
    refine ih ?_ ?_ u hu
    · exact noTermWs_append_last acc c h1 (fun a ha => h2 a c ha rfl)
    · intro a d ha hd
      rw [List.getLast?_concat, Option.some.injEq] at ha
      subst ha
      cases tail with
      | nil => simp at hd
      | cons d2 tail2 =>
        rw [List.head?_cons, Option.some.injEq] at hd
        subst hd
        cases hh : (isTerm c && firstIsSpace (d2 :: tail2)) with
        | false => simpa [firstIsSpace] using hh
        | true => exact absurd hh h

/-- The sentence units of the splitter carry no terminator-whitespace pair. -/
theorem splitSentences_noTermWs (text : List Char) :
    ∀ u ∈ splitSentences text, noTermWs u = true := by
  refine splitSentencesAux_noTermWs [] text rfl ?_
  intro a c ha
  simp at ha

/-! ## Re-splitting a chunk recovers its units (towards idempotence) -/

theorem joinSp_cons_ne_nil (u : List Char) (us : List (List Char))
    (h : us ≠ []) : joinSp (u :: us) = u ++ ' ' :: joinSp us := by
  cases us with
  | nil => exact absurd rfl h
  | cons v vs => rfl

theorem joinSp_cons_cons (a b : List Char) (l : List (List Char)) :
    joinSp (a :: b :: l) = joinSp ((a ++ ' ' :: b) :: l) := by
  cases l with
  | nil => rfl
  | cons c cs =>
    rw [joinSp_cons_ne_nil a (b :: c :: cs) (by simp),
      joinSp_cons_ne_nil b (c :: cs) (by simp),
      joinSp_cons_ne_nil (a ++ ' ' :: b) (c :: cs) (by simp)]
    simp

theorem joinSp_length_ge (u : List Char) (us : List (List Char)) :
    u.length ≤ (joinSp (u :: us)).length := by
  cases us with
  | nil => simp [joinSp]
  | cons v vs =>
    rw [joinSp_cons_ne_nil _ _ (by simp)]
    simp

theorem splitSentencesAux_joinSp (acc l : List Char) :
    chunkShape l = true →
    acc ++ l ≠ [] →
    firstIsSpace (acc ++ l) = false →
    firstIsSpace (acc ++ l).reverse = false →
    joinSp (splitSentencesAux acc l) = acc ++ l ∧
      ∀ u ∈ splitSentencesAux acc l, u ≠ [] ∧ Stripped u := by
  induction acc, l using splitSentencesAux.induct with
  | case1 acc =>
    intro _ hne hf hl
    rw [splitSentencesAux]
    refine ⟨by simp [joinSp], ?_⟩
    intro u hu
    simp only [List.mem_singleton] at hu
    subst hu
    exact ⟨by simpa using hne, by simpa using hf, by simpa using hl⟩
  | case2 acc c tail hcond ih =>
    intro hsh hne hf hl
    have hterm : isTerm c = true := ((Bool.and_eq_true _ _).mp hcond).1
    have htailsp : firstIsSpace tail = true :=
      ((Bool.and_eq_true _ _).mp hcond).2
    obtain ⟨d, tail1, rfl⟩ : ∃ d tail1, tail = d :: tail1 := by
      cases tail with
      | nil => simp [firstIsSpace] at htailsp
      | cons d tail1 => exact ⟨d, tail1, rfl⟩
    have hd : pyIsSpace d = true := htailsp
    rw [chunkShape_cons_cons, if_pos (by rw [hterm, hd]; rfl),
      Bool.and_eq_true, Bool.and_eq_true] at hsh
    obtain ⟨⟨hdsp, hmatch⟩, hsh1⟩ := hsh
    have hdsp2 : d = ' ' := by simpa using hdsp
    subst hdsp2
    obtain ⟨e, tail2, rfl⟩ : ∃ e tail2, tail1 = e :: tail2 := by
      cases tail1 with
      | nil => simp at hmatch
      | cons e tail2 => exact ⟨e, tail2, rfl⟩
    have he : pyIsSpace e = false := by simpa using hmatch
    have hdrop : (' ' :: e :: tail2).dropWhile pyIsSpace = e :: tail2 := by
      rw [List.dropWhile_cons, if_pos (by decide), List.dropWhile_cons,
        if_neg (by simp [he])]
    rw [hdrop] at ih
    have hrevsplit : (acc ++ c :: ' ' :: e :: tail2).reverse =
        (e :: tail2).reverse ++ ([' ', c] ++ acc.reverse) := by
      have : acc ++ c :: ' ' :: e :: tail2 =
          (acc ++ [c, ' ']) ++ (e :: tail2) := by simp
      rw [this, List.reverse_append, List.reverse_append]
      simp
    obtain ⟨ihj, ihu⟩ := ih hsh1 (by simp)
      (by simp [firstIsSpace, he])
      (by
        rw [hrevsplit, firstIsSpace_append _ (by simp)] at hl
        simpa using hl)
    rw [splitSentencesAux, if_pos hcond, hdrop]
    constructor
    · rw [joinSp_cons_ne_nil _ _ (splitSentencesAux_ne_nil _ _), ihj]
      simp
    · intro u hu
      rcases List.mem_cons.mp hu with rfl | hu
      · refine ⟨by simp, ?_, ?_⟩
        · cases acc with
          | nil => simpa [firstIsSpace] using isTerm_not_space hterm
          | cons a0 acc0 =>
            rw [firstIsSpace_append _ (by simp)]
            rwa [firstIsSpace_append _ (by simp)] at hf
        · rw [List.reverse_append]
          simpa [firstIsSpace] using isTerm_not_space hterm
      · exact ihu u hu
  | case3 acc c tail hcond ih =>
    intro hsh hne hf hl
    have heq : (acc ++ [c]) ++ tail = acc ++ c :: tail := by simp
    have hsh1 : chunkShape tail = true := by
      cases tail with
      | nil => rfl
      | cons d tail1 =>
        rw [chunkShape_cons_cons, if_neg (by simpa [firstIsSpace] using hcond)]
          at hsh
        exact hsh
    obtain ⟨ihj, ihu⟩ := ih hsh1 (by simp) (by rwa [heq]) (by rwa [heq])
    rw [splitSentencesAux, if_neg hcond]
    exact ⟨by rwa [heq] at ihj, ihu⟩

/-! ## Word splitting -/

theorem pySplitWords_sound (l : List Char) :
    ∀ w ∈ pySplitWords l, w ≠ [] ∧ NoWs w := by
  induction l using pySplitWords.induct with
  | case1 =>
    intro w hw
    simp [pySplitWords] at hw
  | case2 c rest h ih =>
    intro w hw
    rw [pySplitWords, if_pos h] at hw
    exact ih w hw
  | case3 c rest h ih =>
    intro w hw
    rw [pySplitWords, if_neg h] at hw
    rcases List.mem_cons.mp hw with rfl | hw
    · refine ⟨by simp, ?_⟩
      intro d hd
      rcases List.mem_cons.mp hd with rfl | hd
      · exact Bool.not_eq_true _ |>.mp h
      · have := List.mem_takeWhile_imp hd
        simpa using this
    · exact ih w hw

theorem nsp_flatten_pySplitWords (l : List Char) :
    nsp (pySplitWords l).flatten = nsp l := by
  induction l using pySplitWords.induct with
  | case1 => rw [pySplitWords]; rfl
  | case2 c rest h ih =>
    rw [pySplitWords, if_pos h, nsp_cons, if_pos h]
    exact ih
  | case3 c rest h ih =>
    rw [pySplitWords, if_neg h, List.flatten_cons, nsp_append, ih,
      ← nsp_append, List.cons_append, List.takeWhile_append_dropWhile]

/-! ## Invariants of the packing loops -/

theorem pyStrip_space_cons {w : List Char} (hw : Stripped w) :
    pyStrip (' ' :: w) = w := by
  unfold pyStrip
  rw [List.dropWhile_cons, if_pos (by decide),
    dropWhile_eq_self_of_first hw.1, dropWhile_eq_self_of_first hw.2,
    List.reverse_reverse]

theorem flush_isChunk {maxChars : Nat} {cc : List Char}
    (hcc : CCInv maxChars cc) :
    ∀ u ∈ (if cc.isEmpty then ([] : List (List Char)) else [pyStrip cc]),
      IsChunk maxChars u := by
  intro u hu
  by_cases hE : cc.isEmpty
  · rw [if_pos hE] at hu
    simp at hu
  · rw [if_neg hE] at hu
    simp only [List.mem_singleton] at hu
    subst hu
    rcases hcc with rfl | ⟨hs, hsh, hp⟩
    · simp at hE
    · rw [pyStrip_eq_self hs]
      exact ⟨by simpa [List.isEmpty_iff] using hE, hs, hsh, hp⟩

theorem flush_nsp (cc : List Char) :
    nsp (if cc.isEmpty then ([] : List (List Char))
      else [pyStrip cc]).flatten = nsp cc := by
  by_cases hE : cc.isEmpty
  · rw [if_pos hE]
    have : cc = [] := by simpa [List.isEmpty_iff] using hE
    subst this
    rfl
  · rw [if_neg hE]
    simp [nsp_pyStrip]

theorem packWords_inv (maxChars : Nat) (ws : List (List Char)) :
    ∀ cc, (∀ w ∈ ws, w ≠ [] ∧ NoWs w) → CCInv maxChars cc →
    (∀ u ∈ (packWords maxChars cc ws).1, IsChunk maxChars u) ∧
      CCInv maxChars (packWords maxChars cc ws).2 := by
  induction ws with
  | nil =>
    intro cc _ hcc
    refine ⟨?_, hcc⟩
    intro u hu
    simp [packWords] at hu
  | cons w rest ih =>
    intro cc hws hcc
    obtain ⟨hwne, hwns⟩ := hws w (by simp)
    have hrest : ∀ v ∈ rest, v ≠ [] ∧ NoWs v :=
      fun v hv => hws v (by simp [hv])
    have hwInv : CCInv maxChars w := Or.inr ⟨stripped_of_noWs hwns,
      chunkShape_of_noTermWs w (noWs_noTermWs hwns), Or.inr hwns⟩
    rw [packWords]
    split
    · obtain ⟨ih1, ih2⟩ := ih w hrest hwInv
      refine ⟨?_, ih2⟩
      intro u hu
      rw [List.mem_append] at hu
      rcases hu with hu | hu
      · exact flush_isChunk hcc u hu
      · exact ih1 u hu
    · next hover =>
      by_cases hccnil : cc = []
      · subst hccnil
        rw [List.nil_append, pyStrip_space_cons (stripped_of_noWs hwns)]
        exact ih w hrest hwInv
      · rcases hcc with rfl | ⟨hs, hsh, hp⟩
        · exact absurd rfl hccnil
        · have hwstr : Stripped w := stripped_of_noWs hwns
          have hstr : Stripped (cc ++ ' ' :: w) :=
            stripped_append hccnil hwne hs hwstr
          rw [pyStrip_eq_self hstr]
          refine ih _ hrest (Or.inr ⟨hstr, ?_, Or.inl ?_⟩)
          · exact chunkShape_append cc w hsh
              (chunkShape_of_noTermWs w (noWs_noTermWs hwns)) hwne hwstr.1
          · simp only [List.length_append, List.length_cons]
            omega

theorem packSentences_inv (maxChars : Nat) (ss : List (List Char)) :
    ∀ cc, (∀ s ∈ ss, noTermWs s = true) → CCInv maxChars cc →
    (∀ u ∈ (packSentences maxChars cc ss).1, IsChunk maxChars u) ∧
      CCInv maxChars (packSentences maxChars cc ss).2 := by
  induction ss with
  | nil =>
    intro cc _ hcc
    refine ⟨?_, hcc⟩
    intro u hu
    simp [packSentences] at hu
  | cons s rest ih =>
    intro cc hss hcc
    have hs2 : noTermWs (pyStrip s) = true := noTermWs_pyStrip (hss s (by simp))
    have hrest : ∀ t ∈ rest, noTermWs t = true :=
      fun t ht => hss t (by simp [ht])
    have hsStr : Stripped (pyStrip s) := stripped_pyStrip s
    have hsSh : chunkShape (pyStrip s) = true := chunkShape_of_noTermWs _ hs2
    rw [packSentences]
    by_cases hE : (pyStrip s).isEmpty
    · rw [if_pos hE]
      exact ih cc hrest hcc
    · rw [if_neg hE]
      have hsne : pyStrip s ≠ [] := by simpa [List.isEmpty_iff] using hE
      by_cases hover : cc.length + (pyStrip s).length + 1 > maxChars
      · rw [if_pos hover]
        by_cases hbig : (pyStrip s).length > maxChars
        · rw [if_pos hbig]
          obtain ⟨hw1, hw2⟩ := packWords_inv maxChars
            (pySplitWords (pyStrip s)) [] (pySplitWords_sound _) (Or.inl rfl)
          obtain ⟨hr1, hr2⟩ := ih _ hrest hw2
          refine ⟨?_, hr2⟩
          intro u hu
          simp only [List.append_assoc, List.mem_append] at hu
          rcases hu with hu | hu | hu
          · exact flush_isChunk hcc u hu
          · exact hw1 u hu
          · exact hr1 u hu
        · rw [if_neg hbig]
          have hsInv : CCInv maxChars (pyStrip s) :=
            Or.inr ⟨hsStr, hsSh, Or.inl (by omega)⟩
          obtain ⟨hr1, hr2⟩ := ih _ hrest hsInv
          refine ⟨?_, hr2⟩
          intro u hu
          simp only [List.mem_append] at hu
          rcases hu with hu | hu
          · exact flush_isChunk hcc u hu
          · exact hr1 u hu
      · rw [if_neg hover]
        by_cases hccnil : cc.isEmpty
        · rw [if_pos hccnil]
          exact ih _ hrest (Or.inr ⟨hsStr, hsSh, Or.inl (by omega)⟩)
        · rw [if_neg hccnil]
          rcases hcc with rfl | ⟨hccs, hccsh, hccp⟩
          · simp at hccnil
          · have hccne : cc ≠ [] := by simpa [List.isEmpty_iff] using hccnil
            refine ih _ hrest (Or.inr ⟨stripped_append hccne hsne hccs hsStr,
              chunkShape_append cc (pyStrip s) hccsh hsSh hsne hsStr.1,
              Or.inl ?_⟩)
            simp only [List.length_append, List.length_cons]
            omega

/-! ## The chunker preserves the non-whitespace characters -/

theorem packWords_nsp (maxChars : Nat) (ws : List (List Char)) :
    ∀ cc X, nsp (packWords maxChars cc ws).1.flatten ++
        (nsp (packWords maxChars cc ws).2 ++ X)
      = nsp cc ++ (nsp ws.flatten ++ X) := by
  induction ws with
  | nil =>
    intro cc X
    rw [packWords]
    simp [nsp]
  | cons w rest ih =>
    intro cc X
    rw [packWords]
    split
    · simp only [List.flatten_append, nsp_append, List.append_assoc]
      rw [ih w X, flush_nsp]
      simp only [List.flatten_cons, nsp_append, List.append_assoc]
    · rw [ih _ X, nsp_pyStrip, nsp_append, nsp_cons, if_pos (by decide)]
      simp only [List.flatten_cons, nsp_append, List.append_assoc]

theorem packSentences_nsp (maxChars : Nat) (ss : List (List Char)) :
    ∀ cc X, nsp (packSentences maxChars cc ss).1.flatten ++
        (nsp (packSentences maxChars cc ss).2 ++ X)
      = nsp cc ++ (nsp ss.flatten ++ X) := by
  induction ss with
  | nil =>
    intro cc X
    rw [packSentences]
    simp [nsp]
  | cons s rest ih =>
    intro cc X
    have hns : nsp (pyStrip s) = nsp s := nsp_pyStrip s
    rw [packSentences]
    by_cases hE : (pyStrip s).isEmpty
    · rw [if_pos hE, ih]
      have h0 : nsp s = [] := by
        rw [← hns]
        have hnil : pyStrip s = [] := by simpa [List.isEmpty_iff] using hE
        rw [hnil]
        rfl
      simp only [List.flatten_cons, nsp_append, h0, List.nil_append]
    · rw [if_neg hE]
      by_cases hover : cc.length + (pyStrip s).length + 1 > maxChars
      · rw [if_pos hover]
        by_cases hbig : (pyStrip s).length > maxChars
        · rw [if_pos hbig]
          simp only [List.flatten_append, nsp_append, List.append_assoc]
          rw [ih _ X, packWords_nsp, flush_nsp, nsp_flatten_pySplitWords, hns]
          simp only [List.flatten_cons, nsp_append, List.append_assoc, nsp,
            List.filter_nil, List.nil_append, List.filter_append]
        · rw [if_neg hbig]
          simp only [List.flatten_append, nsp_append, List.append_assoc]
          rw [ih _ X, flush_nsp, hns]
          simp only [List.flatten_cons, nsp_append, List.append_assoc]
      · rw [if_neg hover]
        by_cases hcc : cc.isEmpty
        · rw [if_pos hcc, ih _ X, hns]
          have hnil : cc = [] := by simpa [List.isEmpty_iff] using hcc
          subst hnil
          simp only [List.flatten_cons, nsp_append, List.append_assoc, nsp,
            List.filter_nil, List.nil_append, List.filter_append]
        · rw [if_neg hcc, ih _ X, nsp_append, nsp_cons, if_pos (by decide),
            hns]
          simp only [List.flatten_cons, nsp_append, List.append_assoc]

/-- Every chunk returned by `split_text_into_chunks` is well-formed. -/
theorem split_text_into_chunks_isChunk (text : List Char) (maxChars : Nat) :
    ∀ seg ∈ split_text_into_chunks text maxChars, IsChunk maxChars seg := by
  have hinv := packSentences_inv maxChars (splitSentences text) []
    (splitSentences_noTermWs text) (Or.inl rfl)
  intro seg hseg
  rw [split_text_into_chunks, List.mem_append] at hseg
  rcases hseg with h | h
  · exact hinv.1 seg h
  · exact flush_isChunk hinv.2 seg h

/-- C1: for every input text and positive bound, the chunker returns
non-empty segments whose concatenation carries exactly the non-whitespace
characters of the input, unchanged and in order, and every segment is within
the bound unless it is a single whitespace-free token longer than the
bound. -/
theorem split_text_into_chunks_sound (text : List Char) (maxChars : Nat)
    (hpos : 0 < maxChars) :
    (∀ seg ∈ split_text_into_chunks text maxChars, seg ≠ []) ∧
    nsp (split_text_into_chunks text maxChars).flatten = nsp text ∧
    (∀ seg ∈ split_text_into_chunks text maxChars,
      seg.length ≤ maxChars ∨
        (maxChars < seg.length ∧ ∀ c ∈ seg, pyIsSpace c = false)) := by
  have hchunks := split_text_into_chunks_isChunk text maxChars
  refine ⟨fun seg h => (hchunks seg h).1, ?_, ?_⟩
  · rw [split_text_into_chunks, List.flatten_append, nsp_append, flush_nsp]
    have h2 := packSentences_nsp maxChars (splitSentences text) [] []
    rw [List.append_nil, List.append_nil] at h2
    have h3 : nsp (splitSentences text).flatten = nsp text := by
      rw [splitSentences, nsp_flatten_splitSentencesAux]
      simp [nsp]
    rw [h3] at h2
    simpa [nsp] using h2
  · intro seg h
    rcases (hchunks seg h).2.2.2 with hle | hnw
    · exact Or.inl hle
    · by_cases hle : seg.length ≤ maxChars
      · exact Or.inl hle
      · exact Or.inr ⟨by omega, hnw⟩

/-- Witness for C1 at a concrete text and bound. -/
theorem split_text_into_chunks_sound_witness :
    (∀ seg ∈ split_text_into_chunks
        "Hello there. How are you? Fine! Thanks.".toList 12, seg ≠ []) ∧
    nsp (split_text_into_chunks
        "Hello there. How are you? Fine! Thanks.".toList 12).flatten
      = nsp "Hello there. How are you? Fine! Thanks.".toList ∧
    (∀ seg ∈ split_text_into_chunks
        "Hello there. How are you? Fine! Thanks.".toList 12,
      seg.length ≤ 12 ∨
        (12 < seg.length ∧ ∀ c ∈ seg, pyIsSpace c = false)) :=
  split_text_into_chunks_sound _ 12 (by decide)

/-! ## Idempotence on returned segments -/

theorem packSentences_small (maxChars : Nat) (us : List (List Char)) :
    ∀ cc, (∀ u ∈ us, u ≠ [] ∧ Stripped u) → Stripped cc →
    (if cc = [] then joinSp us else joinSp (cc :: us)).length ≤ maxChars →
    packSentences maxChars cc us =
      ([], if cc = [] then joinSp us else joinSp (cc :: us)) := by
  induction us with
  | nil =>
    intro cc _ _ _
    rw [packSentences]
    by_cases h : cc = []
    · subst h
      rw [if_pos rfl]
      rfl
    · rw [if_neg h]
      rfl
  | cons u us2 ih =>
    intro cc hus hccs hlen
    obtain ⟨hune, hustr⟩ := hus u (by simp)
    have hus2 : ∀ v ∈ us2, v ≠ [] ∧ Stripped v :=
      fun v hv => hus v (by simp [hv])
    have hstripu : pyStrip u = u := pyStrip_eq_self hustr
    rw [packSentences, hstripu,
      if_neg (by simpa [List.isEmpty_iff] using hune)]
    by_cases hcc : cc = []
    · subst hcc
      rw [if_pos rfl] at hlen
      have hule : u.length ≤ maxChars :=
        le_trans (joinSp_length_ge u us2) hlen
      have hres := ih u hus2 hustr (by rw [if_neg hune]; exact hlen)
      rw [if_neg hune] at hres
      by_cases hover : ([] : List Char).length + u.length + 1 > maxChars
      · rw [if_pos hover, if_neg (by omega), hres]
        rw [if_pos rfl]
        rfl
      · rw [if_neg hover, if_pos (by rfl), hres, if_pos rfl]
    · rw [if_neg hcc] at hlen
      have hj : joinSp (cc :: u :: us2) = cc ++ ' ' :: joinSp (u :: us2) :=
        joinSp_cons_ne_nil _ _ (by simp)
      have hlen2 : cc.length + (joinSp (u :: us2)).length + 1 ≤ maxChars := by
        rw [hj, List.length_append, List.length_cons] at hlen
        omega
      have hover : ¬(cc.length + u.length + 1 > maxChars) := by
        have := joinSp_length_ge u us2
        omega
      rw [if_neg hover, if_neg (by simpa [List.isEmpty_iff] using hcc)]
      have hstr2 : Stripped (cc ++ ' ' :: u) :=
        stripped_append hcc hune hccs hustr
      have hlen3 :
          (if cc ++ ' ' :: u = [] then joinSp us2
            else joinSp ((cc ++ ' ' :: u) :: us2)).length ≤ maxChars := by
        rw [if_neg (by simp), ← joinSp_cons_cons]
        exact hlen
      have hres := ih (cc ++ ' ' :: u) hus2 hstr2 hlen3
      rw [if_neg (by simp), ← joinSp_cons_cons] at hres
      rw [hres, if_neg hcc]

/-- C6: re-splitting any returned segment that satisfies the bound yields
exactly that segment alone. -/
theorem split_text_into_chunks_idem (text : List Char) (maxChars : Nat)
    (seg : List Char) (hseg : seg ∈ split_text_into_chunks text maxChars)
    (hlen : seg.length ≤ maxChars) :
    split_text_into_chunks seg maxChars = [seg] := by
  obtain ⟨hne, hstr, hsh, _⟩ :=
    split_text_into_chunks_isChunk text maxChars seg hseg
  obtain ⟨hjoin, hunits⟩ := splitSentencesAux_joinSp [] seg hsh
    (by simpa using hne) (by simpa using hstr.1) (by simpa using hstr.2)
  rw [List.nil_append] at hjoin
  have hsmall := packSentences_small maxChars (splitSentencesAux [] seg) []
    hunits stripped_nil (by rw [if_pos rfl, hjoin]; exact hlen)
  rw [if_pos rfl, hjoin] at hsmall
  rw [split_text_into_chunks, splitSentences, hsmall]
  rw [if_neg (by simpa [List.isEmpty_iff] using hne), pyStrip_eq_self hstr]
  rfl

/-- Witness for C6 at a concrete segment of a concrete split. -/
theorem split_text_into_chunks_idem_witness :
    "Hi there.".toList ∈
        split_text_into_chunks "Hi there. Go now! Yes sir.".toList 9 ∧
    ("Hi there.".toList).length ≤ 9 ∧
    split_text_into_chunks "Hi there.".toList 9 = ["Hi there.".toList] := by
  have hmem : "Hi there.".toList ∈
      split_text_into_chunks "Hi there. Go now! Yes sir.".toList 9 := by
    simp +decide [split_text_into_chunks, splitSentences, splitSentencesAux,
      packSentences, packWords, pySplitWords, pyStrip, pyIsSpace, isTerm,
      firstIsSpace]
  refine ⟨hmem, by decide, ?_⟩
  exact split_text_into_chunks_idem _ 9 _ hmem (by decide)

/-! ## The audio merger (C5) -/

/-- C5 (amended): `merge_audio_chunks` on an empty list fails with the
"no input" error, and on a single-element list returns that element
byte-identical together with exactly the probed duration — which is `0.0`,
not positive, whenever the probe finds no parseable `Duration:` line. -/
theorem merge_audio_chunks_spec (probe : Audio → ℚ)
    (concat : List Audio → Except String Audio) (x : Audio) :
    merge_audio_chunks probe concat [] = .error "No audio chunks to merge" ∧
    merge_audio_chunks probe concat [x] = .ok (x, probe x) :=
  ⟨rfl, rfl⟩

/-- C5 counterexample: with the probe yielding 0 (as the code's stderr parse
does for bytes without a `Duration:` line, e.g. an empty blob), the
single-element merge returns duration 0, refuting "probed duration > 0". -/
theorem merge_audio_chunks_single_duration_not_pos :
    merge_audio_chunks (fun _ => 0) (fun _ => .ok []) [[0]]
      = .ok ([0], 0) ∧ ¬((0 : ℚ) > 0) :=
  ⟨rfl, by norm_num⟩

/-! ## PATCH settings semantics (C9) -/

/-- C9: PATCH is not a deep merge.  Top-level fields absent from the update
keep their stored values, but a present `voice_settings` (resp.
`studio_settings`) object overwrites every one of its sub-fields with the
parsed request object's values — and pydantic fills sub-fields omitted from
the request with the model defaults, not the stored values. -/
theorem patch_settings_shallow_merge (db : DB) (u : TTSSettingsUpdate)
    (vin : VoiceSettingsInput) (sin2 : StudioSettingsInput) :
    (patch_settings db u).settings
      = some (applySettingsUpdate (get_tts_settings db) u) ∧
    (u.mode = none →
      (applySettingsUpdate (get_tts_settings db) u).mode
        = (get_tts_settings db).mode) ∧
    (u.voice_id = none →
      (applySettingsUpdate (get_tts_settings db) u).voice_id
        = (get_tts_settings db).voice_id) ∧
    (u.voice_settings = none →
      (applySettingsUpdate (get_tts_settings db) u).voice_settings
        = (get_tts_settings db).voice_settings) ∧
    (u.studio_settings = none →
      (applySettingsUpdate (get_tts_settings db) u).studio_settings
        = (get_tts_settings db).studio_settings) ∧
    (u.voice_settings = some (parseVoiceSettings vin) →
      (applySettingsUpdate (get_tts_settings db) u).voice_settings
          = parseVoiceSettings vin ∧
      (vin.stability = none →
        (applySettingsUpdate (get_tts_settings db) u).voice_settings.stability
          = 1/2) ∧
      (vin.similarity_boost = none →
        (applySettingsUpdate
          (get_tts_settings db) u).voice_settings.similarity_boost = 1) ∧
      (vin.speed = none →
        (applySettingsUpdate (get_tts_settings db) u).voice_settings.speed
          = 6/5) ∧
      (vin.style = none →
        (applySettingsUpdate (get_tts_settings db) u).voice_settings.style
          = 0) ∧
      (vin.use_speaker_boost = none →
        (applySettingsUpdate
            (get_tts_settings db) u).voice_settings.use_speaker_boost
          = false)) ∧
    (u.studio_settings = some (parseStudioSettings sin2) →
      (applySettingsUpdate (get_tts_settings db) u).studio_settings
          = parseStudioSettings sin2 ∧
      (sin2.quality_preset = none →
        (applySettingsUpdate
            (get_tts_settings db) u).studio_settings.quality_preset
          = "standard") ∧
      (sin2.volume_normalization = none →
        (applySettingsUpdate
            (get_tts_settings db) u).studio_settings.volume_normalization
          = false) ∧
      (sin2.apply_text_normalization = none →
        (applySettingsUpdate
            (get_tts_settings db) u).studio_settings.apply_text_normalization
          = "auto")) := by
  refine ⟨rfl, ?_, ?_, ?_, ?_, ?_, ?_⟩
  · intro h
    simp [applySettingsUpdate, h]
  · intro h
    simp [applySettingsUpdate, h]
  · intro h
    simp [applySettingsUpdate, h]
  · intro h
    simp [applySettingsUpdate, h]
  · intro h
    have hmain : (applySettingsUpdate
        (get_tts_settings db) u).voice_settings = parseVoiceSettings vin := by
      simp [applySettingsUpdate, h, parseVoiceSettings]
    refine ⟨hmain, ?_, ?_, ?_, ?_, ?_⟩ <;> intro h2 <;>
      rw [hmain] <;> simp [parseVoiceSettings, h2]
  · intro h
    have hmain : (applySettingsUpdate
        (get_tts_settings db) u).studio_settings
          = parseStudioSettings sin2 := by
      simp [applySettingsUpdate, h, parseStudioSettings]
    refine ⟨hmain, ?_, ?_, ?_⟩ <;> intro h2 <;>
      rw [hmain] <;> simp [parseStudioSettings, h2]

/-- Witness for C9: stored speed 2, PATCH carrying a `voice_settings` object
with only `stability` — the stored speed is lost to the default 1.2. -/
theorem patch_settings_shallow_merge_witness :
    (applySettingsUpdate
        (get_tts_settings ⟨some ⟨"chunking", "v", "m", "f",
          ⟨1/2, 1, 2, 0, false⟩, ⟨"standard", false, "auto"⟩⟩, []⟩)
        ⟨none, none, none, none,
          some (parseVoiceSettings ⟨some (7/10), none, none, none, none⟩),
          none⟩).voice_settings.speed = 6/5 := by
  have h := patch_settings_shallow_merge
    ⟨some ⟨"chunking", "v", "m", "f", ⟨1/2, 1, 2, 0, false⟩,
      ⟨"standard", false, "auto"⟩⟩, []⟩
    ⟨none, none, none, none,
      some (parseVoiceSettings ⟨some (7/10), none, none, none, none⟩), none⟩
    ⟨some (7/10), none, none, none, none⟩ ⟨none, none, none⟩
  exact (h.2.2.2.2.2.1 rfl).2.2.2.1 rfl

/-! ## Job submission validation (C3) -/

/-- C3 (amended): a text shorter than 100 characters fails the `JobCreate`
body validation, so FastAPI rejects the request synchronously with 422 (its
status for request-validation errors, not the claimed 400) and the handler —
hence any job insertion — never runs. -/
theorem create_job_short_text_rejected (db : DB) (newId : Nat)
    (name : String) (text : List Char) (hshort : text.length < 100) :
    handle_create_job db newId name text = .error .unprocessable ∧
    HTTPError.code .unprocessable = 422 ∧
    ∀ db2 doc, handle_create_job db newId name text ≠ .ok (db2, doc) := by
  have hval : validateJobCreate name text = false := by
    simp only [validateJobCreate, Bool.and_eq_false_iff]
    right
    simpa using hshort
  refine ⟨?_, rfl, ?_⟩
  · rw [handle_create_job, if_neg (by simp [hval])]
  · intro db2 doc
    rw [handle_create_job, if_neg (by simp [hval])]
    simp

/-- Witness for C3 (amended) at a concrete 99-character text. -/
theorem create_job_short_text_rejected_witness :
    (List.replicate 99 'a').length < 100 ∧
    (handle_create_job ⟨none, []⟩ 1 "job" (List.replicate 99 'a')
        = .error .unprocessable ∧
      HTTPError.code .unprocessable = 422 ∧
      ∀ db2 doc, handle_create_job ⟨none, []⟩ 1 "job"
        (List.replicate 99 'a') ≠ .ok (db2, doc)) :=
  ⟨by simp, create_job_short_text_rejected ⟨none, []⟩ 1 "job"
    (List.replicate 99 'a') (by simp)⟩

/-- C3 counterexample: the 99-character submission is answered with status
422, not the claimed 400. -/
theorem create_job_short_text_not_400 :
    handle_create_job ⟨none, []⟩ 1 "job" (List.replicate 99 'a')
      = .error .unprocessable ∧
    HTTPError.code .unprocessable ≠ 400 := by
  refine ⟨?_, by decide⟩
  rw [handle_create_job, if_neg]
  simp [validateJobCreate]

/-! ## Immutability of a job's `tts_config` (C8) -/

/-- C8: settings operations (PUT, PATCH, reset) never modify any job
document, and both orchestrators are insensitive to the process-wide
settings: two worlds with the same jobs and files but different settings
produce identical traces (in particular identical synthesis and studio
requests, which are built from the job's own `tts_config` snapshot). -/
theorem tts_config_immutable (db : DB) (s : TTSSettings)
    (u : TTSSettingsUpdate) (w1 w2 : World) (jobId : Nat) (oT : TtsOracle)
    (oS : StudioOracle) (hjobs : w1.db.jobs = w2.db.jobs)
    (hfs : w1.fs = w2.fs) :
    (update_settings db s).jobs = db.jobs ∧
    (patch_settings db u).jobs = db.jobs ∧
    (reset_settings db).jobs = db.jobs ∧
    process_tts_job w1 jobId oT = process_tts_job w2 jobId oT ∧
    process_studio_job w1 jobId oS = process_studio_job w2 jobId oS := by
  have hlook : lookupJob w1.db jobId = lookupJob w2.db jobId := by
    rw [lookupJob, lookupJob, hjobs]
  refine ⟨rfl, rfl, rfl, ?_, ?_⟩
  · rw [process_tts_job, process_tts_job, hlook]
  · rw [process_studio_job, process_studio_job, hlook]

/-- Witness for C8: two stores sharing one job, one with settings and one
without. -/
theorem tts_config_immutable_witness :
    (update_settings ⟨none, []⟩ DEFAULT_TTS_SETTINGS).jobs = [] ∧
    (patch_settings ⟨none, []⟩
      ⟨none, none, none, none, none, none⟩).jobs = [] ∧
    (reset_settings ⟨none, []⟩).jobs = [] ∧
    process_tts_job ⟨⟨some DEFAULT_TTS_SETTINGS, []⟩, []⟩ 1
        ⟨fun _ => .error "e", fun _ => 0, fun _ => .ok []⟩
      = process_tts_job ⟨⟨none, []⟩, []⟩ 1
        ⟨fun _ => .error "e", fun _ => 0, fun _ => .ok []⟩ ∧
    process_studio_job ⟨⟨some DEFAULT_TTS_SETTINGS, []⟩, []⟩ 1
        ⟨404, "", none, fun _ => .non200, 404, [], none⟩
      = process_studio_job ⟨⟨none, []⟩, []⟩ 1
        ⟨404, "", none, fun _ => .non200, 404, [], none⟩ := by
  have h := tts_config_immutable ⟨none, []⟩ DEFAULT_TTS_SETTINGS
    ⟨none, none, none, none, none, none⟩
    ⟨⟨some DEFAULT_TTS_SETTINGS, []⟩, []⟩ ⟨⟨none, []⟩, []⟩ 1
    ⟨fun _ => .error "e", fun _ => 0, fun _ => .ok []⟩
    ⟨404, "", none, fun _ => .non200, 404, [], none⟩ rfl rfl
  exact h

/-! ## The sequential orchestrator: fail-fast (C2) -/

theorem modifyChunkRequest_get (f : ChunkRequest → ChunkRequest) :
    ∀ (n : Nat) (l : List ChunkRequest) (k : Nat),
    (modifyChunkRequest f n l).get? k
      = if k = n then (l.get? n).map f else l.get? k := by
  intro n
  induction n with
  | zero =>
    intro l k
    cases l with
    | nil => cases k <;> simp [modifyChunkRequest]
    | cons c t =>
      cases k with
      | zero => simp [modifyChunkRequest]
      | succ k2 => simp [modifyChunkRequest]
  | succ n ih =>
    intro l k
    cases l with
    | nil => cases k <;> simp [modifyChunkRequest]
    | cons c t =>
      cases k with
      | zero => simp [modifyChunkRequest]
      | succ k2 =>
        simp only [modifyChunkRequest, List.get?_cons_succ, ih t k2]
        by_cases h : k2 = n
        · rw [if_pos h, if_pos (by omega)]
        · rw [if_neg h, if_neg (by omega)]

theorem modifyChunkRequest_length (f : ChunkRequest → ChunkRequest) :
    ∀ (n : Nat) (l : List ChunkRequest),
    (modifyChunkRequest f n l).length = l.length := by
  intro n
  induction n with
  | zero =>
    intro l
    cases l <;> simp [modifyChunkRequest]
  | succ n ih =>
    intro l
    cases l with
    | nil => simp [modifyChunkRequest]
    | cons c t => simp [modifyChunkRequest, ih t]

/-- Record-level facts about a loop run that fails at relative index `m`:
the raised error is reported, the job-level fields are untouched, request
`i+m` is marked failed with the error text, requests after it are untouched,
requests before the loop's window are untouched, and every earlier request
in the window is marked completed with its artifact location. -/
theorem ttsChunkLoop_fail_record (jobId : Nat) (cfg : TTSConfig)
    (o : TtsOracle) (cc : Nat) (e : String) :
    ∀ (m : Nat) (cs : List (List Char)) (i : Nat) (j : JobDoc)
      (acc : List Audio),
    m < cs.length →
    (∀ k, k < m → ∃ a, o.synth (i + k) = .ok a) →
    o.synth (i + m) = .error e →
    (ttsChunkLoop jobId cfg o cc i cs j acc).2.2 = .error e ∧
    (ttsChunkLoop jobId cfg o cc i cs j acc).2.1.status = j.status ∧
    (ttsChunkLoop jobId cfg o cc i cs j acc).2.1.error = j.error ∧
    (ttsChunkLoop jobId cfg o cc i cs j acc).2.1.audio_path = j.audio_path ∧
    (ttsChunkLoop jobId cfg o cc i cs j acc).2.1.audio_url = j.audio_url ∧
    (ttsChunkLoop jobId cfg o cc i cs j acc).2.1.chunk_requests.length
      = j.chunk_requests.length ∧
    ((ttsChunkLoop jobId cfg o cc i cs j acc).2.1.chunk_requests.get? (i + m)
      = (j.chunk_requests.get? (i + m)).map (crFailed e)) ∧
    (∀ k, i + m < k →
      (ttsChunkLoop jobId cfg o cc i cs j acc).2.1.chunk_requests.get? k
        = j.chunk_requests.get? k) ∧
    (∀ k, k < i →
      (ttsChunkLoop jobId cfg o cc i cs j acc).2.1.chunk_requests.get? k
        = j.chunk_requests.get? k) ∧
    (∀ k, k < m →
      (ttsChunkLoop jobId cfg o cc i cs j acc).2.1.chunk_requests.get?
          (i + k)
        = (j.chunk_requests.get? (i + k)).map (crCompleted jobId (i + k))) := by
  intro m
  induction m with
  | zero =>
    intro cs i j acc hm hok hfail
    obtain ⟨ct, rest, rfl⟩ : ∃ ct rest, cs = ct :: rest := by
      cases cs with
      | nil => simp at hm
      | cons ct rest => exact ⟨ct, rest, rfl⟩
    rw [Nat.add_zero] at hfail
    simp only [ttsChunkLoop, hfail, jChunkFailed, Nat.add_zero]
    refine ⟨by trivial, by trivial, by trivial, by trivial, by trivial,
      ?_, ?_, ?_, ?_, ?_⟩
    · simp [modifyChunkRequest_length]
    · rw [modifyChunkRequest_get, if_pos rfl]
    · intro k hk
      rw [modifyChunkRequest_get, if_neg (by omega)]
    · intro k hk
      rw [modifyChunkRequest_get, if_neg (by omega)]
    · intro k hk
      omega
  | succ m ih =>
    intro cs i j acc hm hok hfail
    obtain ⟨ct, rest, rfl⟩ : ∃ ct rest, cs = ct :: rest := by
      cases cs with
      | nil => simp at hm
      | cons ct rest => exact ⟨ct, rest, rfl⟩
    obtain ⟨a, ha⟩ := hok 0 (by omega)
    rw [Nat.add_zero] at ha
    simp only [ttsChunkLoop, ha]
    have hok2 : ∀ k, k < m → ∃ b, o.synth (i + 1 + k) = .ok b := by
      intro k hk
      obtain ⟨b, hb⟩ := hok (k + 1) (by omega)
      exact ⟨b, by rw [show i + 1 + k = i + (k + 1) by omega]; exact hb⟩
    have hfail2 : o.synth (i + 1 + m) = .error e := by
      rw [show i + 1 + m = i + (m + 1) by omega]
      exact hfail
    obtain ⟨ih1, ih2, ih3, ih4, ih5, ih6, ih7, ih8, ih9, ih10⟩ :=
      ih rest (i + 1) (jAfterChunk jobId cc i j) (acc ++ [a])
        (by simpa using hm) hok2 hfail2
    refine ⟨ih1, ih2.trans (by simp [jAfterChunk]),
      ih3.trans (by simp [jAfterChunk]), ih4.trans (by simp [jAfterChunk]),
      ih5.trans (by simp [jAfterChunk]), ?_, ?_, ?_, ?_, ?_⟩
    · have h6 := ih6
      have e6 : (jAfterChunk jobId cc i j).chunk_requests.length
          = j.chunk_requests.length := by
        simp [jAfterChunk, modifyChunkRequest_length]
      rw [e6] at h6
      exact h6
    · have h7 := ih7
      rw [show i + 1 + m = i + (m + 1) by omega] at h7
      have e7 : (jAfterChunk jobId cc i j).chunk_requests.get? (i + (m + 1))
          = j.chunk_requests.get? (i + (m + 1)) := by
        simp only [jAfterChunk]
        rw [modifyChunkRequest_get, if_neg (by omega)]
      rw [e7] at h7
      exact h7
    · intro k hk
      have h8 := ih8 k (by omega)
      have e8 : (jAfterChunk jobId cc i j).chunk_requests.get? k
          = j.chunk_requests.get? k := by
        simp only [jAfterChunk]
        rw [modifyChunkRequest_get, if_neg (by omega)]
      rw [e8] at h8
      exact h8
    · intro k hk
      have h9 := ih9 k (by omega)
      have e9 : (jAfterChunk jobId cc i j).chunk_requests.get? k
          = j.chunk_requests.get? k := by
        simp only [jAfterChunk]
        rw [modifyChunkRequest_get, if_neg (by omega)]
      rw [e9] at h9
      exact h9
    · intro k hk
      cases k with
      | zero =>
        have h9 := ih9 i (by omega)
        have e9 : (jAfterChunk jobId cc i j).chunk_requests.get? i
            = (j.chunk_requests.get? i).map (crCompleted jobId i) := by
          simp only [jAfterChunk]
          rw [modifyChunkRequest_get, if_pos rfl]
        rw [e9] at h9
        rw [Nat.add_zero]
        exact h9
      | succ k2 =>
        have h10 := ih10 k2 (by omega)
        rw [show i + 1 + k2 = i + (k2 + 1) by omega] at h10
        have e10 : (jAfterChunk jobId cc i j).chunk_requests.get?
              (i + (k2 + 1))
            = j.chunk_requests.get? (i + (k2 + 1)) := by
          simp only [jAfterChunk]
          rw [modifyChunkRequest_get, if_neg (by omega)]
        rw [e10] at h10
        exact h10

/-- Event-level facts about a failing loop run: every record update keeps
the job-level status/error/audio fields, and every file write is the chunk
artifact of a successfully synthesized window index. -/
theorem ttsChunkLoop_fail_events (jobId : Nat) (cfg : TTSConfig)
    (o : TtsOracle) (cc : Nat) (e : String) :
    ∀ (m : Nat) (cs : List (List Char)) (i : Nat) (j : JobDoc)
      (acc : List Audio),
    m < cs.length →
    (∀ k, k < m → ∃ a, o.synth (i + k) = .ok a) →
    o.synth (i + m) = .error e →
    (∀ id2 j2,
      Ev.dbUpdate id2 j2 ∈ (ttsChunkLoop jobId cfg o cc i cs j acc).1 →
      j2.status = j.status ∧ j2.error = j.error ∧
      j2.audio_path = j.audio_path ∧ j2.audio_url = j.audio_url) ∧
    (∀ p b, Ev.fileWrite p b ∈ (ttsChunkLoop jobId cfg o cc i cs j acc).1 →
      ∃ k, k < m ∧ p = chunkAudioPath jobId (i + k) ∧
        o.synth (i + k) = .ok b) := by
  intro m
  induction m with
  | zero =>
    intro cs i j acc hm hok hfail
    obtain ⟨ct, rest, rfl⟩ : ∃ ct rest, cs = ct :: rest := by
      cases cs with
      | nil => simp at hm
      | cons ct rest => exact ⟨ct, rest, rfl⟩
    rw [Nat.add_zero] at hfail
    simp only [ttsChunkLoop, hfail]
    constructor
    · intro id2 j2 hj2
      simp only [List.mem_cons, List.not_mem_nil, or_false] at hj2
      rcases hj2 with h | h
      · exact absurd h (by simp)
      · obtain ⟨hid, hj⟩ : id2 = jobId ∧ j2 = jChunkFailed e i j := by
          simpa using h
        subst hj
        exact ⟨rfl, rfl, rfl, rfl⟩
    · intro p b hpb
      simp only [List.mem_cons, List.not_mem_nil, or_false] at hpb
      rcases hpb with h | h <;> exact absurd h (by simp)
  | succ m ih =>
    intro cs i j acc hm hok hfail
    obtain ⟨ct, rest, rfl⟩ : ∃ ct rest, cs = ct :: rest := by
      cases cs with
      | nil => simp at hm
      | cons ct rest => exact ⟨ct, rest, rfl⟩
    obtain ⟨a, ha⟩ := hok 0 (by omega)
    rw [Nat.add_zero] at ha
    simp only [ttsChunkLoop, ha]
    have hok2 : ∀ k, k < m → ∃ b, o.synth (i + 1 + k) = .ok b := by
      intro k hk
      obtain ⟨b, hb⟩ := hok (k + 1) (by omega)
      exact ⟨b, by rw [show i + 1 + k = i + (k + 1) by omega]; exact hb⟩
    have hfail2 : o.synth (i + 1 + m) = .error e := by
      rw [show i + 1 + m = i + (m + 1) by omega]
      exact hfail
    obtain ⟨ihDb, ihWr⟩ := ih rest (i + 1) (jAfterChunk jobId cc i j)
      (acc ++ [a]) (by simpa using hm) hok2 hfail2
    constructor
    · intro id2 j2 hj2
      simp only [List.mem_cons] at hj2
      rcases hj2 with h | h | h | h
      · exact absurd h (by simp)
      · exact absurd h (by simp)
      · obtain ⟨hid, hj⟩ : id2 = jobId ∧ j2 = jAfterChunk jobId cc i j := by
          simpa using h
        subst hj
        exact ⟨by simp [jAfterChunk], by simp [jAfterChunk],
          by simp [jAfterChunk], by simp [jAfterChunk]⟩
      · obtain ⟨h1, h2, h3, h4⟩ := ihDb id2 j2 h
        exact ⟨h1.trans (by simp [jAfterChunk]),
          h2.trans (by simp [jAfterChunk]),
          h3.trans (by simp [jAfterChunk]),
          h4.trans (by simp [jAfterChunk])⟩
    · intro p b hpb
      simp only [List.mem_cons] at hpb
      rcases hpb with h | h | h | h
      · exact absurd h (by simp)
      · obtain ⟨hp, hb⟩ : p = chunkAudioPath jobId i ∧ b = a := by
          injection h with h1 h2
          exact ⟨h1, h2⟩
        subst hp
        subst hb
        exact ⟨0, by omega, by rw [Nat.add_zero], by rw [Nat.add_zero]; exact ha⟩
      · exact absurd h (by simp)
      · obtain ⟨k, hk, hp, hb⟩ := ihWr p b h
        refine ⟨k + 1, by omega, ?_, ?_⟩
        · rw [hp, show i + 1 + k = i + (k + 1) by omega]
        · rw [show i + (k + 1) = i + 1 + k by omega]
          exact hb

theorem fsLookup_runTrace_no_write (p : ArtifactPath) :
    ∀ (evs : List Ev) (w : World),
    (∀ b, Ev.fileWrite p b ∉ evs) →
    fsLookup (runTrace w evs).fs p = fsLookup w.fs p := by
  intro evs
  induction evs with
  | nil =>
    intro w _
    rfl
  | cons ev rest ih =>
    intro w hno
    have hstep : runTrace w (ev :: rest) = runTrace (applyEv w ev) rest := rfl
    rw [hstep, ih (applyEv w ev) (fun b hb => hno b (by simp [hb]))]
    cases ev with
    | fileWrite q b =>
      have hq : ¬(q = p) := fun hqp => hno b (by rw [hqp]; simp)
      simp [applyEv, fsLookup, List.find?, hq]
    | dbUpdate a b => rfl
    | synthCall a b => rfl
    | studioCreate a => rfl
    | sleep a => rfl
    | poll a => rfl
    | webhook a => rfl

theorem fsLookup_runTrace_write (p : ArtifactPath) (a : Audio)
    (evs1 evs2 : List Ev) (w : World)
    (hno : ∀ b, Ev.fileWrite p b ∉ evs2) :
    fsLookup (runTrace w (evs1 ++ Ev.fileWrite p a :: evs2)).fs p
      = some a := by
  have hsplit : runTrace w (evs1 ++ Ev.fileWrite p a :: evs2)
      = runTrace (applyEv (runTrace w evs1) (Ev.fileWrite p a)) evs2 := by
    rw [runTrace, List.foldl_append, List.foldl_cons]
    rfl
  rw [hsplit, fsLookup_runTrace_no_write p evs2 _ hno]
  simp [applyEv, fsLookup, List.find?]

/-- Filesystem facts about a failing loop run: each successfully
synthesized chunk's artifact is retrievable from the replayed world. -/
theorem ttsChunkLoop_fail_fs (jobId : Nat) (cfg : TTSConfig)
    (o : TtsOracle) (cc : Nat) (e : String) :
    ∀ (m : Nat) (cs : List (List Char)) (i : Nat) (j : JobDoc)
      (acc : List Audio) (w0 : World),
    m < cs.length →
    (∀ k, k < m → ∃ a, o.synth (i + k) = .ok a) →
    o.synth (i + m) = .error e →
    ∀ k a, k < m → o.synth (i + k) = .ok a →
    fsLookup (runTrace w0 (ttsChunkLoop jobId cfg o cc i cs j acc).1).fs
      (chunkAudioPath jobId (i + k)) = some a := by
  intro m
  induction m with
  | zero =>
    intro cs i j acc w0 hm hok hfail k a hk
    omega
  | succ m ih =>
    intro cs i j acc w0 hm hok hfail k a hk hka
    obtain ⟨ct, rest, rfl⟩ : ∃ ct rest, cs = ct :: rest := by
      cases cs with
      | nil => simp at hm
      | cons ct rest => exact ⟨ct, rest, rfl⟩
    obtain ⟨a0, ha0⟩ := hok 0 (by omega)
    rw [Nat.add_zero] at ha0
    have hok2 : ∀ k2, k2 < m → ∃ b, o.synth (i + 1 + k2) = .ok b := by
      intro k2 hk2
      obtain ⟨b, hb⟩ := hok (k2 + 1) (by omega)
      exact ⟨b, by rw [show i + 1 + k2 = i + (k2 + 1) by omega]; exact hb⟩
    have hfail2 : o.synth (i + 1 + m) = .error e := by
      rw [show i + 1 + m = i + (m + 1) by omega]
      exact hfail
    cases k with
    | zero =>
      rw [Nat.add_zero] at hka ⊢
      have haa : a0 = a := by
        rw [ha0] at hka
        simpa using hka
      subst haa
      simp only [ttsChunkLoop, ha0]
      have hnowr : ∀ b, Ev.fileWrite (chunkAudioPath jobId i) b ∉
          Ev.dbUpdate jobId (jAfterChunk jobId cc i j) ::
          (ttsChunkLoop jobId cfg o cc (i + 1) rest
            (jAfterChunk jobId cc i j) (acc ++ [a0])).1 := by
        intro b hb
        simp only [List.mem_cons] at hb
        rcases hb with h | h
        · exact absurd h (by simp)
        · obtain ⟨k2, hk2, hp, hsb⟩ := (ttsChunkLoop_fail_events jobId cfg o
            cc e m rest (i + 1) (jAfterChunk jobId cc i j) (acc ++ [a0])
            (by simpa using hm) hok2 hfail2).2 _ b h
          rw [chunkAudioPath, chunkAudioPath] at hp
          have : i = i + 1 + k2 := by
            injection hp with h1 h2
          omega
      exact fsLookup_runTrace_write (chunkAudioPath jobId i) a0
        [Ev.synthCall i (mkSynthRequest cfg ct)] _ w0 hnowr
    | succ k2 =>
      simp only [ttsChunkLoop, ha0]
      have hstep : ∀ (l : List Ev),
          runTrace w0 (Ev.synthCall i (mkSynthRequest cfg ct) ::
            Ev.fileWrite (chunkAudioPath jobId i) a0 ::
            Ev.dbUpdate jobId (jAfterChunk jobId cc i j) :: l)
          = runTrace (applyEv (applyEv (applyEv w0
              (Ev.synthCall i (mkSynthRequest cfg ct)))
              (Ev.fileWrite (chunkAudioPath jobId i) a0))
              (Ev.dbUpdate jobId (jAfterChunk jobId cc i j))) l :=
        fun l => rfl
      rw [hstep]
      rw [show i + (k2 + 1) = i + 1 + k2 by omega]
      exact ih rest (i + 1) (jAfterChunk jobId cc i j) (acc ++ [a0]) _
        (by simpa using hm) hok2 hfail2 k2 a (by omega)
        (by rw [show i + 1 + k2 = i + (k2 + 1) by omega]; exact hka)

/-- C2: in chunking mode, when the synthesis of chunk `i` raises while all
chunks before `i` succeeded, chunk request `i` is marked failed with the
error text, every chunk request after `i` stays `pending`, the job ends
`failed` carrying the same error text, and no observable state of the run
ever sets the job's `audio_path` or `audio_url`. -/
theorem process_tts_job_fail_fast (w : World) (jobId : Nat) (o : TtsOracle)
    (j0 : JobDoc) (i : Nat) (e : String)
    (hlook : lookupJob w.db jobId = some j0)
    (hcrlen : j0.chunk_requests.length = j0.chunks.length)
    (hpending : ∀ cr ∈ j0.chunk_requests, cr.status = .pending)
    (hap : j0.audio_path = none) (hau : j0.audio_url = none)
    (hi : i < j0.chunks.length)
    (hok : ∀ k, k < i → ∃ a, o.synth k = .ok a)
    (hfail : o.synth i = .error e) :
    ∃ jf, (jobStates j0 (process_tts_job w jobId o)).getLast? = some jf ∧
      jf.status = .failed ∧ jf.error = some e ∧
      (∃ cr, jf.chunk_requests.get? i = some cr ∧ cr.status = .failed ∧
        cr.error = some e) ∧
      (∀ k, i < k → k < j0.chunk_requests.length →
        ∃ cr, jf.chunk_requests.get? k = some cr ∧ cr.status = .pending) ∧
      (∀ st ∈ jobStates j0 (process_tts_job w jobId o),
        st.audio_path = none ∧ st.audio_url = none) := by
  have hok0 : ∀ k, k < i → ∃ a, o.synth (0 + k) = .ok a := by
    intro k hk
    simpa using hok k hk
  have hfail0 : o.synth (0 + i) = .error e := by simpa using hfail
  obtain ⟨r1, r2, r3, r4, r5, r6, r7, r8, r9, r10⟩ :=
    ttsChunkLoop_fail_record jobId j0.tts_config o j0.chunks.length e i
      j0.chunks 0 (jTranscribing j0.chunks.length (jChunking j0)) []
      hi hok0 hfail0
  obtain ⟨evDb, evWr⟩ :=
    ttsChunkLoop_fail_events jobId j0.tts_config o j0.chunks.length e i
      j0.chunks 0 (jTranscribing j0.chunks.length (jChunking j0)) []
      hi hok0 hfail0
  have hcrTr : (jTranscribing j0.chunks.length
      (jChunking j0)).chunk_requests = j0.chunk_requests := by
    simp [jTranscribing, jChunking]
  have htrace : process_tts_job w jobId o =
      Ev.dbUpdate jobId (jChunking j0) ::
      Ev.dbUpdate jobId (jTranscribing j0.chunks.length (jChunking j0)) ::
      (ttsChunkLoop jobId j0.tts_config o j0.chunks.length 0 j0.chunks
        (jTranscribing j0.chunks.length (jChunking j0)) []).1 ++
      [Ev.dbUpdate jobId (jFailed e
        (ttsChunkLoop jobId j0.tts_config o j0.chunks.length 0 j0.chunks
          (jTranscribing j0.chunks.length (jChunking j0)) []).2.1)] := by
    simp only [process_tts_job, hlook]
    rw [show ttsTail jobId o
        (ttsChunkLoop jobId j0.tts_config o j0.chunks.length 0 j0.chunks
          (jTranscribing j0.chunks.length (jChunking j0)) []).2
      = [Ev.dbUpdate jobId (jFailed e
          (ttsChunkLoop jobId j0.tts_config o j0.chunks.length 0 j0.chunks
            (jTranscribing j0.chunks.length (jChunking j0)) []).2.1)] from by
      simp only [ttsTail, r1]]
  have hstates : jobStates j0 (process_tts_job w jobId o) =
      (j0 :: jChunking j0 ::
        jTranscribing j0.chunks.length (jChunking j0) ::
        (ttsChunkLoop jobId j0.tts_config o j0.chunks.length 0 j0.chunks
          (jTranscribing j0.chunks.length (jChunking j0)) []).1.filterMap
          (fun ev => match ev with
            | Ev.dbUpdate _ j2 => some j2
            | _ => none)) ++
      [jFailed e (ttsChunkLoop jobId j0.tts_config o j0.chunks.length 0
        j0.chunks (jTranscribing j0.chunks.length (jChunking j0)) []).2.1]
      := by
    rw [jobStates, htrace]
    simp [List.filterMap_append]
  refine ⟨jFailed e (ttsChunkLoop jobId j0.tts_config o j0.chunks.length 0
    j0.chunks (jTranscribing j0.chunks.length (jChunking j0)) []).2.1,
    ?_, rfl, rfl, ?_, ?_, ?_⟩
  · rw [hstates, List.getLast?_append]
    rfl
  · have h7 := r7
    rw [Nat.zero_add, hcrTr] at h7
    obtain ⟨cr0, hcr0⟩ : ∃ cr0, j0.chunk_requests.get? i = some cr0 := by
      rw [List.get?_eq_get (by omega)]
      exact ⟨_, rfl⟩
    refine ⟨crFailed e cr0, ?_, rfl, rfl⟩
    show (ttsChunkLoop jobId j0.tts_config o j0.chunks.length 0 j0.chunks
      (jTranscribing j0.chunks.length (jChunking j0)) []).2.1.chunk_requests.get?
        i = some (crFailed e cr0)
    rw [h7, hcr0]
    rfl
  · intro k hk1 hk2
    have h8 := r8 k (by omega)
    rw [hcrTr] at h8
    obtain ⟨cr0, hcr0⟩ : ∃ cr0, j0.chunk_requests.get? k = some cr0 := by
      rw [List.get?_eq_get (by omega)]
      exact ⟨_, rfl⟩
    refine ⟨cr0, ?_, ?_⟩
    · show (ttsChunkLoop jobId j0.tts_config o j0.chunks.length 0 j0.chunks
        (jTranscribing j0.chunks.length (jChunking j0)) []).2.1.chunk_requests.get?
          k = some cr0
      rw [h8, hcr0]
    · exact hpending cr0 (List.get?_mem hcr0)
  · intro st hst
    rw [hstates] at hst
    simp only [List.mem_append, List.mem_cons, List.mem_singleton] at hst
    have hTrA : (jTranscribing j0.chunks.length
        (jChunking j0)).audio_path = none := by
      simp [jTranscribing, jChunking, hap]
    have hTrU : (jTranscribing j0.chunks.length
        (jChunking j0)).audio_url = none := by
      simp [jTranscribing, jChunking, hau]
    rcases hst with ((rfl | rfl | rfl | hmem) | hlast)
    · exact ⟨hap, hau⟩
    · exact ⟨by simp [jChunking, hap], by simp [jChunking, hau]⟩
    · exact ⟨hTrA, hTrU⟩
    · obtain ⟨ev, hev, hfev⟩ := List.mem_filterMap.mp hmem
      cases ev with
      | dbUpdate id2 j2 =>
        have hj2 : j2 = st := by simpa using hfev
        subst hj2
        obtain ⟨h1, h2, h3, h4⟩ := evDb id2 j2 hev
        exact ⟨h3.trans hTrA, h4.trans hTrU⟩
      | fileWrite p b => simp at hfev
      | synthCall a b => simp at hfev
      | studioCreate a => simp at hfev
      | sleep a => simp at hfev
      | poll a => simp at hfev
      | webhook a => simp at hfev
    · have hstf : st = jFailed e (ttsChunkLoop jobId j0.tts_config o
          j0.chunks.length 0 j0.chunks
          (jTranscribing j0.chunks.length (jChunking j0)) []).2.1 := by
        simpa using hlast
      subst hstf
      exact ⟨by simpa [jFailed] using r4.trans hTrA,
        by simpa [jFailed] using r5.trans hTrU⟩

/-- The loop's first event on a non-empty chunk list is the synthesis call
of the first chunk. -/
theorem ttsChunkLoop_head (jobId : Nat) (cfg : TTSConfig) (o : TtsOracle)
    (cc i : Nat) (ct : List Char) (rest : List (List Char)) (j : JobDoc)
    (acc : List Audio) :
    ∃ tail, (ttsChunkLoop jobId cfg o cc i (ct :: rest) j acc).1
      = Ev.synthCall i (mkSynthRequest cfg ct) :: tail := by
  cases hsy : o.synth i with
  | ok a =>
    exact ⟨Ev.fileWrite (chunkAudioPath jobId i) a ::
      Ev.dbUpdate jobId (jAfterChunk jobId cc i j) ::
      (ttsChunkLoop jobId cfg o cc (i + 1) rest (jAfterChunk jobId cc i j)
        (acc ++ [a])).1, by simp only [ttsChunkLoop, hsy]⟩
  | error e =>
    exact ⟨[Ev.dbUpdate jobId (jChunkFailed e i j)],
      by simp only [ttsChunkLoop, hsy]⟩

/-- Persist-before-next-attempt: when the first `k` chunks of the window
succeed and a `k+1`-st chunk exists, the trace contains, in immediate
succession, the synthesis of chunk `k`, the write of its artifact and the
update marking its request completed with that artifact location, followed
directly by the synthesis call of chunk `k+1`. -/
theorem ttsChunkLoop_order (jobId : Nat) (cfg : TTSConfig) (o : TtsOracle)
    (cc : Nat) :
    ∀ (k : Nat) (cs : List (List Char)) (i : Nat) (j : JobDoc)
      (acc : List Audio) (a : Audio),
    k + 1 < cs.length →
    i + cs.length ≤ j.chunk_requests.length →
    (∀ k2, k2 < k → ∃ b, o.synth (i + k2) = .ok b) →
    o.synth (i + k) = .ok a →
    ∃ p q r1 r2 j2, (ttsChunkLoop jobId cfg o cc i cs j acc).1
      = p ++ Ev.synthCall (i + k) r1 ::
          Ev.fileWrite (chunkAudioPath jobId (i + k)) a ::
          Ev.dbUpdate jobId j2 :: Ev.synthCall (i + k + 1) r2 :: q ∧
      (∃ cr, j2.chunk_requests.get? (i + k) = some cr ∧
        cr.status = .completed ∧
        cr.audio_path = some (chunkAudioPath jobId (i + k))) := by
  intro k
  induction k with
  | zero =>
    intro cs i j acc a hlen hcr hok ha
    obtain ⟨ct, rest, rfl⟩ : ∃ ct rest, cs = ct :: rest := by
      cases cs with
      | nil => simp at hlen
      | cons ct rest => exact ⟨ct, rest, rfl⟩
    obtain ⟨ct2, rest2, rfl⟩ : ∃ ct2 rest2, rest = ct2 :: rest2 := by
      cases rest with
      | nil => simp at hlen
      | cons ct2 rest2 => exact ⟨ct2, rest2, rfl⟩
    rw [Nat.add_zero] at ha
    obtain ⟨tail, htail⟩ := ttsChunkLoop_head jobId cfg o cc (i + 1) ct2
      rest2 (jAfterChunk jobId cc i j) (acc ++ [a])
    refine ⟨[], tail, mkSynthRequest cfg ct, mkSynthRequest cfg ct2,
      jAfterChunk jobId cc i j, ?_, ?_⟩
    · rw [show (ttsChunkLoop jobId cfg o cc i (ct :: ct2 :: rest2) j acc).1
          = Ev.synthCall i (mkSynthRequest cfg ct) ::
            Ev.fileWrite (chunkAudioPath jobId i) a ::
            Ev.dbUpdate jobId (jAfterChunk jobId cc i j) ::
            (ttsChunkLoop jobId cfg o cc (i + 1) (ct2 :: rest2)
              (jAfterChunk jobId cc i j) (acc ++ [a])).1 from by
          simp only [ttsChunkLoop, ha], htail]
      simp
    · obtain ⟨cr0, hcr0⟩ : ∃ cr0, j.chunk_requests.get? i = some cr0 := by
        rw [List.get?_eq_get (by simp at hcr ⊢; omega)]
        exact ⟨_, rfl⟩
      refine ⟨crCompleted jobId i cr0, ?_, rfl, rfl⟩
      rw [Nat.add_zero]
      show (jAfterChunk jobId cc i j).chunk_requests.get? i
        = some (crCompleted jobId i cr0)
      simp only [jAfterChunk]
      rw [modifyChunkRequest_get, if_pos rfl, hcr0]
      rfl
  | succ k ih =>
    intro cs i j acc a hlen hcr hok ha
    obtain ⟨ct, rest, rfl⟩ : ∃ ct rest, cs = ct :: rest := by
      cases cs with
      | nil => simp at hlen
      | cons ct rest => exact ⟨ct, rest, rfl⟩
    obtain ⟨b0, hb0⟩ := hok 0 (by omega)
    rw [Nat.add_zero] at hb0
    have hok2 : ∀ k2, k2 < k → ∃ b, o.synth (i + 1 + k2) = .ok b := by
      intro k2 hk2
      obtain ⟨b, hb⟩ := hok (k2 + 1) (by omega)
      exact ⟨b, by rw [show i + 1 + k2 = i + (k2 + 1) by omega]; exact hb⟩
    have ha2 : o.synth (i + 1 + k) = .ok a := by
      rw [show i + 1 + k = i + (k + 1) by omega]
      exact ha
    obtain ⟨p, q, r1, r2, j2, heq, hcr2⟩ := ih rest (i + 1)
      (jAfterChunk jobId cc i j) (acc ++ [b0]) a (by simpa using hlen)
      (by simp only [jAfterChunk]
          rw [modifyChunkRequest_length]
          simp at hcr ⊢
          omega)
      hok2 ha2
    refine ⟨Ev.synthCall i (mkSynthRequest cfg ct) ::
      Ev.fileWrite (chunkAudioPath jobId i) b0 ::
      Ev.dbUpdate jobId (jAfterChunk jobId cc i j) :: p, q, r1, r2, j2,
      ?_, ?_⟩
    · simp only [ttsChunkLoop, hb0, List.cons_append]
      rw [heq, show i + 1 + k = i + (k + 1) by omega]
    · rw [show i + (k + 1) = i + 1 + k by omega]
      exact hcr2

/-- Updating one job leaves every other job untouched. -/
theorem find_setJob_ne :
    ∀ (l : List (Nat × JobDoc)) (id2 jobId : Nat) (j : JobDoc),
    id2 ≠ jobId →
    ((l.map (fun p => if p.1 = id2 then (id2, j) else p)).find?
      (fun p => decide (p.1 = jobId)))
      = l.find? (fun p => decide (p.1 = jobId)) := by
  intro l
  induction l with
  | nil =>
    intro id2 jobId j hne
    rfl
  | cons hd t ih =>
    intro id2 jobId j hne
    by_cases h2 : hd.1 = id2
    · simp only [List.map_cons, if_pos h2]
      rw [List.find?_cons_of_neg _ (by simpa using hne),
        List.find?_cons_of_neg _ (by simp only [h2]; simpa using hne)]
      exact ih id2 jobId j hne
    · simp only [List.map_cons, if_neg h2]
      by_cases h3 : hd.1 = jobId
      · rw [List.find?_cons_of_pos _ (by simp [h3]),
          List.find?_cons_of_pos _ (by simp [h3])]
      · rw [List.find?_cons_of_neg _ (by simp [h3]),
          List.find?_cons_of_neg _ (by simp [h3])]
        exact ih id2 jobId j hne

/-- Updating a present job stores the new record. -/
theorem lookupJob_setJob :
    ∀ (l : List (Nat × JobDoc)) (jobId : Nat) (j : JobDoc),
    ((l.find? (fun p => decide (p.1 = jobId))).isSome) →
    ((l.map (fun p => if p.1 = jobId then (jobId, j) else p)).find?
      (fun p => decide (p.1 = jobId))) = some (jobId, j) := by
  intro l
  induction l with
  | nil =>
    intro jobId j h
    simp [List.find?] at h
  | cons hd t ih =>
    intro jobId j h
    by_cases hhd : hd.1 = jobId
    · simp only [List.map_cons, if_pos hhd]
      rw [List.find?_cons_of_pos _ (by simp)]
    · simp only [List.map_cons, if_neg hhd]
      rw [List.find?_cons_of_neg _ (by simp [hhd])]
      refine ih jobId j ?_
      rw [List.find?_cons_of_neg _ (by simp [hhd])] at h
      exact h

/-- After replaying a trace, the stored record of a present job is the
record of its last `dbUpdate`, starting from the current record. -/
theorem lookupJob_runTrace (jobId : Nat) :
    ∀ (evs : List Ev) (w : World) (jcur : JobDoc),
    lookupJob w.db jobId = some jcur →
    lookupJob (runTrace w evs).db jobId
      = some (evs.foldl (fun acc ev => match ev with
          | Ev.dbUpdate id2 j2 => if id2 = jobId then j2 else acc
          | _ => acc) jcur) := by
  intro evs
  induction evs with
  | nil =>
    intro w jcur h
    simpa [runTrace] using h
  | cons ev rest ih =>
    intro w jcur h
    have hstep : runTrace w (ev :: rest) = runTrace (applyEv w ev) rest :=
      rfl
    rw [hstep, List.foldl_cons]
    cases ev with
    | dbUpdate id2 j2 =>
      by_cases hid : id2 = jobId
      · subst hid
        have hpre : lookupJob (applyEv w (Ev.dbUpdate id2 j2)).db id2
            = some j2 := by
          simp only [applyEv, setJob, lookupJob]
          rw [lookupJob_setJob _ id2 j2 ?_]
          · rfl
          · rw [lookupJob] at h
            cases hf : w.db.jobs.find? (fun p => decide (p.1 = id2)) with
            | none => rw [hf] at h; simp at h
            | some v => simp [hf]
        simpa using ih _ j2 hpre
      · have hpre : lookupJob (applyEv w (Ev.dbUpdate id2 j2)).db jobId
            = some jcur := by
          rw [← h]
          simp only [applyEv, lookupJob, setJob]
          rw [find_setJob_ne _ id2 jobId j2 hid]
        simpa [hid] using ih _ jcur hpre
    | fileWrite p b => exact ih _ jcur h
    | synthCall a b => exact ih _ jcur h
    | studioCreate a => exact ih _ jcur h
    | sleep a => exact ih _ jcur h
    | poll a => exact ih _ jcur h
    | webhook a => exact ih _ jcur h

/-- A removal never resurrects an absent file. -/
theorem fsLookup_removeFile_none (p q : ArtifactPath) (fs : FS)
    (h : fsLookup fs p = none) : fsLookup (removeFile fs q) p = none := by
  rw [fsLookup] at h ⊢
  cases hf : fs.find? (fun e => decide (e.1 = p)) with
  | some v =>
    rw [hf] at h
    simp at h
  | none =>
    rw [List.find?_eq_none] at hf
    rw [List.find?_eq_none.mpr ?_]
    · rfl
    · intro x hx
      exact hf x (List.mem_of_mem_filter hx)

/-- Removing a path removes every stored version of it. -/
theorem fsLookup_removeFile_self (p : ArtifactPath) (fs : FS) :
    fsLookup (removeFile fs p) p = none := by
  rw [fsLookup, removeFile]
  rw [List.find?_eq_none.mpr ?_]
  · rfl
  · intro x hx
    rw [List.mem_filter] at hx
    simpa using hx.2

/-- The chunk-artifact sweep of `delete_job` never resurrects a file. -/
theorem foldl_removeFile_mono (p : ArtifactPath) :
    ∀ (crs : List ChunkRequest) (fs : FS), fsLookup fs p = none →
    fsLookup (crs.foldl (fun fs cr => match cr.audio_path with
      | some q => removeFile fs q
      | none => fs) fs) p = none := by
  intro crs
  induction crs with
  | nil =>
    intro fs h
    exact h
  | cons cr t ih =>
    intro fs h
    rw [List.foldl_cons]
    cases hap : cr.audio_path with
    | none =>
      simp only [hap]
      exact ih fs h
    | some q =>
      simp only [hap]
      exact ih _ (fsLookup_removeFile_none p q fs h)

/-- The sweep removes every artifact recorded on some chunk request. -/
theorem foldl_removeFile_of_mem (p : ArtifactPath) :
    ∀ (crs : List ChunkRequest) (fs : FS),
    (∃ cr ∈ crs, cr.audio_path = some p) →
    fsLookup (crs.foldl (fun fs cr => match cr.audio_path with
      | some q => removeFile fs q
      | none => fs) fs) p = none := by
  intro crs
  induction crs with
  | nil =>
    intro fs h
    simp at h
  | cons cr t ih =>
    intro fs h
    rw [List.foldl_cons]
    obtain ⟨cr2, hmem, hap2⟩ := h
    rcases List.mem_cons.mp hmem with rfl | hmem2
    · simp only [hap2]
      exact foldl_removeFile_mono p t _ (fsLookup_removeFile_self p fs)
    · cases hap : cr.audio_path with
      | none =>
        simp only [hap]
        exact ih fs ⟨cr2, hmem2, hap2⟩
      | some q =>
        simp only [hap]
        exact ih _ ⟨cr2, hmem2, hap2⟩

/-- After deletion the document can no longer be found. -/
theorem lookupJob_filter_self (l : List (Nat × JobDoc)) (jobId : Nat) :
    (l.filter (fun p => !decide (p.1 = jobId))).find?
      (fun p => decide (p.1 = jobId)) = none := by
  rw [List.find?_eq_none]
  intro x hx
  rw [List.mem_filter] at hx
  simpa using hx.2

/-- C10: chunking-mode processing is incremental and cleanup is complete:
each successful chunk's artifact write and completed-status record update
land before the next chunk's synthesis call; after a later chunk fails,
every earlier chunk's audio is still served by the per-chunk audio endpoint
of the final world; deleting the job then removes the record and all chunk
artifacts. -/
theorem process_tts_job_incremental (w : World) (jobId : Nat)
    (o : TtsOracle) (j0 : JobDoc) (i : Nat) (e : String)
    (hlook : lookupJob w.db jobId = some j0)
    (hcrlen : j0.chunk_requests.length = j0.chunks.length)
    (hi : i < j0.chunks.length)
    (hok : ∀ k, k < i → ∃ a, o.synth k = .ok a)
    (hfail : o.synth i = .error e) :
    (∀ k a, k + 1 ≤ i → o.synth k = .ok a →
      ∃ p q r1 r2 j2, process_tts_job w jobId o
        = p ++ Ev.synthCall k r1 ::
            Ev.fileWrite (chunkAudioPath jobId k) a ::
            Ev.dbUpdate jobId j2 :: Ev.synthCall (k + 1) r2 :: q ∧
        (∃ cr, j2.chunk_requests.get? k = some cr ∧
          cr.status = .completed ∧
          cr.audio_path = some (chunkAudioPath jobId k))) ∧
    (∀ k a, k < i → o.synth k = .ok a →
      get_chunk_audio (runTrace w (process_tts_job w jobId o)) jobId
        (k : Int) = .ok a) ∧
    (∃ w2, delete_job (runTrace w (process_tts_job w jobId o)) jobId
        = .ok w2 ∧
      lookupJob w2.db jobId = none ∧
      (∀ k, k < i →
        fsLookup w2.fs (chunkAudioPath jobId k) = none)) := by
  have hok0 : ∀ k, k < i → ∃ a, o.synth (0 + k) = .ok a := by
    intro k hk
    simpa using hok k hk
  have hfail0 : o.synth (0 + i) = .error e := by simpa using hfail
  obtain ⟨s1, s2, s3, s4, s5, s6, s7, s8, s9, s10⟩ :=
    ttsChunkLoop_fail_record jobId j0.tts_config o j0.chunks.length e i
      j0.chunks 0 (jTranscribing j0.chunks.length (jChunking j0)) []
      hi hok0 hfail0
  have hcrTr : (jTranscribing j0.chunks.length
      (jChunking j0)).chunk_requests = j0.chunk_requests := by
    simp [jTranscribing, jChunking]
  have htrace : process_tts_job w jobId o =
      Ev.dbUpdate jobId (jChunking j0) ::
      Ev.dbUpdate jobId (jTranscribing j0.chunks.length (jChunking j0)) ::
      (ttsChunkLoop jobId j0.tts_config o j0.chunks.length 0 j0.chunks
        (jTranscribing j0.chunks.length (jChunking j0)) []).1 ++
      [Ev.dbUpdate jobId (jFailed e
        (ttsChunkLoop jobId j0.tts_config o j0.chunks.length 0 j0.chunks
          (jTranscribing j0.chunks.length (jChunking j0)) []).2.1)] := by
    simp only [process_tts_job, hlook]
    rw [show ttsTail jobId o
        (ttsChunkLoop jobId j0.tts_config o j0.chunks.length 0 j0.chunks
          (jTranscribing j0.chunks.length (jChunking j0)) []).2
      = [Ev.dbUpdate jobId (jFailed e
          (ttsChunkLoop jobId j0.tts_config o j0.chunks.length 0 j0.chunks
            (jTranscribing j0.chunks.length (jChunking j0)) []).2.1)] from by
      simp only [ttsTail, s1]]
  have hW : lookupJob (runTrace w (process_tts_job w jobId o)).db jobId
      = some (jFailed e
        (ttsChunkLoop jobId j0.tts_config o j0.chunks.length 0 j0.chunks
          (jTranscribing j0.chunks.length (jChunking j0)) []).2.1) := by
    rw [lookupJob_runTrace jobId _ w j0 hlook, htrace]
    simp only [List.foldl_cons, List.foldl_append, List.foldl_nil]
    simp
  have hlenf : (jFailed e
      (ttsChunkLoop jobId j0.tts_config o j0.chunks.length 0 j0.chunks
        (jTranscribing j0.chunks.length (jChunking j0))
        []).2.1).chunk_requests.length = j0.chunks.length := by
    show (ttsChunkLoop jobId j0.tts_config o j0.chunks.length 0 j0.chunks
      (jTranscribing j0.chunks.length (jChunking j0))
      []).2.1.chunk_requests.length = j0.chunks.length
    rw [s6, hcrTr, hcrlen]
  have hgetf : ∀ k, k < i → ∀ cr0, j0.chunk_requests.get? k = some cr0 →
      (jFailed e
        (ttsChunkLoop jobId j0.tts_config o j0.chunks.length 0 j0.chunks
          (jTranscribing j0.chunks.length (jChunking j0))
          []).2.1).chunk_requests.get? k
        = some (crCompleted jobId k cr0) := by
    intro k hk cr0 hcr0
    show (ttsChunkLoop jobId j0.tts_config o j0.chunks.length 0 j0.chunks
      (jTranscribing j0.chunks.length (jChunking j0))
      []).2.1.chunk_requests.get? k = some (crCompleted jobId k cr0)
    have h10 := s10 k hk
    rw [Nat.zero_add, hcrTr, hcr0] at h10
    exact h10
  refine ⟨?_, ?_, ?_⟩
  · intro k a hk hka
    obtain ⟨p, q, r1, r2, j2, heq, hcr2⟩ :=
      ttsChunkLoop_order jobId j0.tts_config o j0.chunks.length k
        j0.chunks 0 (jTranscribing j0.chunks.length (jChunking j0)) [] a
        (by omega)
        (by rw [hcrTr]; omega)
        (by intro k2 hk2; simpa using hok k2 (by omega))
        (by simpa using hka)
    rw [Nat.zero_add] at heq hcr2
    refine ⟨Ev.dbUpdate jobId (jChunking j0) ::
      Ev.dbUpdate jobId (jTranscribing j0.chunks.length (jChunking j0)) ::
      p,
      q ++ [Ev.dbUpdate jobId (jFailed e
        (ttsChunkLoop jobId j0.tts_config o j0.chunks.length 0 j0.chunks
          (jTranscribing j0.chunks.length (jChunking j0)) []).2.1)],
      r1, r2, j2, ?_, hcr2⟩
    rw [htrace, heq]
    simp [List.append_assoc]
  · intro k a hk hka
    obtain ⟨cr0, hcr0⟩ : ∃ cr0, j0.chunk_requests.get? k = some cr0 := by
      rw [List.get?_eq_get (by omega)]
      exact ⟨_, rfl⟩
    have hfs : fsLookup
        (runTrace w (process_tts_job w jobId o)).fs
        (chunkAudioPath jobId k) = some a := by
      have hWeq : runTrace w (process_tts_job w jobId o)
          = applyEv (runTrace (applyEv (applyEv w
              (Ev.dbUpdate jobId (jChunking j0)))
              (Ev.dbUpdate jobId
                (jTranscribing j0.chunks.length (jChunking j0))))
              (ttsChunkLoop jobId j0.tts_config o j0.chunks.length 0
                j0.chunks (jTranscribing j0.chunks.length (jChunking j0))
                []).1)
            (Ev.dbUpdate jobId (jFailed e
              (ttsChunkLoop jobId j0.tts_config o j0.chunks.length 0
                j0.chunks (jTranscribing j0.chunks.length (jChunking j0))
                []).2.1)) := by
        rw [htrace, runTrace]
        simp only [List.foldl_cons, List.foldl_append, List.foldl_nil]
        rfl
      rw [hWeq]
      have hfs0 := ttsChunkLoop_fail_fs jobId j0.tts_config o
        j0.chunks.length e i j0.chunks 0
        (jTranscribing j0.chunks.length (jChunking j0)) []
        (applyEv (applyEv w (Ev.dbUpdate jobId (jChunking j0)))
          (Ev.dbUpdate jobId
            (jTranscribing j0.chunks.length (jChunking j0))))
        hi hok0 hfail0 k a hk (by simpa using hka)
      rw [Nat.zero_add] at hfs0
      exact hfs0
    rw [show get_chunk_audio (runTrace w (process_tts_job w jobId o))
        jobId (k : Int)
      = (if (k : Int) < 0 ∨
            ((jFailed e (ttsChunkLoop jobId j0.tts_config o
              j0.chunks.length 0 j0.chunks
              (jTranscribing j0.chunks.length (jChunking j0))
              []).2.1).chunk_requests.length : Int) ≤ (k : Int) then
          Except.error (HTTPError.notFound "Chunk not found")
        else
          match (jFailed e (ttsChunkLoop jobId j0.tts_config o
              j0.chunks.length 0 j0.chunks
              (jTranscribing j0.chunks.length (jChunking j0))
              []).2.1).chunk_requests.get? (Int.toNat (k : Int)) with
          | none => Except.error (HTTPError.notFound "Chunk not found")
          | some cr =>
            match cr.audio_path with
            | none =>
              Except.error (HTTPError.notFound "Chunk audio file not found")
            | some p =>
              match fsLookup
                  (runTrace w (process_tts_job w jobId o)).fs p with
              | none =>
                Except.error
                  (HTTPError.notFound "Chunk audio file not found")
              | some data => Except.ok data) from by
      simp only [get_chunk_audio, hW]]
    rw [if_neg (by
      rw [hlenf]
      omega)]
    rw [show Int.toNat (k : Int) = k by simp]
    rw [hgetf k hk cr0 hcr0]
    show (match fsLookup (runTrace w (process_tts_job w jobId o)).fs
        (chunkAudioPath jobId k) with
      | none => Except.error (HTTPError.notFound "Chunk audio file not found")
      | some data => Except.ok data) = Except.ok a
    rw [hfs]
  · refine ⟨⟨⟨(runTrace w (process_tts_job w jobId o)).db.settings,
      (runTrace w (process_tts_job w jobId o)).db.jobs.filter
        (fun p => !decide (p.1 = jobId))⟩,
      (jFailed e (ttsChunkLoop jobId j0.tts_config o j0.chunks.length 0
          j0.chunks (jTranscribing j0.chunks.length (jChunking j0))
          []).2.1).chunk_requests.foldl
        (fun fs cr => match cr.audio_path with
          | some p => removeFile fs p
          | none => fs)
        (match (jFailed e (ttsChunkLoop jobId j0.tts_config o
            j0.chunks.length 0 j0.chunks
            (jTranscribing j0.chunks.length (jChunking j0))
            []).2.1).audio_path with
          | some p => removeFile (runTrace w (process_tts_job w jobId o)).fs p
          | none => (runTrace w (process_tts_job w jobId o)).fs)⟩,
      ?_, ?_, ?_⟩
    · simp only [delete_job, hW]
    · simp [lookupJob, lookupJob_filter_self]
    · intro k hk
      obtain ⟨cr0, hcr0⟩ : ∃ cr0, j0.chunk_requests.get? k = some cr0 := by
        rw [List.get?_eq_get (by omega)]
        exact ⟨_, rfl⟩
      refine foldl_removeFile_of_mem (chunkAudioPath jobId k) _ _
        ⟨crCompleted jobId k cr0, ?_, rfl⟩
      exact List.get?_mem (hgetf k hk cr0 hcr0)

/-- Witness for the fail-fast property: the sample world, oracle and job at
failing chunk 1. -/
theorem process_tts_job_fail_fast_witness :
    ∃ jf, (jobStates sampleJob
        (process_tts_job sampleWorld 1 sampleOracle)).getLast? = some jf ∧
      jf.status = .failed ∧ jf.error = some "boom" ∧
      (∃ cr, jf.chunk_requests.get? 1 = some cr ∧ cr.status = .failed ∧
        cr.error = some "boom") ∧
      (∀ k, 1 < k → k < sampleJob.chunk_requests.length →
        ∃ cr, jf.chunk_requests.get? k = some cr ∧ cr.status = .pending) ∧
      (∀ st ∈ jobStates sampleJob
          (process_tts_job sampleWorld 1 sampleOracle),
        st.audio_path = none ∧ st.audio_url = none) :=
  process_tts_job_fail_fast sampleWorld 1 sampleOracle sampleJob 1 "boom"
    rfl rfl (by decide) rfl rfl (by decide)
    (fun k hk => ⟨[7], by
      have hk0 : k = 0 := by omega
      subst hk0
      rfl⟩)
    rfl

/-- Witness for incremental processing and cleanup: the sample world,
oracle and job at failing chunk 1. -/
theorem process_tts_job_incremental_witness :
    (∀ k a, k + 1 ≤ 1 → sampleOracle.synth k = .ok a →
      ∃ p q r1 r2 j2, process_tts_job sampleWorld 1 sampleOracle
        = p ++ Ev.synthCall k r1 ::
            Ev.fileWrite (chunkAudioPath 1 k) a ::
            Ev.dbUpdate 1 j2 :: Ev.synthCall (k + 1) r2 :: q ∧
        (∃ cr, j2.chunk_requests.get? k = some cr ∧
          cr.status = .completed ∧
          cr.audio_path = some (chunkAudioPath 1 k))) ∧
    (∀ k a, k < 1 → sampleOracle.synth k = .ok a →
      get_chunk_audio
        (runTrace sampleWorld (process_tts_job sampleWorld 1 sampleOracle))
        1 (k : Int) = .ok a) ∧
    (∃ w2, delete_job
        (runTrace sampleWorld (process_tts_job sampleWorld 1 sampleOracle))
        1 = .ok w2 ∧
      lookupJob w2.db 1 = none ∧
      (∀ k, k < 1 → fsLookup w2.fs (chunkAudioPath 1 k) = none)) :=
  process_tts_job_incremental sampleWorld 1 sampleOracle sampleJob 1 "boom"
    rfl rfl (by decide)
    (fun k hk => ⟨[7], by
      have hk0 : k = 0 := by omega
      subst hk0
      rfl⟩)
    rfl

/-! ## Progress monotonicity (C4): record sequences -/

theorem jobStates_eq (init : JobDoc) (evs : List Ev) :
    jobStates init evs = init :: dbRecs evs := rfl

theorem dbRecs_append (l1 l2 : List Ev) :
    dbRecs (l1 ++ l2) = dbRecs l1 ++ dbRecs l2 :=
  List.filterMap_append l1 l2 _

/-- Bound of the per-chunk progress formula. -/
theorem prog_le_85 (a cc : Nat) (h : a ≤ cc) : a * 85 / cc ≤ 85 := by
  cases cc with
  | zero =>
    have ha : a = 0 := Nat.le_zero.mp h
    subst ha
    simp
  | succ c =>
    have h1 : a * 85 ≤ (c + 1) * 85 := Nat.mul_le_mul_right 85 h
    have h2 : a * 85 / (c + 1) ≤ (c + 1) * 85 / (c + 1) :=
      Nat.div_le_div_right h1
    have h3 : (c + 1) * 85 / (c + 1) = 85 :=
      Nat.mul_div_cancel_left 85 (Nat.succ_pos c)
    omega

/-- The per-chunk progress formula is monotone in the chunk index. -/
theorem prog_mono (i cc : Nat) : i * 85 / cc ≤ (i + 1) * 85 / cc :=
  Nat.div_le_div_right (Nat.mul_le_mul_right 85 (Nat.le_succ i))

/-- Chain and bound facts about an arbitrary run of the chunk loop: the
record sequence is progress-monotone, all its records stay `transcribing`
with progress at most 85, and the last observable record is the returned
one. -/
theorem ttsChunkLoop_chain (jobId : Nat) (cfg : TTSConfig) (o : TtsOracle)
    (cc : Nat) :
    ∀ (cs : List (List Char)) (i : Nat) (j : JobDoc) (acc : List Audio),
    i + cs.length ≤ cc →
    j.progress = i * 85 / cc →
    j.status = JStatus.transcribing →
    List.Chain' (fun a b => a.progress ≤ b.progress)
      (j :: dbRecs (ttsChunkLoop jobId cfg o cc i cs j acc).1) ∧
    (∀ r ∈ dbRecs (ttsChunkLoop jobId cfg o cc i cs j acc).1,
      r.status = JStatus.transcribing ∧ r.progress ≤ 85) ∧
    (j :: dbRecs (ttsChunkLoop jobId cfg o cc i cs j acc).1).getLast?
      = some (ttsChunkLoop jobId cfg o cc i cs j acc).2.1 ∧
    (ttsChunkLoop jobId cfg o cc i cs j acc).2.1.progress ≤ 85 ∧
    (ttsChunkLoop jobId cfg o cc i cs j acc).2.1.status
      = JStatus.transcribing := by
  intro cs
  induction cs with
  | nil =>
    intro i j acc hb hp hs
    refine ⟨List.chain'_singleton j, ?_, rfl, ?_, hs⟩
    · intro r hr
      simp [ttsChunkLoop, dbRecs] at hr
    · rw [show (ttsChunkLoop jobId cfg o cc i [] j acc).2.1 = j from rfl,
        hp]
      exact prog_le_85 i cc (by omega)
  | cons ct rest ih =>
    intro i j acc hb hp hs
    cases hsy : o.synth i with
    | ok a =>
      have hstep : (ttsChunkLoop jobId cfg o cc i (ct :: rest) j acc)
          = (Ev.synthCall i (mkSynthRequest cfg ct) ::
              Ev.fileWrite (chunkAudioPath jobId i) a ::
              Ev.dbUpdate jobId (jAfterChunk jobId cc i j) ::
              (ttsChunkLoop jobId cfg o cc (i + 1) rest
                (jAfterChunk jobId cc i j) (acc ++ [a])).1,
            (ttsChunkLoop jobId cfg o cc (i + 1) rest
              (jAfterChunk jobId cc i j) (acc ++ [a])).2) := by
        simp only [ttsChunkLoop, hsy]
      obtain ⟨ch, hmem, hlast, hple, hst⟩ := ih (i + 1)
        (jAfterChunk jobId cc i j) (acc ++ [a])
        (by simp at hb ⊢; omega) rfl hs
      rw [hstep]
      have hrecs : dbRecs (Ev.synthCall i (mkSynthRequest cfg ct) ::
          Ev.fileWrite (chunkAudioPath jobId i) a ::
          Ev.dbUpdate jobId (jAfterChunk jobId cc i j) ::
          (ttsChunkLoop jobId cfg o cc (i + 1) rest
            (jAfterChunk jobId cc i j) (acc ++ [a])).1)
          = jAfterChunk jobId cc i j ::
            dbRecs (ttsChunkLoop jobId cfg o cc (i + 1) rest
              (jAfterChunk jobId cc i j) (acc ++ [a])).1 := rfl
      rw [hrecs]
      refine ⟨?_, ?_, ?_, hple, hst⟩
      · rw [List.chain'_cons]
        refine ⟨?_, ch⟩
        rw [hp]
        exact prog_mono i cc
      · intro r hr
        rcases List.mem_cons.mp hr with rfl | hr2
        · exact ⟨hs, prog_le_85 (i + 1) cc (by simp at hb; omega)⟩
        · exact hmem r hr2
      · rw [List.getLast?_cons_cons]
        exact hlast
    | error e =>
      have hstep : (ttsChunkLoop jobId cfg o cc i (ct :: rest) j acc)
          = ([Ev.synthCall i (mkSynthRequest cfg ct),
              Ev.dbUpdate jobId (jChunkFailed e i j)], jChunkFailed e i j,
              .error e) := by
        simp only [ttsChunkLoop, hsy]
      rw [hstep]
      have hj : j.progress ≤ 85 := by
        rw [hp]
        exact prog_le_85 i cc (by simp at hb; omega)
      refine ⟨?_, ?_, rfl, hj, hs⟩
      · simp [dbRecs, List.chain'_cons, jChunkFailed]
      · intro r hr
        have hr2 : r = jChunkFailed e i j := by
          simpa [dbRecs] using hr
        subst hr2
        exact ⟨hs, hj⟩

/-- The poll-step progress value never exceeds 80. -/
theorem pollProg_le_80 (a : Nat) : min (30 + a * 50 / 120) 80 ≤ 80 :=
  Nat.min_le_right _ _

/-- The poll progress formula is monotone in the attempt counter. -/
theorem pollProg_mono (a : Nat) :
    min (30 + a * 50 / 120) 80 ≤ min (30 + (a + 1) * 50 / 120) 80 :=
  min_le_min (Nat.add_le_add_left
    (Nat.div_le_div_right (Nat.mul_le_mul_right 50 (Nat.le_succ a))) 30)
    (Nat.le_refl 80)

/-- Chain and bound facts about an arbitrary run of the studio poll loop:
the record sequence is progress-monotone with progress at most 80, the last
observable record is the returned one, and a `failed` status appears only
as the final record of a remote-failure resolution. -/
theorem studioPollLoop_chain (jobId : Nat) (o : StudioOracle) :
    ∀ (fuel attempt : Nat) (j : JobDoc),
    j.progress ≤ min (30 + attempt * 50 / 120) 80 →
    List.Chain' (fun a b => a.progress ≤ b.progress)
      (j :: dbRecs (studioPollLoop jobId o attempt fuel j).1) ∧
    (∀ r ∈ dbRecs (studioPollLoop jobId o attempt fuel j).1,
      r.progress ≤ 80) ∧
    (j :: dbRecs (studioPollLoop jobId o attempt fuel j).1).getLast?
      = some (studioPollLoop jobId o attempt fuel j).2.1 ∧
    (studioPollLoop jobId o attempt fuel j).2.1.progress ≤ 80 ∧
    ((studioPollLoop jobId o attempt fuel j).2.2
        = PollOutcome.remoteFailed →
      ∃ L0, dbRecs (studioPollLoop jobId o attempt fuel j).1
          = L0 ++ [(studioPollLoop jobId o attempt fuel j).2.1] ∧
        (∀ r ∈ L0, r.status = j.status) ∧
        (studioPollLoop jobId o attempt fuel j).2.1.status
          = JStatus.failed) ∧
    ((studioPollLoop jobId o attempt fuel j).2.2
        ≠ PollOutcome.remoteFailed →
      (∀ r ∈ dbRecs (studioPollLoop jobId o attempt fuel j).1,
        r.status = j.status) ∧
      (studioPollLoop jobId o attempt fuel j).2.1.status = j.status) := by
  intro fuel
  induction fuel with
  | zero =>
    intro attempt j hj
    refine ⟨List.chain'_singleton j, ?_, rfl,
      Nat.le_trans hj (pollProg_le_80 attempt), ?_, ?_⟩
    · intro r hr
      simp [studioPollLoop, dbRecs] at hr
    · intro h
      simp [studioPollLoop] at h
    · intro h
      exact ⟨by intro r hr; simp [studioPollLoop, dbRecs] at hr, rfl⟩
  | succ fuel ih =>
    intro attempt j hj
    cases hpr : o.pollResult attempt with
    | non200 =>
      have hstep : studioPollLoop jobId o attempt (fuel + 1) j
          = (Ev.sleep 5 :: Ev.poll attempt ::
              (studioPollLoop jobId o (attempt + 1) fuel j).1,
            (studioPollLoop jobId o (attempt + 1) fuel j).2) := by
        simp only [studioPollLoop, hpr]
      obtain ⟨c1, c2, c3, c4, c5, c6⟩ := ih (attempt + 1) j
        (Nat.le_trans hj (pollProg_mono attempt))
      rw [hstep]
      exact ⟨c1, c2, c3, c4, c5, c6⟩
    | state st err snaps =>
      by_cases hready : st = "ready"
      · subst hready
        cases snaps with
        | non200 =>
          have hstep : studioPollLoop jobId o attempt (fuel + 1) j
              = (Ev.sleep 5 :: Ev.poll attempt ::
                  Ev.dbUpdate jobId (jPollProg "ready" attempt j) ::
                  (studioPollLoop jobId o (attempt + 1) fuel
                    (jPollProg "ready" attempt j)).1,
                (studioPollLoop jobId o (attempt + 1) fuel
                  (jPollProg "ready" attempt j)).2) := by
            simp only [studioPollLoop, hpr, if_true]
          obtain ⟨c1, c2, c3, c4, c5, c6⟩ := ih (attempt + 1)
            (jPollProg "ready" attempt j) (pollProg_mono attempt)
          rw [hstep,
            show dbRecs (Ev.sleep 5 :: Ev.poll attempt ::
                Ev.dbUpdate jobId (jPollProg "ready" attempt j) ::
                (studioPollLoop jobId o (attempt + 1) fuel
                  (jPollProg "ready" attempt j)).1)
              = jPollProg "ready" attempt j ::
                dbRecs (studioPollLoop jobId o (attempt + 1) fuel
                  (jPollProg "ready" attempt j)).1 from rfl]
          refine ⟨?_, ?_, ?_, c4, ?_, ?_⟩
          · rw [List.chain'_cons]
            exact ⟨hj, c1⟩
          · intro r hr
            rcases List.mem_cons.mp hr with rfl | hr2
            · exact pollProg_le_80 attempt
            · exact c2 r hr2
          · rw [List.getLast?_cons_cons]
            exact c3
          · intro h
            obtain ⟨L0, hL0, hst0, hstf⟩ := c5 h
            refine ⟨jPollProg "ready" attempt j :: L0, ?_, ?_, hstf⟩
            · show jPollProg "ready" attempt j ::
                dbRecs (studioPollLoop jobId o (attempt + 1) fuel
                  (jPollProg "ready" attempt j)).1 = _
              rw [hL0]
              rfl
            · intro r hr
              rcases List.mem_cons.mp hr with rfl | hr2
              · rfl
              · exact hst0 r hr2
          · intro h
            obtain ⟨hall, hres⟩ := c6 h
            refine ⟨?_, hres⟩
            intro r hr
            rcases List.mem_cons.mp hr with rfl | hr2
            · rfl
            · exact hall r hr2
        | snaps l =>
          cases l with
          | nil =>
            have hstep : studioPollLoop jobId o attempt (fuel + 1) j
                = (Ev.sleep 5 :: Ev.poll attempt ::
                    Ev.dbUpdate jobId (jPollProg "ready" attempt j) ::
                    (studioPollLoop jobId o (attempt + 1) fuel
                      (jPollProg "ready" attempt j)).1,
                  (studioPollLoop jobId o (attempt + 1) fuel
                    (jPollProg "ready" attempt j)).2) := by
              simp only [studioPollLoop, hpr, if_true]
            obtain ⟨c1, c2, c3, c4, c5, c6⟩ := ih (attempt + 1)
              (jPollProg "ready" attempt j) (pollProg_mono attempt)
            rw [hstep,
              show dbRecs (Ev.sleep 5 :: Ev.poll attempt ::
                  Ev.dbUpdate jobId (jPollProg "ready" attempt j) ::
                  (studioPollLoop jobId o (attempt + 1) fuel
                    (jPollProg "ready" attempt j)).1)
                = jPollProg "ready" attempt j ::
                  dbRecs (studioPollLoop jobId o (attempt + 1) fuel
                    (jPollProg "ready" attempt j)).1 from rfl]
            refine ⟨?_, ?_, ?_, c4, ?_, ?_⟩
            · rw [List.chain'_cons]
              exact ⟨hj, c1⟩
            · intro r hr
              rcases List.mem_cons.mp hr with rfl | hr2
              · exact pollProg_le_80 attempt
              · exact c2 r hr2
            · rw [List.getLast?_cons_cons]
              exact c3
            · intro h
              obtain ⟨L0, hL0, hst0, hstf⟩ := c5 h
              refine ⟨jPollProg "ready" attempt j :: L0, ?_, ?_, hstf⟩
              · show jPollProg "ready" attempt j ::
                  dbRecs (studioPollLoop jobId o (attempt + 1) fuel
                    (jPollProg "ready" attempt j)).1 = _
                rw [hL0]
                rfl
              · intro r hr
                rcases List.mem_cons.mp hr with rfl | hr2
                · rfl
                · exact hst0 r hr2
            · intro h
              obtain ⟨hall, hres⟩ := c6 h
              refine ⟨?_, hres⟩
              intro r hr
              rcases List.mem_cons.mp hr with rfl | hr2
              · rfl
              · exact hall r hr2
          | cons sid rest2 =>
            have hstep : studioPollLoop jobId o attempt (fuel + 1) j
                = ([Ev.sleep 5, Ev.poll attempt,
                    Ev.dbUpdate jobId (jPollProg "ready" attempt j)],
                  jPollProg "ready" attempt j, .snapshot sid) := by
              simp only [studioPollLoop, hpr, if_true]
            rw [hstep]
            refine ⟨?_, ?_, rfl, pollProg_le_80 attempt, ?_, ?_⟩
            · show List.Chain' _ [j, jPollProg "ready" attempt j]
              simp only [List.chain'_cons]
              exact ⟨hj, List.chain'_singleton _⟩
            · intro r hr
              have hr2 : r = jPollProg "ready" attempt j := by
                simpa [dbRecs] using hr
              subst hr2
              exact pollProg_le_80 attempt
            · intro h
              simp at h
            · intro h
              refine ⟨?_, rfl⟩
              intro r hr
              have hr2 : r = jPollProg "ready" attempt j := by
                simpa [dbRecs] using hr
              subst hr2
              rfl
      · by_cases hfailed : st = "failed"
        · subst hfailed
          have hstep : studioPollLoop jobId o attempt (fuel + 1) j
              = ([Ev.sleep 5, Ev.poll attempt,
                  Ev.dbUpdate jobId (jPollProg "failed" attempt j),
                  Ev.dbUpdate jobId
                    (jFailed ("Studio conversion failed: " ++
                      err.getD "Unknown error")
                      (jPollProg "failed" attempt j))],
                jFailed ("Studio conversion failed: " ++
                  err.getD "Unknown error")
                  (jPollProg "failed" attempt j), .remoteFailed) := by
            simp only [studioPollLoop, hpr, if_true]
            rw [if_neg hready]
          rw [hstep]
          refine ⟨?_, ?_, rfl, pollProg_le_80 attempt, ?_, ?_⟩
          · show List.Chain' _ [j, jPollProg "failed" attempt j,
              jFailed ("Studio conversion failed: " ++
                err.getD "Unknown error") (jPollProg "failed" attempt j)]
            simp only [List.chain'_cons]
            exact ⟨hj, Nat.le_refl _, List.chain'_singleton _⟩
          · intro r hr
            rcases hr2 : List.mem_cons.mp hr with rfl | hr3
            · exact pollProg_le_80 attempt
            · have hr4 : r = jFailed ("Studio conversion failed: " ++
                  err.getD "Unknown error")
                  (jPollProg "failed" attempt j) := by
                simpa [dbRecs] using hr3
              subst hr4
              exact pollProg_le_80 attempt
          · intro h
            refine ⟨[jPollProg "failed" attempt j], rfl, ?_, rfl⟩
            intro r hr
            have hr2 : r = jPollProg "failed" attempt j := by
              simpa using hr
            subst hr2
            rfl
          · intro h
            exact absurd rfl h
        · have hstep : studioPollLoop jobId o attempt (fuel + 1) j
              = (Ev.sleep 5 :: Ev.poll attempt ::
                  Ev.dbUpdate jobId (jPollProg st attempt j) ::
                  (studioPollLoop jobId o (attempt + 1) fuel
                    (jPollProg st attempt j)).1,
                (studioPollLoop jobId o (attempt + 1) fuel
                  (jPollProg st attempt j)).2) := by
            simp only [studioPollLoop, hpr]
            rw [if_neg hready, if_neg hfailed]
          obtain ⟨c1, c2, c3, c4, c5, c6⟩ := ih (attempt + 1)
            (jPollProg st attempt j) (pollProg_mono attempt)
          rw [hstep,
            show dbRecs (Ev.sleep 5 :: Ev.poll attempt ::
                Ev.dbUpdate jobId (jPollProg st attempt j) ::
                (studioPollLoop jobId o (attempt + 1) fuel
                  (jPollProg st attempt j)).1)
              = jPollProg st attempt j ::
                dbRecs (studioPollLoop jobId o (attempt + 1) fuel
                  (jPollProg st attempt j)).1 from rfl]
          refine ⟨?_, ?_, ?_, c4, ?_, ?_⟩
          · rw [List.chain'_cons]
            exact ⟨hj, c1⟩
          · intro r hr
            rcases List.mem_cons.mp hr with rfl | hr2
            · exact pollProg_le_80 attempt
            · exact c2 r hr2
          · rw [List.getLast?_cons_cons]
            exact c3
          · intro h
            obtain ⟨L0, hL0, hst0, hstf⟩ := c5 h
            refine ⟨jPollProg st attempt j :: L0, ?_, ?_, hstf⟩
            · show jPollProg st attempt j ::
                dbRecs (studioPollLoop jobId o (attempt + 1) fuel
                  (jPollProg st attempt j)).1 = _
              rw [hL0]
              rfl
            · intro r hr
              rcases List.mem_cons.mp hr with rfl | hr2
              · rfl
              · exact hst0 r hr2
          · intro h
            obtain ⟨hall, hres⟩ := c6 h
            refine ⟨?_, hres⟩
            intro r hr
            rcases List.mem_cons.mp hr with rfl | hr2
            · rfl
            · exact hall r hr2

/-- Progress/status invariants of every chunking-mode run: the observable
record sequence is progress-monotone, terminal statuses appear only as the
final record, and progress is 100 exactly on `completed` records. -/
theorem tts_progress_invariants (w : World) (jobId : Nat) (o : TtsOracle)
    (j0 : JobDoc) (hlook : lookupJob w.db jobId = some j0)
    (hst : j0.status = JStatus.queued) (hp0 : j0.progress = 0) :
    List.Chain' (fun a b => a.progress ≤ b.progress)
      (jobStates j0 (process_tts_job w jobId o)) ∧
    (∀ st ∈ (jobStates j0 (process_tts_job w jobId o)).dropLast,
      st.status ≠ JStatus.completed ∧ st.status ≠ JStatus.failed) ∧
    (∀ st ∈ jobStates j0 (process_tts_job w jobId o),
      st.progress = 100 ↔ st.status = JStatus.completed) := by
  have htr : process_tts_job w jobId o
      = (Ev.dbUpdate jobId (jChunking j0) ::
        Ev.dbUpdate jobId (jTranscribing j0.chunks.length (jChunking j0)) :: (ttsChunkLoop jobId j0.tts_config o j0.chunks.length 0 j0.chunks
      (jTranscribing j0.chunks.length (jChunking j0)) []).1) ++
        ttsTail jobId o (ttsChunkLoop jobId j0.tts_config o j0.chunks.length 0 j0.chunks
      (jTranscribing j0.chunks.length (jChunking j0)) []).2 := by
    simp only [process_tts_job, hlook]
  obtain ⟨c1, c2, c3, c4, c5⟩ := ttsChunkLoop_chain jobId j0.tts_config o
    j0.chunks.length j0.chunks 0 (jTranscribing j0.chunks.length (jChunking j0)) []
    (by omega)
    (by rw [show (jTranscribing j0.chunks.length (jChunking j0)).progress = j0.progress from rfl, hp0]; simp)
    rfl
  have hstates : jobStates j0 (process_tts_job w jobId o)
      = j0 :: jChunking j0 :: (jTranscribing j0.chunks.length (jChunking j0)) ::
        (dbRecs (ttsChunkLoop jobId j0.tts_config o j0.chunks.length 0 j0.chunks
      (jTranscribing j0.chunks.length (jChunking j0)) []).1 ++ dbRecs (ttsTail jobId o (ttsChunkLoop jobId j0.tts_config o j0.chunks.length 0 j0.chunks
      (jTranscribing j0.chunks.length (jChunking j0)) []).2)) := by
    rw [jobStates_eq, htr, dbRecs_append]
    rfl
  have hpre : List.Chain' (fun a b : JobDoc => a.progress ≤ b.progress)
      (j0 :: jChunking j0 :: (jTranscribing j0.chunks.length (jChunking j0)) :: dbRecs (ttsChunkLoop jobId j0.tts_config o j0.chunks.length 0 j0.chunks
      (jTranscribing j0.chunks.length (jChunking j0)) []).1) := by
    rw [List.chain'_cons]
    refine ⟨Nat.le_refl _, ?_⟩
    rw [List.chain'_cons]
    exact ⟨Nat.le_refl _, c1⟩
  have hprelast : (j0 :: jChunking j0 :: (jTranscribing j0.chunks.length (jChunking j0)) ::
      dbRecs (ttsChunkLoop jobId j0.tts_config o j0.chunks.length 0 j0.chunks
      (jTranscribing j0.chunks.length (jChunking j0)) []).1).getLast? = some (ttsChunkLoop jobId j0.tts_config o j0.chunks.length 0 j0.chunks
      (jTranscribing j0.chunks.length (jChunking j0)) []).2.1 := by
    rw [List.getLast?_cons_cons, List.getLast?_cons_cons]
    exact c3
  cases hE : (ttsChunkLoop jobId j0.tts_config o j0.chunks.length 0 j0.chunks
      (jTranscribing j0.chunks.length (jChunking j0)) []).2.2 with
  | error e =>
    have htail : ttsTail jobId o (ttsChunkLoop jobId j0.tts_config o j0.chunks.length 0 j0.chunks
      (jTranscribing j0.chunks.length (jChunking j0)) []).2
        = [Ev.dbUpdate jobId (jFailed e (ttsChunkLoop jobId j0.tts_config o j0.chunks.length 0 j0.chunks
      (jTranscribing j0.chunks.length (jChunking j0)) []).2.1)] := by
      simp only [ttsTail, hE]
    rw [hstates, htail]
    refine ⟨?_, ?_, ?_⟩
    · rw [show (j0 :: jChunking j0 :: (jTranscribing j0.chunks.length (jChunking j0)) ::
          (dbRecs (ttsChunkLoop jobId j0.tts_config o j0.chunks.length 0 j0.chunks
      (jTranscribing j0.chunks.length (jChunking j0)) []).1 ++
            dbRecs [Ev.dbUpdate jobId (jFailed e (ttsChunkLoop jobId j0.tts_config o j0.chunks.length 0 j0.chunks
      (jTranscribing j0.chunks.length (jChunking j0)) []).2.1)]))
        = (j0 :: jChunking j0 :: (jTranscribing j0.chunks.length (jChunking j0)) :: dbRecs (ttsChunkLoop jobId j0.tts_config o j0.chunks.length 0 j0.chunks
      (jTranscribing j0.chunks.length (jChunking j0)) []).1)
          ++ [jFailed e (ttsChunkLoop jobId j0.tts_config o j0.chunks.length 0 j0.chunks
      (jTranscribing j0.chunks.length (jChunking j0)) []).2.1] from by simp [dbRecs]]
      refine List.Chain'.append hpre (List.chain'_singleton _) ?_
      intro x hx y hy
      rw [hprelast] at hx
      have hx2 : (ttsChunkLoop jobId j0.tts_config o j0.chunks.length 0 j0.chunks
      (jTranscribing j0.chunks.length (jChunking j0)) []).2.1 = x := by simpa using hx
      have hy2 : jFailed e (ttsChunkLoop jobId j0.tts_config o j0.chunks.length 0 j0.chunks
      (jTranscribing j0.chunks.length (jChunking j0)) []).2.1 = y := by simpa using hy
      rw [← hx2, ← hy2]
      exact Nat.le_refl _
    · rw [show (j0 :: jChunking j0 :: (jTranscribing j0.chunks.length (jChunking j0)) ::
          (dbRecs (ttsChunkLoop jobId j0.tts_config o j0.chunks.length 0 j0.chunks
      (jTranscribing j0.chunks.length (jChunking j0)) []).1 ++
            dbRecs [Ev.dbUpdate jobId (jFailed e (ttsChunkLoop jobId j0.tts_config o j0.chunks.length 0 j0.chunks
      (jTranscribing j0.chunks.length (jChunking j0)) []).2.1)]))
        = (j0 :: jChunking j0 :: (jTranscribing j0.chunks.length (jChunking j0)) :: dbRecs (ttsChunkLoop jobId j0.tts_config o j0.chunks.length 0 j0.chunks
      (jTranscribing j0.chunks.length (jChunking j0)) []).1)
          ++ [jFailed e (ttsChunkLoop jobId j0.tts_config o j0.chunks.length 0 j0.chunks
      (jTranscribing j0.chunks.length (jChunking j0)) []).2.1] from by simp [dbRecs],
        List.dropLast_concat]
      intro st hs
      rcases List.mem_cons.mp hs with rfl | hs
      · rw [hst]
        exact ⟨by simp, by simp⟩
      rcases List.mem_cons.mp hs with rfl | hs
      · exact ⟨by simp [jChunking, jTranscribing, jMerging, jSaving], by simp [jChunking, jTranscribing, jMerging, jSaving]⟩
      rcases List.mem_cons.mp hs with rfl | hs
      · exact ⟨by simp [jChunking, jTranscribing, jMerging, jSaving], by simp [jChunking, jTranscribing, jMerging, jSaving]⟩
      obtain ⟨hstat, hprog⟩ := c2 st hs
      rw [hstat]
      exact ⟨by simp, by simp⟩
    · intro st hs
      rcases List.mem_cons.mp hs with rfl | hs
      · constructor
        · intro h
          rw [hp0] at h
          simp at h
        · intro h
          rw [hst] at h
          simp at h
      rcases List.mem_cons.mp hs with rfl | hs
      · constructor
        · intro h
          have h2 : j0.progress = 100 := h
          rw [hp0] at h2
          simp at h2
        · intro h
          have h2 : JStatus.chunking = JStatus.completed := h
          simp at h2
      rcases List.mem_cons.mp hs with rfl | hs
      · constructor
        · intro h
          have h2 : j0.progress = 100 := h
          rw [hp0] at h2
          simp at h2
        · intro h
          have h2 : JStatus.transcribing = JStatus.completed := h
          simp at h2
      rcases List.mem_append.mp hs with hs | hs
      · obtain ⟨hstat, hprog⟩ := c2 st hs
        constructor
        · intro h
          omega
        · intro h
          rw [hstat] at h
          simp at h
      · have hs2 : st = jFailed e (ttsChunkLoop jobId j0.tts_config o j0.chunks.length 0 j0.chunks
      (jTranscribing j0.chunks.length (jChunking j0)) []).2.1 := by
          simpa [dbRecs] using hs
        subst hs2
        constructor
        · intro h
          have h2 : (ttsChunkLoop jobId j0.tts_config o j0.chunks.length 0 j0.chunks
      (jTranscribing j0.chunks.length (jChunking j0)) []).2.1.progress = 100 := h
          omega
        · intro h
          have h2 : JStatus.failed = JStatus.completed := h
          simp at h2
  | ok audios =>
    cases hM : merge_audio_chunks o.probe o.concat audios with
    | error em =>
      have htail : ttsTail jobId o (ttsChunkLoop jobId j0.tts_config o j0.chunks.length 0 j0.chunks
      (jTranscribing j0.chunks.length (jChunking j0)) []).2
          = [Ev.dbUpdate jobId (jMerging (ttsChunkLoop jobId j0.tts_config o j0.chunks.length 0 j0.chunks
      (jTranscribing j0.chunks.length (jChunking j0)) []).2.1),
            Ev.dbUpdate jobId (jFailed em (jMerging (ttsChunkLoop jobId j0.tts_config o j0.chunks.length 0 j0.chunks
      (jTranscribing j0.chunks.length (jChunking j0)) []).2.1))] := by
        simp only [ttsTail, hE, hM]
      rw [hstates, htail]
      refine ⟨?_, ?_, ?_⟩
      · rw [show (j0 :: jChunking j0 :: (jTranscribing j0.chunks.length (jChunking j0)) ::
            (dbRecs (ttsChunkLoop jobId j0.tts_config o j0.chunks.length 0 j0.chunks
      (jTranscribing j0.chunks.length (jChunking j0)) []).1 ++
              dbRecs [Ev.dbUpdate jobId (jMerging (ttsChunkLoop jobId j0.tts_config o j0.chunks.length 0 j0.chunks
      (jTranscribing j0.chunks.length (jChunking j0)) []).2.1),
                Ev.dbUpdate jobId (jFailed em (jMerging (ttsChunkLoop jobId j0.tts_config o j0.chunks.length 0 j0.chunks
      (jTranscribing j0.chunks.length (jChunking j0)) []).2.1))]))
          = (j0 :: jChunking j0 :: (jTranscribing j0.chunks.length (jChunking j0)) :: dbRecs (ttsChunkLoop jobId j0.tts_config o j0.chunks.length 0 j0.chunks
      (jTranscribing j0.chunks.length (jChunking j0)) []).1)
            ++ [jMerging (ttsChunkLoop jobId j0.tts_config o j0.chunks.length 0 j0.chunks
      (jTranscribing j0.chunks.length (jChunking j0)) []).2.1,
              jFailed em (jMerging (ttsChunkLoop jobId j0.tts_config o j0.chunks.length 0 j0.chunks
      (jTranscribing j0.chunks.length (jChunking j0)) []).2.1)] from by simp [dbRecs]]
        refine List.Chain'.append hpre ?_ ?_
        · rw [List.chain'_cons]
          exact ⟨Nat.le_refl _, List.chain'_singleton _⟩
        · intro x hx y hy
          rw [hprelast] at hx
          have hx2 : (ttsChunkLoop jobId j0.tts_config o j0.chunks.length 0 j0.chunks
      (jTranscribing j0.chunks.length (jChunking j0)) []).2.1 = x := by simpa using hx
          have hy2 : jMerging (ttsChunkLoop jobId j0.tts_config o j0.chunks.length 0 j0.chunks
      (jTranscribing j0.chunks.length (jChunking j0)) []).2.1 = y := by simpa using hy
          rw [← hx2, ← hy2]
          exact Nat.le_trans c4 (by simp [jMerging])
      · rw [show (j0 :: jChunking j0 :: (jTranscribing j0.chunks.length (jChunking j0)) ::
            (dbRecs (ttsChunkLoop jobId j0.tts_config o j0.chunks.length 0 j0.chunks
      (jTranscribing j0.chunks.length (jChunking j0)) []).1 ++
              dbRecs [Ev.dbUpdate jobId (jMerging (ttsChunkLoop jobId j0.tts_config o j0.chunks.length 0 j0.chunks
      (jTranscribing j0.chunks.length (jChunking j0)) []).2.1),
                Ev.dbUpdate jobId (jFailed em (jMerging (ttsChunkLoop jobId j0.tts_config o j0.chunks.length 0 j0.chunks
      (jTranscribing j0.chunks.length (jChunking j0)) []).2.1))]))
          = (j0 :: jChunking j0 :: (jTranscribing j0.chunks.length (jChunking j0)) ::
              (dbRecs (ttsChunkLoop jobId j0.tts_config o j0.chunks.length 0 j0.chunks
      (jTranscribing j0.chunks.length (jChunking j0)) []).1 ++ [jMerging (ttsChunkLoop jobId j0.tts_config o j0.chunks.length 0 j0.chunks
      (jTranscribing j0.chunks.length (jChunking j0)) []).2.1]))
            ++ [jFailed em (jMerging (ttsChunkLoop jobId j0.tts_config o j0.chunks.length 0 j0.chunks
      (jTranscribing j0.chunks.length (jChunking j0)) []).2.1)] from by simp [dbRecs],
          List.dropLast_concat]
        intro st hs
        rcases List.mem_cons.mp hs with rfl | hs
        · rw [hst]
          exact ⟨by simp, by simp⟩
        rcases List.mem_cons.mp hs with rfl | hs
        · exact ⟨by simp [jChunking, jTranscribing, jMerging, jSaving], by simp [jChunking, jTranscribing, jMerging, jSaving]⟩
        rcases List.mem_cons.mp hs with rfl | hs
        · exact ⟨by simp [jChunking, jTranscribing, jMerging, jSaving], by simp [jChunking, jTranscribing, jMerging, jSaving]⟩
        rcases List.mem_append.mp hs with hs | hs
        · obtain ⟨hstat, hprog⟩ := c2 st hs
          rw [hstat]
          exact ⟨by simp, by simp⟩
        · have hs2 : st = jMerging (ttsChunkLoop jobId j0.tts_config o j0.chunks.length 0 j0.chunks
      (jTranscribing j0.chunks.length (jChunking j0)) []).2.1 := by simpa using hs
          subst hs2
          exact ⟨by simp [jChunking, jTranscribing, jMerging, jSaving], by simp [jChunking, jTranscribing, jMerging, jSaving]⟩
      · intro st hs
        rcases List.mem_cons.mp hs with rfl | hs
        · constructor
          · intro h
            rw [hp0] at h
            simp at h
          · intro h
            rw [hst] at h
            simp at h
        rcases List.mem_cons.mp hs with rfl | hs
        · constructor
          · intro h
            have h2 : j0.progress = 100 := h
            rw [hp0] at h2
            simp at h2
          · intro h
            have h2 : JStatus.chunking = JStatus.completed := h
            simp at h2
        rcases List.mem_cons.mp hs with rfl | hs
        · constructor
          · intro h
            have h2 : j0.progress = 100 := h
            rw [hp0] at h2
            simp at h2
          · intro h
            have h2 : JStatus.transcribing = JStatus.completed := h
            simp at h2
        rcases List.mem_append.mp hs with hs | hs
        · obtain ⟨hstat, hprog⟩ := c2 st hs
          constructor
          · intro h
            omega
          · intro h
            rw [hstat] at h
            simp at h
        · rcases (by simpa [dbRecs] using hs :
              st = jMerging (ttsChunkLoop jobId j0.tts_config o j0.chunks.length 0 j0.chunks
      (jTranscribing j0.chunks.length (jChunking j0)) []).2.1 ∨
              st = jFailed em (jMerging (ttsChunkLoop jobId j0.tts_config o j0.chunks.length 0 j0.chunks
      (jTranscribing j0.chunks.length (jChunking j0)) []).2.1)) with rfl | rfl
          · constructor
            · intro h
              have h2 : (90 : Nat) = 100 := h
              simp at h2
            · intro h
              have h2 : JStatus.merging = JStatus.completed := h
              simp at h2
          · constructor
            · intro h
              have h2 : (90 : Nat) = 100 := h
              simp at h2
            · intro h
              have h2 : JStatus.failed = JStatus.completed := h
              simp at h2
    | ok md =>
      have htail : ttsTail jobId o (ttsChunkLoop jobId j0.tts_config o j0.chunks.length 0 j0.chunks
      (jTranscribing j0.chunks.length (jChunking j0)) []).2
          = [Ev.dbUpdate jobId (jMerging (ttsChunkLoop jobId j0.tts_config o j0.chunks.length 0 j0.chunks
      (jTranscribing j0.chunks.length (jChunking j0)) []).2.1),
            Ev.dbUpdate jobId (jSaving (jMerging (ttsChunkLoop jobId j0.tts_config o j0.chunks.length 0 j0.chunks
      (jTranscribing j0.chunks.length (jChunking j0)) []).2.1)),
            Ev.fileWrite (jobAudioPath jobId) md.1,
            Ev.dbUpdate jobId (jDone jobId md.2
              (jSaving (jMerging (ttsChunkLoop jobId j0.tts_config o j0.chunks.length 0 j0.chunks
      (jTranscribing j0.chunks.length (jChunking j0)) []).2.1))),
            Ev.webhook jobId] := by
        simp only [ttsTail, hE, hM]
      rw [hstates, htail]
      refine ⟨?_, ?_, ?_⟩
      · rw [show (j0 :: jChunking j0 :: (jTranscribing j0.chunks.length (jChunking j0)) ::
            (dbRecs (ttsChunkLoop jobId j0.tts_config o j0.chunks.length 0 j0.chunks
      (jTranscribing j0.chunks.length (jChunking j0)) []).1 ++
              dbRecs [Ev.dbUpdate jobId (jMerging (ttsChunkLoop jobId j0.tts_config o j0.chunks.length 0 j0.chunks
      (jTranscribing j0.chunks.length (jChunking j0)) []).2.1),
                Ev.dbUpdate jobId (jSaving (jMerging (ttsChunkLoop jobId j0.tts_config o j0.chunks.length 0 j0.chunks
      (jTranscribing j0.chunks.length (jChunking j0)) []).2.1)),
                Ev.fileWrite (jobAudioPath jobId) md.1,
                Ev.dbUpdate jobId (jDone jobId md.2
                  (jSaving (jMerging (ttsChunkLoop jobId j0.tts_config o j0.chunks.length 0 j0.chunks
      (jTranscribing j0.chunks.length (jChunking j0)) []).2.1))),
                Ev.webhook jobId]))
          = (j0 :: jChunking j0 :: (jTranscribing j0.chunks.length (jChunking j0)) :: dbRecs (ttsChunkLoop jobId j0.tts_config o j0.chunks.length 0 j0.chunks
      (jTranscribing j0.chunks.length (jChunking j0)) []).1)
            ++ [jMerging (ttsChunkLoop jobId j0.tts_config o j0.chunks.length 0 j0.chunks
      (jTranscribing j0.chunks.length (jChunking j0)) []).2.1, jSaving (jMerging (ttsChunkLoop jobId j0.tts_config o j0.chunks.length 0 j0.chunks
      (jTranscribing j0.chunks.length (jChunking j0)) []).2.1),
              jDone jobId md.2 (jSaving (jMerging (ttsChunkLoop jobId j0.tts_config o j0.chunks.length 0 j0.chunks
      (jTranscribing j0.chunks.length (jChunking j0)) []).2.1))] from by
          simp [dbRecs]]
        refine List.Chain'.append hpre ?_ ?_
        · rw [List.chain'_cons]
          refine ⟨by simp [jMerging, jSaving], ?_⟩
          rw [List.chain'_cons]
          exact ⟨by simp [jMerging, jSaving, jDone], List.chain'_singleton _⟩
        · intro x hx y hy
          rw [hprelast] at hx
          have hx2 : (ttsChunkLoop jobId j0.tts_config o j0.chunks.length 0 j0.chunks
      (jTranscribing j0.chunks.length (jChunking j0)) []).2.1 = x := by simpa using hx
          have hy2 : jMerging (ttsChunkLoop jobId j0.tts_config o j0.chunks.length 0 j0.chunks
      (jTranscribing j0.chunks.length (jChunking j0)) []).2.1 = y := by simpa using hy
          rw [← hx2, ← hy2]
          exact Nat.le_trans c4 (by simp [jMerging])
      · rw [show (j0 :: jChunking j0 :: (jTranscribing j0.chunks.length (jChunking j0)) ::
            (dbRecs (ttsChunkLoop jobId j0.tts_config o j0.chunks.length 0 j0.chunks
      (jTranscribing j0.chunks.length (jChunking j0)) []).1 ++
              dbRecs [Ev.dbUpdate jobId (jMerging (ttsChunkLoop jobId j0.tts_config o j0.chunks.length 0 j0.chunks
      (jTranscribing j0.chunks.length (jChunking j0)) []).2.1),
                Ev.dbUpdate jobId (jSaving (jMerging (ttsChunkLoop jobId j0.tts_config o j0.chunks.length 0 j0.chunks
      (jTranscribing j0.chunks.length (jChunking j0)) []).2.1)),
                Ev.fileWrite (jobAudioPath jobId) md.1,
                Ev.dbUpdate jobId (jDone jobId md.2
                  (jSaving (jMerging (ttsChunkLoop jobId j0.tts_config o j0.chunks.length 0 j0.chunks
      (jTranscribing j0.chunks.length (jChunking j0)) []).2.1))),
                Ev.webhook jobId]))
          = (j0 :: jChunking j0 :: (jTranscribing j0.chunks.length (jChunking j0)) ::
              (dbRecs (ttsChunkLoop jobId j0.tts_config o j0.chunks.length 0 j0.chunks
      (jTranscribing j0.chunks.length (jChunking j0)) []).1 ++ [jMerging (ttsChunkLoop jobId j0.tts_config o j0.chunks.length 0 j0.chunks
      (jTranscribing j0.chunks.length (jChunking j0)) []).2.1,
                jSaving (jMerging (ttsChunkLoop jobId j0.tts_config o j0.chunks.length 0 j0.chunks
      (jTranscribing j0.chunks.length (jChunking j0)) []).2.1)]))
            ++ [jDone jobId md.2 (jSaving (jMerging (ttsChunkLoop jobId j0.tts_config o j0.chunks.length 0 j0.chunks
      (jTranscribing j0.chunks.length (jChunking j0)) []).2.1))] from by
          simp [dbRecs],
          List.dropLast_concat]
        intro st hs
        rcases List.mem_cons.mp hs with rfl | hs
        · rw [hst]
          exact ⟨by simp, by simp⟩
        rcases List.mem_cons.mp hs with rfl | hs
        · exact ⟨by simp [jChunking, jTranscribing, jMerging, jSaving], by simp [jChunking, jTranscribing, jMerging, jSaving]⟩
        rcases List.mem_cons.mp hs with rfl | hs
        · exact ⟨by simp [jChunking, jTranscribing, jMerging, jSaving], by simp [jChunking, jTranscribing, jMerging, jSaving]⟩
        rcases List.mem_append.mp hs with hs | hs
        · obtain ⟨hstat, hprog⟩ := c2 st hs
          rw [hstat]
          exact ⟨by simp, by simp⟩
        · rcases (by simpa using hs :
              st = jMerging (ttsChunkLoop jobId j0.tts_config o j0.chunks.length 0 j0.chunks
      (jTranscribing j0.chunks.length (jChunking j0)) []).2.1 ∨
              st = jSaving (jMerging (ttsChunkLoop jobId j0.tts_config o j0.chunks.length 0 j0.chunks
      (jTranscribing j0.chunks.length (jChunking j0)) []).2.1)) with rfl | rfl
          · exact ⟨by simp [jChunking, jTranscribing, jMerging, jSaving], by simp [jChunking, jTranscribing, jMerging, jSaving]⟩
          · exact ⟨by simp [jChunking, jTranscribing, jMerging, jSaving], by simp [jChunking, jTranscribing, jMerging, jSaving]⟩
      · intro st hs
        rcases List.mem_cons.mp hs with rfl | hs
        · constructor
          · intro h
            rw [hp0] at h
            simp at h
          · intro h
            rw [hst] at h
            simp at h
        rcases List.mem_cons.mp hs with rfl | hs
        · constructor
          · intro h
            have h2 : j0.progress = 100 := h
            rw [hp0] at h2
            simp at h2
          · intro h
            have h2 : JStatus.chunking = JStatus.completed := h
            simp at h2
        rcases List.mem_cons.mp hs with rfl | hs
        · constructor
          · intro h
            have h2 : j0.progress = 100 := h
            rw [hp0] at h2
            simp at h2
          · intro h
            have h2 : JStatus.transcribing = JStatus.completed := h
            simp at h2
        rcases List.mem_append.mp hs with hs | hs
        · obtain ⟨hstat, hprog⟩ := c2 st hs
          constructor
          · intro h
            omega
          · intro h
            rw [hstat] at h
            simp at h
        · rcases (by simpa [dbRecs] using hs :
              st = jMerging (ttsChunkLoop jobId j0.tts_config o j0.chunks.length 0 j0.chunks
      (jTranscribing j0.chunks.length (jChunking j0)) []).2.1 ∨
              st = jSaving (jMerging (ttsChunkLoop jobId j0.tts_config o j0.chunks.length 0 j0.chunks
      (jTranscribing j0.chunks.length (jChunking j0)) []).2.1) ∨
              st = jDone jobId md.2 (jSaving (jMerging (ttsChunkLoop jobId j0.tts_config o j0.chunks.length 0 j0.chunks
      (jTranscribing j0.chunks.length (jChunking j0)) []).2.1)))
            with rfl | rfl | rfl
          · constructor
            · intro h
              have h2 : (90 : Nat) = 100 := h
              simp at h2
            · intro h
              have h2 : JStatus.merging = JStatus.completed := h
              simp at h2
          · constructor
            · intro h
              have h2 : (95 : Nat) = 100 := h
              simp at h2
            · intro h
              have h2 : JStatus.merging = JStatus.completed := h
              simp at h2
          · exact ⟨fun h => rfl, fun h => rfl⟩

/-- Progress/status invariants of every batch-mode run: the observable
record sequence is progress-monotone, terminal statuses appear only as the
final record, and progress is 100 exactly on `completed` records. -/
theorem studio_progress_invariants (w : World) (jobId : Nat)
    (so : StudioOracle) (j0 : JobDoc)
    (hlook : lookupJob w.db jobId = some j0)
    (hst : j0.status = JStatus.queued) (hp0 : j0.progress = 0) :
    List.Chain' (fun a b => a.progress ≤ b.progress)
      (jobStates j0 (process_studio_job w jobId so)) ∧
    (∀ st ∈ (jobStates j0 (process_studio_job w jobId so)).dropLast,
      st.status ≠ JStatus.completed ∧ st.status ≠ JStatus.failed) ∧
    (∀ st ∈ jobStates j0 (process_studio_job w jobId so),
      st.progress = 100 ↔ st.status = JStatus.completed) := by
  by_cases hc : so.createStatus ≠ 200
  · have htr : process_studio_job w jobId so
        = [Ev.dbUpdate jobId (jStudioStart j0),
          Ev.studioCreate (mkStudioRequest j0.tts_config),
          Ev.dbUpdate jobId (jFailed ("Studio API error: " ++
            toString so.createStatus ++ " - " ++ so.createErrText)
            (jStudioStart j0))] := by
      simp only [process_studio_job, hlook]
      rw [if_pos hc]
    rw [jobStates_eq, htr]
    refine ⟨?_, ?_, ?_⟩
    · show List.Chain' _ [j0, jStudioStart j0, jFailed _ (jStudioStart j0)]
      rw [List.chain'_cons]
      refine ⟨by rw [hp0]; simp [jStudioStart], ?_⟩
      rw [List.chain'_cons]
      exact ⟨Nat.le_refl _, List.chain'_singleton _⟩
    · intro st hs
      rcases (by simpa [dbRecs] using hs : st = j0 ∨ st = jStudioStart j0)
        with rfl | rfl
      · rw [hst]
        exact ⟨by simp, by simp⟩
      · exact ⟨by simp [jStudioStart], by simp [jStudioStart]⟩
    · intro st hs
      rcases (by simpa [dbRecs] using hs : st = j0 ∨ st = jStudioStart j0 ∨
          st = jFailed ("Studio API error: " ++ toString so.createStatus
            ++ " - " ++ so.createErrText) (jStudioStart j0))
        with rfl | rfl | rfl
      · constructor
        · intro h
          rw [hp0] at h
          simp at h
        · intro h
          rw [hst] at h
          simp at h
      · constructor
        · intro h
          have h2 : (10 : Nat) = 100 := h
          simp at h2
        · intro h
          have h2 : JStatus.processing = JStatus.completed := h
          simp at h2
      · constructor
        · intro h
          have h2 : (10 : Nat) = 100 := h
          simp at h2
        · intro h
          have h2 : JStatus.failed = JStatus.completed := h
          simp at h2
  · cases hpid : so.createProjectId with
    | none =>
      have htr : process_studio_job w jobId so
          = [Ev.dbUpdate jobId (jStudioStart j0),
            Ev.studioCreate (mkStudioRequest j0.tts_config),
            Ev.dbUpdate jobId
              (jFailed "Failed to get project_id from Studio API response"
                (jStudioStart j0))] := by
        simp only [process_studio_job, hlook, hpid]
        rw [if_neg hc]
      rw [jobStates_eq, htr]
      refine ⟨?_, ?_, ?_⟩
      · show List.Chain' _ [j0, jStudioStart j0, jFailed _ (jStudioStart j0)]
        rw [List.chain'_cons]
        refine ⟨by rw [hp0]; simp [jStudioStart], ?_⟩
        rw [List.chain'_cons]
        exact ⟨Nat.le_refl _, List.chain'_singleton _⟩
      · intro st hs
        rcases (by simpa [dbRecs] using hs : st = j0 ∨ st = jStudioStart j0)
          with rfl | rfl
        · rw [hst]
          exact ⟨by simp, by simp⟩
        · exact ⟨by simp [jStudioStart], by simp [jStudioStart]⟩
      · intro st hs
        rcases (by simpa [dbRecs] using hs : st = j0 ∨
            st = jStudioStart j0 ∨
            st = jFailed "Failed to get project_id from Studio API response"
              (jStudioStart j0))
          with rfl | rfl | rfl
        · constructor
          · intro h
            rw [hp0] at h
            simp at h
          · intro h
            rw [hst] at h
            simp at h
        · constructor
          · intro h
            have h2 : (10 : Nat) = 100 := h
            simp at h2
          · intro h
            have h2 : JStatus.processing = JStatus.completed := h
            simp at h2
        · constructor
          · intro h
            have h2 : (10 : Nat) = 100 := h
            simp at h2
          · intro h
            have h2 : JStatus.failed = JStatus.completed := h
            simp at h2
    | some pid =>
      have htr : process_studio_job w jobId so
          = Ev.dbUpdate jobId (jStudioStart j0) ::
            Ev.studioCreate (mkStudioRequest j0.tts_config) ::
            ((Ev.dbUpdate jobId (jWithProject pid (jStudioStart j0)) :: (studioPollLoop jobId so 1 120
      (jWithProject pid (jStudioStart j0))).1) ++
              studioTail jobId so (studioPollLoop jobId so 1 120
      (jWithProject pid (jStudioStart j0))).2) := by
        simp only [process_studio_job, hlook, hpid]
        rw [if_neg hc]
      obtain ⟨c1, c2, c3, c4, c5, c6⟩ := studioPollLoop_chain jobId so 120 1
        (jWithProject pid (jStudioStart j0)) (by simp [jWithProject])
      have hstates : jobStates j0 (process_studio_job w jobId so)
          = j0 :: jStudioStart j0 :: (jWithProject pid (jStudioStart j0)) ::
            (dbRecs (studioPollLoop jobId so 1 120
      (jWithProject pid (jStudioStart j0))).1 ++ dbRecs (studioTail jobId so (studioPollLoop jobId so 1 120
      (jWithProject pid (jStudioStart j0))).2))
          := by
        rw [jobStates_eq, htr]
        rw [show dbRecs (Ev.dbUpdate jobId (jStudioStart j0) ::
            Ev.studioCreate (mkStudioRequest j0.tts_config) ::
            ((Ev.dbUpdate jobId (jWithProject pid (jStudioStart j0)) :: (studioPollLoop jobId so 1 120
      (jWithProject pid (jStudioStart j0))).1) ++
              studioTail jobId so (studioPollLoop jobId so 1 120
      (jWithProject pid (jStudioStart j0))).2))
          = jStudioStart j0 ::
            dbRecs ((Ev.dbUpdate jobId (jWithProject pid (jStudioStart j0)) :: (studioPollLoop jobId so 1 120
      (jWithProject pid (jStudioStart j0))).1) ++
              studioTail jobId so (studioPollLoop jobId so 1 120
      (jWithProject pid (jStudioStart j0))).2) from rfl, dbRecs_append]
        rfl
      have hpre : List.Chain' (fun a b : JobDoc => a.progress ≤ b.progress)
          (j0 :: jStudioStart j0 :: (jWithProject pid (jStudioStart j0)) :: dbRecs (studioPollLoop jobId so 1 120
      (jWithProject pid (jStudioStart j0))).1) := by
        rw [List.chain'_cons]
        refine ⟨by rw [hp0]; simp [jStudioStart], ?_⟩
        rw [List.chain'_cons]
        exact ⟨by simp [jStudioStart, jWithProject], c1⟩
      have hprelast : (j0 :: jStudioStart j0 :: (jWithProject pid (jStudioStart j0)) ::
          dbRecs (studioPollLoop jobId so 1 120
      (jWithProject pid (jStudioStart j0))).1).getLast? = some (studioPollLoop jobId so 1 120
      (jWithProject pid (jStudioStart j0))).2.1 := by
        rw [List.getLast?_cons_cons, List.getLast?_cons_cons]
        exact c3
      cases hO : (studioPollLoop jobId so 1 120
      (jWithProject pid (jStudioStart j0))).2.2 with
      | remoteFailed =>
        obtain ⟨L0, hL0, hst0, hstf⟩ := c5 hO
        have htail : studioTail jobId so (studioPollLoop jobId so 1 120
      (jWithProject pid (jStudioStart j0))).2 = [] := by
          simp only [studioTail, hO]
        rw [hstates, htail, hL0]
        refine ⟨?_, ?_, ?_⟩
        · rw [show (j0 :: jStudioStart j0 :: (jWithProject pid (jStudioStart j0)) ::
              ((L0 ++ [(studioPollLoop jobId so 1 120
      (jWithProject pid (jStudioStart j0))).2.1]) ++ dbRecs ([] : List Ev)))
            = j0 :: jStudioStart j0 :: (jWithProject pid (jStudioStart j0)) ::
              (L0 ++ [(studioPollLoop jobId so 1 120
      (jWithProject pid (jStudioStart j0))).2.1]) from by simp [dbRecs], ← hL0]
          exact hpre
        · rw [show (j0 :: jStudioStart j0 :: (jWithProject pid (jStudioStart j0)) ::
              ((L0 ++ [(studioPollLoop jobId so 1 120
      (jWithProject pid (jStudioStart j0))).2.1]) ++ dbRecs ([] : List Ev)))
            = (j0 :: jStudioStart j0 :: (jWithProject pid (jStudioStart j0)) :: L0)
              ++ [(studioPollLoop jobId so 1 120
      (jWithProject pid (jStudioStart j0))).2.1] from by simp [dbRecs],
            List.dropLast_concat]
          intro st hs
          rcases List.mem_cons.mp hs with rfl | hs
          · rw [hst]
            exact ⟨by simp, by simp⟩
          rcases List.mem_cons.mp hs with rfl | hs
          · exact ⟨by simp [jStudioStart], by simp [jStudioStart]⟩
          rcases List.mem_cons.mp hs with rfl | hs
          · exact ⟨by simp [jWithProject, jStudioStart],
              by simp [jWithProject, jStudioStart]⟩
          · rw [hst0 st hs]
            exact ⟨by simp [jWithProject, jStudioStart],
              by simp [jWithProject, jStudioStart]⟩
        · intro st hs
          rcases List.mem_cons.mp hs with rfl | hs
          · constructor
            · intro h
              rw [hp0] at h
              simp at h
            · intro h
              rw [hst] at h
              simp at h
          rcases List.mem_cons.mp hs with rfl | hs
          · constructor
            · intro h
              have h2 : (10 : Nat) = 100 := h
              simp at h2
            · intro h
              have h2 : JStatus.processing = JStatus.completed := h
              simp at h2
          rcases List.mem_cons.mp hs with rfl | hs
          · constructor
            · intro h
              have h2 : (30 : Nat) = 100 := h
              simp at h2
            · intro h
              have h2 : JStatus.processing = JStatus.completed := h
              simp at h2
          have hs2 : st ∈ L0 ++ [(studioPollLoop jobId so 1 120
      (jWithProject pid (jStudioStart j0))).2.1] := by
            simpa [dbRecs] using hs
          rcases List.mem_append.mp hs2 with hs3 | hs3
          · have hmem : st ∈ dbRecs (studioPollLoop jobId so 1 120
      (jWithProject pid (jStudioStart j0))).1 := by
              rw [hL0]
              exact List.mem_append_left _ hs3
            have hle := c2 st hmem
            constructor
            · intro h
              omega
            · intro h
              rw [hst0 st hs3] at h
              have h2 : JStatus.processing = JStatus.completed := h
              simp at h2
          · have hs4 : st = (studioPollLoop jobId so 1 120
      (jWithProject pid (jStudioStart j0))).2.1 := by simpa using hs3
            subst hs4
            constructor
            · intro h
              have hle := c4
              omega
            · intro h
              rw [hstf] at h
              simp at h
      | exhausted =>
        obtain ⟨hallM, hres⟩ := c6 (by rw [hO]; simp)
        have htail : studioTail jobId so (studioPollLoop jobId so 1 120
      (jWithProject pid (jStudioStart j0))).2
            = [Ev.dbUpdate jobId
                (jFailed "Timeout waiting for Studio conversion"
                  (studioPollLoop jobId so 1 120
      (jWithProject pid (jStudioStart j0))).2.1)] := by
          simp only [studioTail, hO]
        rw [hstates, htail]
        refine ⟨?_, ?_, ?_⟩
        · rw [show (j0 :: jStudioStart j0 :: (jWithProject pid (jStudioStart j0)) ::
              (dbRecs (studioPollLoop jobId so 1 120
      (jWithProject pid (jStudioStart j0))).1 ++ dbRecs [Ev.dbUpdate jobId
                (jFailed "Timeout waiting for Studio conversion"
                  (studioPollLoop jobId so 1 120
      (jWithProject pid (jStudioStart j0))).2.1)]))
            = (j0 :: jStudioStart j0 :: (jWithProject pid (jStudioStart j0)) :: dbRecs (studioPollLoop jobId so 1 120
      (jWithProject pid (jStudioStart j0))).1)
              ++ [jFailed "Timeout waiting for Studio conversion"
                (studioPollLoop jobId so 1 120
      (jWithProject pid (jStudioStart j0))).2.1] from by simp [dbRecs]]
          refine List.Chain'.append hpre (List.chain'_singleton _) ?_
          intro x hx y hy
          rw [hprelast] at hx
          have hx2 : (studioPollLoop jobId so 1 120
      (jWithProject pid (jStudioStart j0))).2.1 = x := by simpa using hx
          have hy2 : jFailed "Timeout waiting for Studio conversion"
              (studioPollLoop jobId so 1 120
      (jWithProject pid (jStudioStart j0))).2.1 = y := by simpa using hy
          rw [← hx2, ← hy2]
          exact Nat.le_refl _
        · rw [show (j0 :: jStudioStart j0 :: (jWithProject pid (jStudioStart j0)) ::
              (dbRecs (studioPollLoop jobId so 1 120
      (jWithProject pid (jStudioStart j0))).1 ++ dbRecs [Ev.dbUpdate jobId
                (jFailed "Timeout waiting for Studio conversion"
                  (studioPollLoop jobId so 1 120
      (jWithProject pid (jStudioStart j0))).2.1)]))
            = (j0 :: jStudioStart j0 :: (jWithProject pid (jStudioStart j0)) :: dbRecs (studioPollLoop jobId so 1 120
      (jWithProject pid (jStudioStart j0))).1)
              ++ [jFailed "Timeout waiting for Studio conversion"
                (studioPollLoop jobId so 1 120
      (jWithProject pid (jStudioStart j0))).2.1] from by simp [dbRecs],
            List.dropLast_concat]
          intro st hs
          rcases List.mem_cons.mp hs with rfl | hs
          · rw [hst]
            exact ⟨by simp, by simp⟩
          rcases List.mem_cons.mp hs with rfl | hs
          · exact ⟨by simp [jStudioStart], by simp [jStudioStart]⟩
          rcases List.mem_cons.mp hs with rfl | hs
          · exact ⟨by simp [jWithProject, jStudioStart],
              by simp [jWithProject, jStudioStart]⟩
          · rw [hallM st hs]
            exact ⟨by simp [jWithProject, jStudioStart],
              by simp [jWithProject, jStudioStart]⟩
        · intro st hs
          rcases List.mem_cons.mp hs with rfl | hs
          · constructor
            · intro h
              rw [hp0] at h
              simp at h
            · intro h
              rw [hst] at h
              simp at h
          rcases List.mem_cons.mp hs with rfl | hs
          · constructor
            · intro h
              have h2 : (10 : Nat) = 100 := h
              simp at h2
            · intro h
              have h2 : JStatus.processing = JStatus.completed := h
              simp at h2
          rcases List.mem_cons.mp hs with rfl | hs
          · constructor
            · intro h
              have h2 : (30 : Nat) = 100 := h
              simp at h2
            · intro h
              have h2 : JStatus.processing = JStatus.completed := h
              simp at h2
          rcases List.mem_append.mp hs with hs3 | hs3
          · have hle := c2 st hs3
            constructor
            · intro h
              omega
            · intro h
              rw [hallM st hs3] at h
              have h2 : JStatus.processing = JStatus.completed := h
              simp at h2
          · have hs4 : st = jFailed "Timeout waiting for Studio conversion"
                (studioPollLoop jobId so 1 120
      (jWithProject pid (jStudioStart j0))).2.1 := by simpa [dbRecs] using hs3
            subst hs4
            constructor
            · intro h
              have h2 : (studioPollLoop jobId so 1 120
      (jWithProject pid (jStudioStart j0))).2.1.progress = 100 := h
              have hle := c4
              omega
            · intro h
              have h2 : JStatus.failed = JStatus.completed := h
              simp at h2
      | snapshot sid =>
        obtain ⟨hallM, hres⟩ := c6 (by rw [hO]; simp)
        cases sid with
        | none =>
          have htail : studioTail jobId so (studioPollLoop jobId so 1 120
      (jWithProject pid (jStudioStart j0))).2
              = [Ev.dbUpdate jobId
                  (jFailed "Timeout waiting for Studio conversion"
                    (studioPollLoop jobId so 1 120
      (jWithProject pid (jStudioStart j0))).2.1)] := by
            simp only [studioTail, hO]
          rw [hstates, htail]
          refine ⟨?_, ?_, ?_⟩
          · rw [show (j0 :: jStudioStart j0 :: (jWithProject pid (jStudioStart j0)) ::
                (dbRecs (studioPollLoop jobId so 1 120
      (jWithProject pid (jStudioStart j0))).1 ++ dbRecs [Ev.dbUpdate jobId
                  (jFailed "Timeout waiting for Studio conversion"
                    (studioPollLoop jobId so 1 120
      (jWithProject pid (jStudioStart j0))).2.1)]))
              = (j0 :: jStudioStart j0 :: (jWithProject pid (jStudioStart j0)) :: dbRecs (studioPollLoop jobId so 1 120
      (jWithProject pid (jStudioStart j0))).1)
                ++ [jFailed "Timeout waiting for Studio conversion"
                  (studioPollLoop jobId so 1 120
      (jWithProject pid (jStudioStart j0))).2.1] from by simp [dbRecs]]
            refine List.Chain'.append hpre (List.chain'_singleton _) ?_
            intro x hx y hy
            rw [hprelast] at hx
            have hx2 : (studioPollLoop jobId so 1 120
      (jWithProject pid (jStudioStart j0))).2.1 = x := by simpa using hx
            have hy2 : jFailed "Timeout waiting for Studio conversion"
                (studioPollLoop jobId so 1 120
      (jWithProject pid (jStudioStart j0))).2.1 = y := by simpa using hy
            rw [← hx2, ← hy2]
            exact Nat.le_refl _
          · rw [show (j0 :: jStudioStart j0 :: (jWithProject pid (jStudioStart j0)) ::
                (dbRecs (studioPollLoop jobId so 1 120
      (jWithProject pid (jStudioStart j0))).1 ++ dbRecs [Ev.dbUpdate jobId
                  (jFailed "Timeout waiting for Studio conversion"
                    (studioPollLoop jobId so 1 120
      (jWithProject pid (jStudioStart j0))).2.1)]))
              = (j0 :: jStudioStart j0 :: (jWithProject pid (jStudioStart j0)) :: dbRecs (studioPollLoop jobId so 1 120
      (jWithProject pid (jStudioStart j0))).1)
                ++ [jFailed "Timeout waiting for Studio conversion"
                  (studioPollLoop jobId so 1 120
      (jWithProject pid (jStudioStart j0))).2.1] from by simp [dbRecs],
              List.dropLast_concat]
            intro st hs
            rcases List.mem_cons.mp hs with rfl | hs
            · rw [hst]
              exact ⟨by simp, by simp⟩
            rcases List.mem_cons.mp hs with rfl | hs
            · exact ⟨by simp [jStudioStart], by simp [jStudioStart]⟩
            rcases List.mem_cons.mp hs with rfl | hs
            · exact ⟨by simp [jWithProject, jStudioStart],
                by simp [jWithProject, jStudioStart]⟩
            · rw [hallM st hs]
              exact ⟨by simp [jWithProject, jStudioStart],
                by simp [jWithProject, jStudioStart]⟩
          · intro st hs
            rcases List.mem_cons.mp hs with rfl | hs
            · constructor
              · intro h
                rw [hp0] at h
                simp at h
              · intro h
                rw [hst] at h
                simp at h
            rcases List.mem_cons.mp hs with rfl | hs
            · constructor
              · intro h
                have h2 : (10 : Nat) = 100 := h
                simp at h2
              · intro h
                have h2 : JStatus.processing = JStatus.completed := h
                simp at h2
            rcases List.mem_cons.mp hs with rfl | hs
            · constructor
              · intro h
                have h2 : (30 : Nat) = 100 := h
                simp at h2
              · intro h
                have h2 : JStatus.processing = JStatus.completed := h
                simp at h2
            rcases List.mem_append.mp hs with hs3 | hs3
            · have hle := c2 st hs3
              constructor
              · intro h
                omega
              · intro h
                rw [hallM st hs3] at h
                have h2 : JStatus.processing = JStatus.completed := h
                simp at h2
            · have hs4 : st
                  = jFailed "Timeout waiting for Studio conversion"
                    (studioPollLoop jobId so 1 120
      (jWithProject pid (jStudioStart j0))).2.1 := by simpa [dbRecs] using hs3
              subst hs4
              constructor
              · intro h
                have h2 : (studioPollLoop jobId so 1 120
      (jWithProject pid (jStudioStart j0))).2.1.progress = 100 := h
                have hle := c4
                omega
              · intro h
                have h2 : JStatus.failed = JStatus.completed := h
                simp at h2
        | some snap =>
          by_cases hd : so.downloadStatus ≠ 200
          · have htail : studioTail jobId so (studioPollLoop jobId so 1 120
      (jWithProject pid (jStudioStart j0))).2
                = [Ev.dbUpdate jobId (jWithSnapshot snap (studioPollLoop jobId so 1 120
      (jWithProject pid (jStudioStart j0))).2.1),
                  Ev.dbUpdate jobId
                    (jFailed ("Failed to download audio: " ++
                      toString so.downloadStatus)
                      (jWithSnapshot snap (studioPollLoop jobId so 1 120
      (jWithProject pid (jStudioStart j0))).2.1))] := by
              simp only [studioTail, hO]
              rw [if_pos hd]
            rw [hstates, htail]
            refine ⟨?_, ?_, ?_⟩
            · rw [show (j0 :: jStudioStart j0 :: (jWithProject pid (jStudioStart j0)) ::
                  (dbRecs (studioPollLoop jobId so 1 120
      (jWithProject pid (jStudioStart j0))).1 ++
                    dbRecs [Ev.dbUpdate jobId
                      (jWithSnapshot snap (studioPollLoop jobId so 1 120
      (jWithProject pid (jStudioStart j0))).2.1),
                      Ev.dbUpdate jobId
                        (jFailed ("Failed to download audio: " ++
                          toString so.downloadStatus)
                          (jWithSnapshot snap (studioPollLoop jobId so 1 120
      (jWithProject pid (jStudioStart j0))).2.1))]))
                = (j0 :: jStudioStart j0 :: (jWithProject pid (jStudioStart j0)) :: dbRecs (studioPollLoop jobId so 1 120
      (jWithProject pid (jStudioStart j0))).1)
                  ++ [jWithSnapshot snap (studioPollLoop jobId so 1 120
      (jWithProject pid (jStudioStart j0))).2.1,
                    jFailed ("Failed to download audio: " ++
                      toString so.downloadStatus)
                      (jWithSnapshot snap (studioPollLoop jobId so 1 120
      (jWithProject pid (jStudioStart j0))).2.1)] from by
                simp [dbRecs]]
              refine List.Chain'.append hpre ?_ ?_
              · rw [List.chain'_cons]
                exact ⟨Nat.le_refl _, List.chain'_singleton _⟩
              · intro x hx y hy
                rw [hprelast] at hx
                have hx2 : (studioPollLoop jobId so 1 120
      (jWithProject pid (jStudioStart j0))).2.1 = x := by simpa using hx
                have hy2 : jWithSnapshot snap (studioPollLoop jobId so 1 120
      (jWithProject pid (jStudioStart j0))).2.1 = y := by
                  simpa using hy
                rw [← hx2, ← hy2]
                exact Nat.le_trans c4 (by simp [jWithSnapshot])
            · rw [show (j0 :: jStudioStart j0 :: (jWithProject pid (jStudioStart j0)) ::
                  (dbRecs (studioPollLoop jobId so 1 120
      (jWithProject pid (jStudioStart j0))).1 ++
                    dbRecs [Ev.dbUpdate jobId
                      (jWithSnapshot snap (studioPollLoop jobId so 1 120
      (jWithProject pid (jStudioStart j0))).2.1),
                      Ev.dbUpdate jobId
                        (jFailed ("Failed to download audio: " ++
                          toString so.downloadStatus)
                          (jWithSnapshot snap (studioPollLoop jobId so 1 120
      (jWithProject pid (jStudioStart j0))).2.1))]))
                = (j0 :: jStudioStart j0 :: (jWithProject pid (jStudioStart j0)) ::
                    (dbRecs (studioPollLoop jobId so 1 120
      (jWithProject pid (jStudioStart j0))).1 ++
                      [jWithSnapshot snap (studioPollLoop jobId so 1 120
      (jWithProject pid (jStudioStart j0))).2.1]))
                  ++ [jFailed ("Failed to download audio: " ++
                      toString so.downloadStatus)
                      (jWithSnapshot snap (studioPollLoop jobId so 1 120
      (jWithProject pid (jStudioStart j0))).2.1)] from by
                simp [dbRecs],
                List.dropLast_concat]
              intro st hs
              rcases List.mem_cons.mp hs with rfl | hs
              · rw [hst]
                exact ⟨by simp, by simp⟩
              rcases List.mem_cons.mp hs with rfl | hs
              · exact ⟨by simp [jStudioStart], by simp [jStudioStart]⟩
              rcases List.mem_cons.mp hs with rfl | hs
              · exact ⟨by simp [jWithProject, jStudioStart],
                  by simp [jWithProject, jStudioStart]⟩
              rcases List.mem_append.mp hs with hs3 | hs3
              · rw [hallM st hs3]
                exact ⟨by simp [jWithProject, jStudioStart],
                  by simp [jWithProject, jStudioStart]⟩
              · have hs4 : st = jWithSnapshot snap (studioPollLoop jobId so 1 120
      (jWithProject pid (jStudioStart j0))).2.1 := by
                  simpa using hs3
                subst hs4
                have h2 : (jWithSnapshot snap (studioPollLoop jobId so 1 120
      (jWithProject pid (jStudioStart j0))).2.1).status
                    = (jWithProject pid (jStudioStart j0)).status := hres
                rw [h2]
                exact ⟨by simp [jWithProject, jStudioStart],
                  by simp [jWithProject, jStudioStart]⟩
            · intro st hs
              rcases List.mem_cons.mp hs with rfl | hs
              · constructor
                · intro h
                  rw [hp0] at h
                  simp at h
                · intro h
                  rw [hst] at h
                  simp at h
              rcases List.mem_cons.mp hs with rfl | hs
              · constructor
                · intro h
                  have h2 : (10 : Nat) = 100 := h
                  simp at h2
                · intro h
                  have h2 : JStatus.processing = JStatus.completed := h
                  simp at h2
              rcases List.mem_cons.mp hs with rfl | hs
              · constructor
                · intro h
                  have h2 : (30 : Nat) = 100 := h
                  simp at h2
                · intro h
                  have h2 : JStatus.processing = JStatus.completed := h
                  simp at h2
              rcases List.mem_append.mp hs with hs3 | hs3
              · have hle := c2 st hs3
                constructor
                · intro h
                  omega
                · intro h
                  rw [hallM st hs3] at h
                  have h2 : JStatus.processing = JStatus.completed := h
                  simp at h2
              · rcases (by simpa [dbRecs] using hs3 :
                    st = jWithSnapshot snap (studioPollLoop jobId so 1 120
      (jWithProject pid (jStudioStart j0))).2.1 ∨
                    st = jFailed ("Failed to download audio: " ++
                      toString so.downloadStatus)
                      (jWithSnapshot snap (studioPollLoop jobId so 1 120
      (jWithProject pid (jStudioStart j0))).2.1)) with rfl | rfl
                · constructor
                  · intro h
                    have h2 : (85 : Nat) = 100 := h
                    simp at h2
                  · intro h
                    have h2 : (jWithSnapshot snap (studioPollLoop jobId so 1 120
      (jWithProject pid (jStudioStart j0))).2.1).status
                        = (jWithProject pid (jStudioStart j0)).status := hres
                    rw [h2] at h
                    have h3 : JStatus.processing = JStatus.completed := h
                    simp at h3
                · constructor
                  · intro h
                    have h2 : (85 : Nat) = 100 := h
                    simp at h2
                  · intro h
                    have h2 : JStatus.failed = JStatus.completed := h
                    simp at h2
          · have htail : studioTail jobId so (studioPollLoop jobId so 1 120
      (jWithProject pid (jStudioStart j0))).2
                = [Ev.dbUpdate jobId (jWithSnapshot snap (studioPollLoop jobId so 1 120
      (jWithProject pid (jStudioStart j0))).2.1),
                  Ev.fileWrite (jobAudioPath jobId) so.downloadAudio,
                  Ev.dbUpdate jobId (jStudioDone jobId so.probeDuration
                    (jWithSnapshot snap (studioPollLoop jobId so 1 120
      (jWithProject pid (jStudioStart j0))).2.1)),
                  Ev.webhook jobId] := by
              simp only [studioTail, hO]
              rw [if_neg hd]
            rw [hstates, htail]
            refine ⟨?_, ?_, ?_⟩
            · rw [show (j0 :: jStudioStart j0 :: (jWithProject pid (jStudioStart j0)) ::
                  (dbRecs (studioPollLoop jobId so 1 120
      (jWithProject pid (jStudioStart j0))).1 ++
                    dbRecs [Ev.dbUpdate jobId
                      (jWithSnapshot snap (studioPollLoop jobId so 1 120
      (jWithProject pid (jStudioStart j0))).2.1),
                      Ev.fileWrite (jobAudioPath jobId) so.downloadAudio,
                      Ev.dbUpdate jobId
                        (jStudioDone jobId so.probeDuration
                          (jWithSnapshot snap (studioPollLoop jobId so 1 120
      (jWithProject pid (jStudioStart j0))).2.1)),
                      Ev.webhook jobId]))
                = (j0 :: jStudioStart j0 :: (jWithProject pid (jStudioStart j0)) :: dbRecs (studioPollLoop jobId so 1 120
      (jWithProject pid (jStudioStart j0))).1)
                  ++ [jWithSnapshot snap (studioPollLoop jobId so 1 120
      (jWithProject pid (jStudioStart j0))).2.1,
                    jStudioDone jobId so.probeDuration
                      (jWithSnapshot snap (studioPollLoop jobId so 1 120
      (jWithProject pid (jStudioStart j0))).2.1)] from by
                simp [dbRecs]]
              refine List.Chain'.append hpre ?_ ?_
              · rw [List.chain'_cons]
                exact ⟨by simp [jWithSnapshot, jStudioDone],
                  List.chain'_singleton _⟩
              · intro x hx y hy
                rw [hprelast] at hx
                have hx2 : (studioPollLoop jobId so 1 120
      (jWithProject pid (jStudioStart j0))).2.1 = x := by simpa using hx
                have hy2 : jWithSnapshot snap (studioPollLoop jobId so 1 120
      (jWithProject pid (jStudioStart j0))).2.1 = y := by
                  simpa using hy
                rw [← hx2, ← hy2]
                exact Nat.le_trans c4 (by simp [jWithSnapshot])
            · rw [show (j0 :: jStudioStart j0 :: (jWithProject pid (jStudioStart j0)) ::
                  (dbRecs (studioPollLoop jobId so 1 120
      (jWithProject pid (jStudioStart j0))).1 ++
                    dbRecs [Ev.dbUpdate jobId
                      (jWithSnapshot snap (studioPollLoop jobId so 1 120
      (jWithProject pid (jStudioStart j0))).2.1),
                      Ev.fileWrite (jobAudioPath jobId) so.downloadAudio,
                      Ev.dbUpdate jobId
                        (jStudioDone jobId so.probeDuration
                          (jWithSnapshot snap (studioPollLoop jobId so 1 120
      (jWithProject pid (jStudioStart j0))).2.1)),
                      Ev.webhook jobId]))
                = (j0 :: jStudioStart j0 :: (jWithProject pid (jStudioStart j0)) ::
                    (dbRecs (studioPollLoop jobId so 1 120
      (jWithProject pid (jStudioStart j0))).1 ++
                      [jWithSnapshot snap (studioPollLoop jobId so 1 120
      (jWithProject pid (jStudioStart j0))).2.1]))
                  ++ [jStudioDone jobId so.probeDuration
                    (jWithSnapshot snap (studioPollLoop jobId so 1 120
      (jWithProject pid (jStudioStart j0))).2.1)] from by
                simp [dbRecs],
                List.dropLast_concat]
              intro st hs
              rcases List.mem_cons.mp hs with rfl | hs
              · rw [hst]
                exact ⟨by simp, by simp⟩
              rcases List.mem_cons.mp hs with rfl | hs
              · exact ⟨by simp [jStudioStart], by simp [jStudioStart]⟩
              rcases List.mem_cons.mp hs with rfl | hs
              · exact ⟨by simp [jWithProject, jStudioStart],
                  by simp [jWithProject, jStudioStart]⟩
              rcases List.mem_append.mp hs with hs3 | hs3
              · rw [hallM st hs3]
                exact ⟨by simp [jWithProject, jStudioStart],
                  by simp [jWithProject, jStudioStart]⟩
              · have hs4 : st = jWithSnapshot snap (studioPollLoop jobId so 1 120
      (jWithProject pid (jStudioStart j0))).2.1 := by
                  simpa using hs3
                subst hs4
                have h2 : (jWithSnapshot snap (studioPollLoop jobId so 1 120
      (jWithProject pid (jStudioStart j0))).2.1).status
                    = (jWithProject pid (jStudioStart j0)).status := hres
                rw [h2]
                exact ⟨by simp [jWithProject, jStudioStart],
                  by simp [jWithProject, jStudioStart]⟩
            · intro st hs
              rcases List.mem_cons.mp hs with rfl | hs
              · constructor
                · intro h
                  rw [hp0] at h
                  simp at h
                · intro h
                  rw [hst] at h
                  simp at h
              rcases List.mem_cons.mp hs with rfl | hs
              · constructor
                · intro h
                  have h2 : (10 : Nat) = 100 := h
                  simp at h2
                · intro h
                  have h2 : JStatus.processing = JStatus.completed := h
                  simp at h2
              rcases List.mem_cons.mp hs with rfl | hs
              · constructor
                · intro h
                  have h2 : (30 : Nat) = 100 := h
                  simp at h2
                · intro h
                  have h2 : JStatus.processing = JStatus.completed := h
                  simp at h2
              rcases List.mem_append.mp hs with hs3 | hs3
              · have hle := c2 st hs3
                constructor
                · intro h
                  omega
                · intro h
                  rw [hallM st hs3] at h
                  have h2 : JStatus.processing = JStatus.completed := h
                  simp at h2
              · rcases (by simpa [dbRecs] using hs3 :
                    st = jWithSnapshot snap (studioPollLoop jobId so 1 120
      (jWithProject pid (jStudioStart j0))).2.1 ∨
                    st = jStudioDone jobId so.probeDuration
                      (jWithSnapshot snap (studioPollLoop jobId so 1 120
      (jWithProject pid (jStudioStart j0))).2.1)) with rfl | rfl
                · constructor
                  · intro h
                    have h2 : (85 : Nat) = 100 := h
                    simp at h2
                  · intro h
                    have h2 : (jWithSnapshot snap (studioPollLoop jobId so 1 120
      (jWithProject pid (jStudioStart j0))).2.1).status
                        = (jWithProject pid (jStudioStart j0)).status := hres
                    rw [h2] at h
                    have h3 : JStatus.processing = JStatus.completed := h
                    simp at h3
                · exact ⟨fun h => rfl, fun h => rfl⟩

/-- C4: over the sequence of record updates applied by either orchestrator,
the `progress` field is monotonically non-decreasing, a terminal status
appears only as the final observable record (so progress is frozen once
terminal), and progress equals exactly 100 iff the status is `completed`. -/
theorem job_progress_monotone (w : World) (jobId : Nat) (o : TtsOracle)
    (so : StudioOracle) (j0 : JobDoc)
    (hlook : lookupJob w.db jobId = some j0)
    (hst : j0.status = JStatus.queued) (hp0 : j0.progress = 0) :
    (List.Chain' (fun a b => a.progress ≤ b.progress)
        (jobStates j0 (process_tts_job w jobId o)) ∧
      (∀ st ∈ (jobStates j0 (process_tts_job w jobId o)).dropLast,
        st.status ≠ JStatus.completed ∧ st.status ≠ JStatus.failed) ∧
      (∀ st ∈ jobStates j0 (process_tts_job w jobId o),
        st.progress = 100 ↔ st.status = JStatus.completed)) ∧
    (List.Chain' (fun a b => a.progress ≤ b.progress)
        (jobStates j0 (process_studio_job w jobId so)) ∧
      (∀ st ∈ (jobStates j0 (process_studio_job w jobId so)).dropLast,
        st.status ≠ JStatus.completed ∧ st.status ≠ JStatus.failed) ∧
      (∀ st ∈ jobStates j0 (process_studio_job w jobId so),
        st.progress = 100 ↔ st.status = JStatus.completed)) :=
  ⟨tts_progress_invariants w jobId o j0 hlook hst hp0,
    studio_progress_invariants w jobId so j0 hlook hst hp0⟩

/-- Witness for the progress invariants at the sample fixtures. -/
theorem job_progress_monotone_witness :
    (List.Chain' (fun a b => a.progress ≤ b.progress)
        (jobStates sampleJob
          (process_tts_job sampleWorld 1 sampleOracle)) ∧
      (∀ st ∈ (jobStates sampleJob
          (process_tts_job sampleWorld 1 sampleOracle)).dropLast,
        st.status ≠ JStatus.completed ∧ st.status ≠ JStatus.failed) ∧
      (∀ st ∈ jobStates sampleJob
          (process_tts_job sampleWorld 1 sampleOracle),
        st.progress = 100 ↔ st.status = JStatus.completed)) ∧
    (List.Chain' (fun a b => a.progress ≤ b.progress)
        (jobStates sampleJob
          (process_studio_job sampleWorld 1 sampleStudioOracle)) ∧
      (∀ st ∈ (jobStates sampleJob
          (process_studio_job sampleWorld 1 sampleStudioOracle)).dropLast,
        st.status ≠ JStatus.completed ∧ st.status ≠ JStatus.failed) ∧
      (∀ st ∈ jobStates sampleJob
          (process_studio_job sampleWorld 1 sampleStudioOracle),
        st.progress = 100 ↔ st.status = JStatus.completed)) :=
  job_progress_monotone sampleWorld 1 sampleOracle sampleStudioOracle
    sampleJob rfl rfl rfl

/-! ## The studio poll schedule (C7) -/

theorem pollSchedule_db (i : Nat) (j : JobDoc) (l : List Ev) :
    pollSchedule (Ev.dbUpdate i j :: l) = pollSchedule l := rfl

theorem pollSchedule_create (r : StudioRequest) (l : List Ev) :
    pollSchedule (Ev.studioCreate r :: l) = pollSchedule l := rfl

theorem pollSchedule_append (l1 l2 : List Ev) :
    pollSchedule (l1 ++ l2) = pollSchedule l1 ++ pollSchedule l2 := by
  rw [pollSchedule, pollSchedule, pollSchedule, List.filter_append]

theorem pollCount_db (i : Nat) (j : JobDoc) (l : List Ev) :
    pollCount (Ev.dbUpdate i j :: l) = pollCount l := rfl

theorem pollCount_create (r : StudioRequest) (l : List Ev) :
    pollCount (Ev.studioCreate r :: l) = pollCount l := rfl

theorem pollCount_append (l1 l2 : List Ev) :
    pollCount (l1 ++ l2) = pollCount l1 + pollCount l2 := by
  rw [pollCount, pollCount, pollCount, List.filter_append,
    List.length_append]

/-- The expected 5-unit sleep/poll alternation, unfolded by one attempt. -/
theorem schedule_cons (attempt m : Nat) :
    ((List.range (m + 1)).map fun t =>
        [Ev.sleep 5, Ev.poll (attempt + t)]).flatten
      = Ev.sleep 5 :: Ev.poll attempt ::
        ((List.range m).map fun t =>
          [Ev.sleep 5, Ev.poll (attempt + 1 + t)]).flatten := by
  rw [List.range_succ_eq_map m, List.map_cons, List.flatten_cons,
    List.map_map]
  rw [show ((fun t => [Ev.sleep 5, Ev.poll (attempt + t)]) ∘ Nat.succ)
      = fun t => [Ev.sleep 5, Ev.poll (attempt + 1 + t)] from ?_]
  · simp
  · funext t
    simp only [Function.comp_apply]
    rw [show attempt + Nat.succ t = attempt + 1 + t by omega]

/-- The sleep/poll alternation carries no record update. -/
theorem dbRecs_schedule (attempt m : Nat) :
    dbRecs (((List.range m).map fun t =>
      [Ev.sleep 5, Ev.poll (attempt + t)]).flatten) = [] := by
  rw [dbRecs]
  rw [List.filterMap_eq_nil_iff.mpr ?_]
  intro a ha
  obtain ⟨l, hl, hal⟩ := List.mem_flatten.mp ha
  obtain ⟨t, ht, rfl⟩ := List.mem_map.mp hl
  rcases (by simpa using hal : a = Ev.sleep 5 ∨ a = Ev.poll (attempt + t))
    with rfl | rfl
  · rfl
  · rfl

/-- Each attempt of the alternation contributes exactly one poll. -/
theorem pollCount_schedule (attempt : Nat) :
    ∀ m, pollCount (((List.range m).map fun t =>
        [Ev.sleep 5, Ev.poll (attempt + t)]).flatten) = m := by
  intro m
  induction m with
  | zero => rfl
  | succ m ih =>
    rw [List.range_succ, List.map_append, List.flatten_append,
      pollCount_append, ih]
    rfl

/-- Whatever the oracle answers, the poll loop sleeps 5 units before each
attempt and numbers its attempts consecutively, within the fuel budget. -/
theorem studioPollLoop_schedule (jobId : Nat) (o : StudioOracle) :
    ∀ (fuel attempt : Nat) (j : JobDoc),
    ∃ m, m ≤ fuel ∧
      pollSchedule (studioPollLoop jobId o attempt fuel j).1
        = ((List.range m).map fun t =>
            [Ev.sleep 5, Ev.poll (attempt + t)]).flatten := by
  intro fuel
  induction fuel with
  | zero =>
    intro attempt j
    exact ⟨0, Nat.le_refl 0, rfl⟩
  | succ fuel ih =>
    intro attempt j
    cases hpr : o.pollResult attempt with
    | non200 =>
      obtain ⟨m, hm, hsch⟩ := ih (attempt + 1) j
      refine ⟨m + 1, by omega, ?_⟩
      rw [show (studioPollLoop jobId o attempt (fuel + 1) j).1
          = Ev.sleep 5 :: Ev.poll attempt ::
            (studioPollLoop jobId o (attempt + 1) fuel j).1 from by
        simp only [studioPollLoop, hpr]]
      rw [schedule_cons, ← hsch]
      rfl
    | state st err snaps =>
      by_cases hready : st = "ready"
      · subst hready
        cases snaps with
        | non200 =>
          obtain ⟨m, hm, hsch⟩ := ih (attempt + 1)
            (jPollProg "ready" attempt j)
          refine ⟨m + 1, by omega, ?_⟩
          rw [show (studioPollLoop jobId o attempt (fuel + 1) j).1
              = Ev.sleep 5 :: Ev.poll attempt ::
                Ev.dbUpdate jobId (jPollProg "ready" attempt j) ::
                (studioPollLoop jobId o (attempt + 1) fuel
                  (jPollProg "ready" attempt j)).1 from by
            simp only [studioPollLoop, hpr, if_true]]
          rw [schedule_cons, ← hsch]
          rfl
        | snaps l =>
          cases l with
          | nil =>
            obtain ⟨m, hm, hsch⟩ := ih (attempt + 1)
              (jPollProg "ready" attempt j)
            refine ⟨m + 1, by omega, ?_⟩
            rw [show (studioPollLoop jobId o attempt (fuel + 1) j).1
                = Ev.sleep 5 :: Ev.poll attempt ::
                  Ev.dbUpdate jobId (jPollProg "ready" attempt j) ::
                  (studioPollLoop jobId o (attempt + 1) fuel
                    (jPollProg "ready" attempt j)).1 from by
              simp only [studioPollLoop, hpr, if_true]]
            rw [schedule_cons, ← hsch]
            rfl
          | cons sid rest2 =>
            refine ⟨1, by omega, ?_⟩
            rw [show (studioPollLoop jobId o attempt (fuel + 1) j).1
                = [Ev.sleep 5, Ev.poll attempt,
                  Ev.dbUpdate jobId (jPollProg "ready" attempt j)] from by
              simp only [studioPollLoop, hpr, if_true]]
            rfl
      · by_cases hfailed : st = "failed"
        · subst hfailed
          refine ⟨1, by omega, ?_⟩
          rw [show (studioPollLoop jobId o attempt (fuel + 1) j).1
              = [Ev.sleep 5, Ev.poll attempt,
                Ev.dbUpdate jobId (jPollProg "failed" attempt j),
                Ev.dbUpdate jobId
                  (jFailed ("Studio conversion failed: " ++
                    err.getD "Unknown error")
                    (jPollProg "failed" attempt j))] from by
            simp only [studioPollLoop, hpr, if_true]
            rw [if_neg hready]]
          rfl
        · obtain ⟨m, hm, hsch⟩ := ih (attempt + 1) (jPollProg st attempt j)
          refine ⟨m + 1, by omega, ?_⟩
          rw [show (studioPollLoop jobId o attempt (fuel + 1) j).1
              = Ev.sleep 5 :: Ev.poll attempt ::
                Ev.dbUpdate jobId (jPollProg st attempt j) ::
                (studioPollLoop jobId o (attempt + 1) fuel
                  (jPollProg st attempt j)).1 from by
            simp only [studioPollLoop, hpr]
            rw [if_neg hready, if_neg hfailed]]
          rw [schedule_cons, ← hsch]
          rfl

/-- The post-loop tail contributes nothing to the poll schedule. -/
theorem pollSchedule_studioTail (jobId : Nat) (o : StudioOracle)
    (r : JobDoc × PollOutcome) :
    pollSchedule (studioTail jobId o r) = [] := by
  obtain ⟨j, out⟩ := r
  cases out with
  | remoteFailed => rfl
  | exhausted => rfl
  | snapshot sid =>
    cases sid with
    | none => rfl
    | some s =>
      by_cases h : o.downloadStatus ≠ 200
      · rw [show studioTail jobId o (j, PollOutcome.snapshot (some s))
            = [Ev.dbUpdate jobId (jWithSnapshot s j),
              Ev.dbUpdate jobId
                (jFailed ("Failed to download audio: " ++
                  toString o.downloadStatus)
                  (jWithSnapshot s j))] from by
          simp only [studioTail]
          rw [if_pos h]]
        rfl
      · rw [show studioTail jobId o (j, PollOutcome.snapshot (some s))
            = [Ev.dbUpdate jobId (jWithSnapshot s j),
              Ev.fileWrite (jobAudioPath jobId) o.downloadAudio,
              Ev.dbUpdate jobId (jStudioDone jobId o.probeDuration
                (jWithSnapshot s j)),
              Ev.webhook jobId] from by
          simp only [studioTail]
          rw [if_neg h]]
        rfl

/-- When every poll returns a non-200, the loop spends its whole budget,
changes no record and resolves to `exhausted`. -/
theorem studioPollLoop_non200_all (jobId : Nat) (o : StudioOracle)
    (hall : ∀ t, o.pollResult t = .non200) :
    ∀ (fuel attempt : Nat) (j : JobDoc),
    studioPollLoop jobId o attempt fuel j
      = (((List.range fuel).map fun t =>
          [Ev.sleep 5, Ev.poll (attempt + t)]).flatten, j, .exhausted) := by
  intro fuel
  induction fuel with
  | zero =>
    intro attempt j
    rfl
  | succ fuel ih =>
    intro attempt j
    rw [show studioPollLoop jobId o attempt (fuel + 1) j
        = (Ev.sleep 5 :: Ev.poll attempt ::
            (studioPollLoop jobId o (attempt + 1) fuel j).1,
          (studioPollLoop jobId o (attempt + 1) fuel j).2) from by
      simp only [studioPollLoop, hall attempt]]
    rw [ih (attempt + 1) j, schedule_cons]

/-- C7: the batch poll loop performs at most 120 attempts, each preceded by
a 5-unit sleep and numbered consecutively from 1; a non-200 poll response is
tolerated and simply retried on the next interval without touching the
record or the resolution; a remote `failed` state resolves the job to
`failed` immediately with the remote error; whenever the run obtains no
snapshot identifier within the attempt budget — the budget is exhausted for
any reason, or a snapshot listing without an id is returned — the job ends
`failed` with the timeout error; and when every poll stays non-200 the
budget is spent in full: exactly 120 attempts. -/
theorem process_studio_job_polling (w : World) (jobId : Nat)
    (so : StudioOracle) (j0 : JobDoc) (pid : String)
    (hlook : lookupJob w.db jobId = some j0)
    (hcreate : so.createStatus = 200)
    (hpid : so.createProjectId = some pid) :
    (∃ m, m ≤ 120 ∧
      pollSchedule (process_studio_job w jobId so)
        = ((List.range m).map fun t =>
            [Ev.sleep 5, Ev.poll (1 + t)]).flatten) ∧
    (∀ attempt fuel j, so.pollResult attempt = .non200 →
      studioPollLoop jobId so attempt (fuel + 1) j
        = (Ev.sleep 5 :: Ev.poll attempt ::
            (studioPollLoop jobId so (attempt + 1) fuel j).1,
          (studioPollLoop jobId so (attempt + 1) fuel j).2)) ∧
    (∀ attempt fuel j err snaps,
      so.pollResult attempt = .state "failed" err snaps →
      (studioPollLoop jobId so attempt (fuel + 1) j).1
          = [Ev.sleep 5, Ev.poll attempt,
            Ev.dbUpdate jobId (jPollProg "failed" attempt j),
            Ev.dbUpdate jobId (jFailed ("Studio conversion failed: " ++
              err.getD "Unknown error") (jPollProg "failed" attempt j))] ∧
        (studioPollLoop jobId so attempt (fuel + 1) j).2.1
          = jFailed ("Studio conversion failed: " ++
              err.getD "Unknown error") (jPollProg "failed" attempt j) ∧
        (studioPollLoop jobId so attempt (fuel + 1) j).2.2
          = PollOutcome.remoteFailed) ∧
    (((studioPollLoop jobId so 1 120
          (jWithProject pid (jStudioStart j0))).2.2
        = PollOutcome.exhausted ∨
      (studioPollLoop jobId so 1 120
          (jWithProject pid (jStudioStart j0))).2.2
        = PollOutcome.snapshot none) →
      (jobStates j0 (process_studio_job w jobId so)).getLast?
        = some (jFailed "Timeout waiting for Studio conversion"
            (studioPollLoop jobId so 1 120
              (jWithProject pid (jStudioStart j0))).2.1)) ∧
    ((∀ t, so.pollResult t = .non200) →
      (jobStates j0 (process_studio_job w jobId so)).getLast?
        = some (jFailed "Timeout waiting for Studio conversion" (jWithProject pid (jStudioStart j0))) ∧
      pollCount (process_studio_job w jobId so) = 120) := by
  have hc : ¬(so.createStatus ≠ 200) := fun h => h hcreate
  have htr : process_studio_job w jobId so
      = Ev.dbUpdate jobId (jStudioStart j0) ::
        Ev.studioCreate (mkStudioRequest j0.tts_config) ::
        ((Ev.dbUpdate jobId (jWithProject pid (jStudioStart j0)) :: (studioPollLoop jobId so 1 120
        (jWithProject pid (jStudioStart j0))).1) ++
          studioTail jobId so (studioPollLoop jobId so 1 120
        (jWithProject pid (jStudioStart j0))).2) := by
    simp only [process_studio_job, hlook, hpid]
    rw [if_neg hc]
  refine ⟨?_, ?_, ?_, ?_, ?_⟩
  · obtain ⟨m, hm, hsch⟩ := studioPollLoop_schedule jobId so 120 1 (jWithProject pid (jStudioStart j0))
    refine ⟨m, hm, ?_⟩
    rw [htr, pollSchedule_db, pollSchedule_create, pollSchedule_append,
      pollSchedule_db, pollSchedule_studioTail, hsch, List.append_nil]
  · intro attempt fuel j hpr
    simp only [studioPollLoop, hpr]
  · intro attempt fuel j err snaps hpr
    refine ⟨?_, ?_, ?_⟩ <;>
      · rw [show studioPollLoop jobId so attempt (fuel + 1) j
            = ([Ev.sleep 5, Ev.poll attempt,
                Ev.dbUpdate jobId (jPollProg "failed" attempt j),
                Ev.dbUpdate jobId
                  (jFailed ("Studio conversion failed: " ++
                    err.getD "Unknown error")
                    (jPollProg "failed" attempt j))],
              jFailed ("Studio conversion failed: " ++
                err.getD "Unknown error")
                (jPollProg "failed" attempt j),
              PollOutcome.remoteFailed) from by
          simp only [studioPollLoop, hpr, if_true]
          rw [if_neg (by simp)]]
  · intro hto
    have htail : studioTail jobId so (studioPollLoop jobId so 1 120
        (jWithProject pid (jStudioStart j0))).2
        = [Ev.dbUpdate jobId
            (jFailed "Timeout waiting for Studio conversion"
              (studioPollLoop jobId so 1 120
                (jWithProject pid (jStudioStart j0))).2.1)] := by
      cases hO : (studioPollLoop jobId so 1 120
          (jWithProject pid (jStudioStart j0))).2.2 with
      | exhausted => simp only [studioTail, hO]
      | remoteFailed =>
        rcases hto with h | h <;> rw [hO] at h <;> simp at h
      | snapshot sid =>
        rcases hto with h | h
        · rw [hO] at h
          simp at h
        · rw [hO] at h
          have hsid : sid = none := by
            injection h with hsid
          subst hsid
          simp only [studioTail, hO]
    have hdb : dbRecs (process_studio_job w jobId so)
        = (jStudioStart j0 :: jWithProject pid (jStudioStart j0) ::
            dbRecs (studioPollLoop jobId so 1 120
              (jWithProject pid (jStudioStart j0))).1) ++
          [jFailed "Timeout waiting for Studio conversion"
            (studioPollLoop jobId so 1 120
              (jWithProject pid (jStudioStart j0))).2.1] := by
      rw [htr, htail]
      rw [show dbRecs (Ev.dbUpdate jobId (jStudioStart j0) ::
          Ev.studioCreate (mkStudioRequest j0.tts_config) ::
          ((Ev.dbUpdate jobId (jWithProject pid (jStudioStart j0)) ::
            (studioPollLoop jobId so 1 120
              (jWithProject pid (jStudioStart j0))).1) ++
            [Ev.dbUpdate jobId
              (jFailed "Timeout waiting for Studio conversion"
                (studioPollLoop jobId so 1 120
                  (jWithProject pid (jStudioStart j0))).2.1)]))
        = jStudioStart j0 ::
          dbRecs ((Ev.dbUpdate jobId
              (jWithProject pid (jStudioStart j0)) ::
            (studioPollLoop jobId so 1 120
              (jWithProject pid (jStudioStart j0))).1) ++
            [Ev.dbUpdate jobId
              (jFailed "Timeout waiting for Studio conversion"
                (studioPollLoop jobId so 1 120
                  (jWithProject pid (jStudioStart j0))).2.1)])
          from rfl, dbRecs_append]
      simp [dbRecs]
    rw [jobStates_eq, hdb, ← List.cons_append, List.getLast?_append]
    rfl
  · intro hall
    have hloop := studioPollLoop_non200_all jobId so hall 120 1 (jWithProject pid (jStudioStart j0))
    have htail : studioTail jobId so (studioPollLoop jobId so 1 120
        (jWithProject pid (jStudioStart j0))).2
        = [Ev.dbUpdate jobId
            (jFailed "Timeout waiting for Studio conversion" (jWithProject pid (jStudioStart j0)))] := by
      rw [hloop]
      rfl
    constructor
    · rw [jobStates_eq, htr, htail]
      rw [show dbRecs (Ev.dbUpdate jobId (jStudioStart j0) ::
          Ev.studioCreate (mkStudioRequest j0.tts_config) ::
          ((Ev.dbUpdate jobId (jWithProject pid (jStudioStart j0)) :: (studioPollLoop jobId so 1 120
        (jWithProject pid (jStudioStart j0))).1) ++
            [Ev.dbUpdate jobId
              (jFailed "Timeout waiting for Studio conversion" (jWithProject pid (jStudioStart j0)))]))
        = jStudioStart j0 ::
          dbRecs ((Ev.dbUpdate jobId (jWithProject pid (jStudioStart j0)) :: (studioPollLoop jobId so 1 120
        (jWithProject pid (jStudioStart j0))).1) ++
            [Ev.dbUpdate jobId
              (jFailed "Timeout waiting for Studio conversion" (jWithProject pid (jStudioStart j0)))])
          from rfl, dbRecs_append]
      rw [show dbRecs (Ev.dbUpdate jobId (jWithProject pid (jStudioStart j0)) :: (studioPollLoop jobId so 1 120
        (jWithProject pid (jStudioStart j0))).1)
          = (jWithProject pid (jStudioStart j0)) :: dbRecs (studioPollLoop jobId so 1 120
        (jWithProject pid (jStudioStart j0))).1 from rfl]
      rw [show (studioPollLoop jobId so 1 120
        (jWithProject pid (jStudioStart j0))).1
          = ((List.range 120).map fun t =>
              [Ev.sleep 5, Ev.poll (1 + t)]).flatten from by rw [hloop]]
      rw [dbRecs_schedule]
      rfl
    · rw [htr]
      rw [pollCount_db]
      rw [pollCount_create]
      rw [pollCount_append]
      rw [pollCount_db]
      rw [htail, pollCount_db]
      rw [show (studioPollLoop jobId so 1 120
        (jWithProject pid (jStudioStart j0))).1
          = ((List.range 120).map fun t =>
              [Ev.sleep 5, Ev.poll (1 + t)]).flatten from by rw [hloop]]
      rw [pollCount_schedule 1 120]
      rfl

/-- Witness for the polling discipline at the sample fixtures. -/
theorem process_studio_job_polling_witness :
    (∃ m, m ≤ 120 ∧
      pollSchedule (process_studio_job sampleWorld 1 sampleStudioOracle)
        = ((List.range m).map fun t =>
            [Ev.sleep 5, Ev.poll (1 + t)]).flatten) ∧
    (∀ attempt fuel j, sampleStudioOracle.pollResult attempt = .non200 →
      studioPollLoop 1 sampleStudioOracle attempt (fuel + 1) j
        = (Ev.sleep 5 :: Ev.poll attempt ::
            (studioPollLoop 1 sampleStudioOracle (attempt + 1) fuel j).1,
          (studioPollLoop 1 sampleStudioOracle (attempt + 1) fuel j).2)) ∧
    (∀ attempt fuel j err snaps,
      sampleStudioOracle.pollResult attempt = .state "failed" err snaps →
      (studioPollLoop 1 sampleStudioOracle attempt (fuel + 1) j).1
          = [Ev.sleep 5, Ev.poll attempt,
            Ev.dbUpdate 1 (jPollProg "failed" attempt j),
            Ev.dbUpdate 1 (jFailed ("Studio conversion failed: " ++
              err.getD "Unknown error") (jPollProg "failed" attempt j))] ∧
        (studioPollLoop 1 sampleStudioOracle attempt (fuel + 1) j).2.1
          = jFailed ("Studio conversion failed: " ++
              err.getD "Unknown error") (jPollProg "failed" attempt j) ∧
        (studioPollLoop 1 sampleStudioOracle attempt (fuel + 1) j).2.2
          = PollOutcome.remoteFailed) ∧
    (((studioPollLoop 1 sampleStudioOracle 1 120
          (jWithProject "p" (jStudioStart sampleJob))).2.2
        = PollOutcome.exhausted ∨
      (studioPollLoop 1 sampleStudioOracle 1 120
          (jWithProject "p" (jStudioStart sampleJob))).2.2
        = PollOutcome.snapshot none) →
      (jobStates sampleJob
          (process_studio_job sampleWorld 1 sampleStudioOracle)).getLast?
        = some (jFailed "Timeout waiting for Studio conversion"
            (studioPollLoop 1 sampleStudioOracle 1 120
              (jWithProject "p" (jStudioStart sampleJob))).2.1)) ∧
    ((∀ t, sampleStudioOracle.pollResult t = .non200) →
      (jobStates sampleJob
          (process_studio_job sampleWorld 1 sampleStudioOracle)).getLast?
        = some (jFailed "Timeout waiting for Studio conversion"
            (jWithProject "p" (jStudioStart sampleJob))) ∧
      pollCount (process_studio_job sampleWorld 1 sampleStudioOracle)
        = 120) :=
  process_studio_job_polling sampleWorld 1 sampleStudioOracle sampleJob "p"
    rfl rfl rfl

end Larynx
